import Mathlib

/-!
# Basic 2D engine: shapes, textured sprite, frame animator, player

A shallow embedding of `lab5.cpp` (`report.cpp` holds the same classes; its
`BitmapObject::draw` omits the four `cout` lines).

Conventions of the embedding.

* A C++ `int` is an `Int`. Signed overflow is undefined behaviour in C++, so the
  embedding describes the executions in which no `int` operation overflows.
* A `Uint32` is a `Nat` below `2^32`; its arithmetic is written with an explicit
  `% U32`, the conversion of an `int` to `unsigned int` is `toU32` and the
  conversion of a `Uint32` to `int` is `toInt32`.
* A `float` is the rational number it denotes, in IEEE 754 binary32: every
  `float` operation is the exact operation followed by one rounding to the
  nearest `float`, a tie going to the even significand (`toFloat`), and the
  conversion of an `int` to `float` rounds in the same way (`intToFloat`). A
  `double` is treated likewise in binary64 (`toDouble`). Each operation is
  rounded on its own (no fused multiply-add, no excess precision). Infinities
  and NaN are not modelled and the exponent has no upper limit: an execution in
  which a `float` overflows or becomes NaN ends in a conversion to `int` whose
  behaviour is undefined, and the embedding describes the other executions.
  The functions `cos` and `sin` of the C library, whose values no standard
  fixes, are a parameter (`Libm`); `M_PI` is the `double` nearest to pi. A
  conversion `static_cast<int>` is `truncToInt`, `round` is `roundToInt`, and
  the `/` of two `int`s is `Int.tdiv`.
* A pointer is an `Option Nat`: `none` is `NULL`, `some a` is a live handle `a`.
  A `SDL_Color*` that is only read is the colour it points to.
* A member function is a function from the object to the new object paired with
  the list of effects it performed, oldest first (`Effect`).
* What the outside world decides (the clock, whether an image loads, what an
  unwritten member holds) is a parameter of the function that reads it.
* Non-owning `renderer` pointers and `filename` references carry no state of
  their own and are left out, and so are the members of `SpriteObject` that
  shadow those of `BitmapObject` and are never read (`srcRect`).
-/

namespace Engine2D

/-! ## Machine arithmetic -/

/-- The number of values of a `Uint32`. -/
def U32 : Nat := 4294967296

/-- Subtraction of two `Uint32` values: the difference modulo `2^32`. -/
def u32sub (a b : Nat) : Nat := (a % U32 + (U32 - b % U32)) % U32

/-- The value an `int` takes when a comparison with an `unsigned int` converts
it to `unsigned int`: its residue modulo `2^32`. -/
def toU32 (i : Int) : Nat := (i % (U32 : Int)).toNat

/-- The value a `Uint32` takes when it is stored in an `int`: itself below
`2^31`, and `2^32` less from there on. -/
def toInt32 (n : Nat) : Int :=
  if n % U32 < 2147483648 then ((n % U32 : Nat) : Int) else ((n % U32 : Nat) : Int) - (U32 : Int)

/-- Rounding of a rational to a nearest integer, a tie going to the even
integer. -/
def roundHalfEven (y : ℚ) : Int :=
  if y - Int.floor y < 1 / 2 then Int.floor y
  else if 1 / 2 < y - Int.floor y then Int.floor y + 1
  else if Int.floor y % 2 = 0 then Int.floor y
  else Int.floor y + 1

/-- The value nearest to `x`, a tie going to the even significand, in the binary
floating-point format with `p` significand bits and least normal exponent
`emin`: a multiple of `2^(e - (p - 1))`, where `2^e ≤ |x| < 2^(e + 1)`, and of
`2^(emin - (p - 1))` when `|x|` is below `2^emin` (the subnormal range). The
exponent has no upper limit. -/
def roundTo (p : Nat) (emin : Int) (x : ℚ) : ℚ :=
  if x = 0 then 0
  else
    (roundHalfEven (x / 2 ^ (max (Int.log 2 |x|) emin - ((p : Int) - 1))) : ℚ)
      * 2 ^ (max (Int.log 2 |x|) emin - ((p : Int) - 1))

/-- The value a `float` takes when it is given the real number `x`: binary32,
24 significand bits, least normal exponent -126. -/
def toFloat (x : ℚ) : ℚ := roundTo 24 (-126) x

/-- The value a `double` takes when it is given the real number `x`: binary64,
53 significand bits, least normal exponent -1022. -/
def toDouble (x : ℚ) : ℚ := roundTo 53 (-1022) x

/-- The conversion of an `int` to `float`. -/
def intToFloat (n : Int) : ℚ := toFloat (n : ℚ)

/-- The `float` sum `a + b`. -/
def fadd (a b : ℚ) : ℚ := toFloat (a + b)

/-- The `float` difference `a - b`. -/
def fsub (a b : ℚ) : ℚ := toFloat (a - b)

/-- The `float` product `a * b`. -/
def fmul (a b : ℚ) : ℚ := toFloat (a * b)

/-- The `float` quotient `a / b`, for a divisor other than zero (the shapes
divide by the constant 2 only). -/
def fdiv (a b : ℚ) : ℚ := toFloat (a / b)

/-- The constant `M_PI` of `<cmath>`: the `double` nearest to pi,
`0x1.921fb54442d18p+1`. -/
def M_PI : ℚ := 7074237752028440 / 2251799813685248

/-- The initialiser `angle * M_PI / 180.0f` of `float radians`: the `float`
angle is promoted to `double`, the product and the quotient are `double`
operations, and storing the quotient in a `float` rounds it once more. -/
def toRadians (angle : ℚ) : ℚ := toFloat (toDouble (toDouble (angle * M_PI) / 180))

/-- The conversion `static_cast<int>` of a `float`: truncation toward zero. -/
def truncToInt {K : Type} [LinearOrderedField K] [FloorRing K] (x : K) : Int :=
  if 0 ≤ x then Int.floor x else Int.ceil x

/-- The C library's `round`, stored in an `int`: the nearest integer, a half
going away from zero. -/
def roundToInt {K : Type} [LinearOrderedField K] [FloorRing K] (x : K) : Int :=
  if 0 ≤ x then Int.floor (x + 1 / 2) else Int.ceil (x - 1 / 2)

/-- The part of the C library the shapes call with a `float` argument: `cos` and
`sin`, which resolve to the overloads `std::cos(float)` and `std::sin(float)`
and return a `float`. -/
structure Libm where
  cos : ℚ → ℚ
  sin : ℚ → ℚ

/-! ## Host library values and calls -/

/-- A pointer: `none` is `NULL`. -/
abbrev Ptr := Option Nat

/-- The host library's rectangle. -/
structure SDL_Rect where
  x : Int
  y : Int
  w : Int
  h : Int
deriving DecidableEq

/-- The host library's colour, four 8-bit channels. -/
structure SDL_Color where
  r : Nat
  g : Nat
  b : Nat
  a : Nat
deriving DecidableEq

/-- The colour white, as `main` declares it. -/
def white : SDL_Color := ⟨255, 255, 255, 255⟩

/-- One observable step of a member function: a call into the host library, a
line written to `cout`, or the entry into `BitmapObject::setSrcRect` (recorded
with its arguments so that a trace shows when the source rectangle was set). -/
inductive Effect where
  | cout (line : String)
  | coutInt (v : Int)
  | setSrcRect (x y w h : Int)
  | SDL_FreeSurface (surface : Ptr)
  | SDL_CreateTextureFromSurface (surface : Ptr)
  | SDL_RenderCopy (texture : Ptr) (src dst : SDL_Rect)
  | SDL_SetRenderDrawColor (c : SDL_Color)
  | SDL_RenderDrawLine (x1 y1 x2 y2 : Int)
  | SDL_RenderDrawRect (rect : SDL_Rect)
  | SDL_RenderPresent
  | SDL_RenderClear
  | SDL_DestroyTexture (texture : Ptr)
  | SDL_BlitSurface (src : Ptr) (srcrect : Option SDL_Rect) (dst : Ptr)
      (dstrect : Option SDL_Rect)
  | SDL_Delay (ms : Nat)
deriving DecidableEq

/-- Whether an effect is a call on the renderer. -/
def Effect.isRendererCall : Effect → Bool
  | .SDL_RenderCopy _ _ _ => true
  | .SDL_SetRenderDrawColor _ => true
  | .SDL_RenderDrawLine _ _ _ _ => true
  | .SDL_RenderDrawRect _ => true
  | .SDL_RenderPresent => true
  | .SDL_RenderClear => true
  | _ => false

/-- Whether an effect is a line-draw call. -/
def Effect.isLineDraw : Effect → Bool
  | .SDL_RenderDrawLine _ _ _ _ => true
  | _ => false

/-- The rectangle of a `setSrcRect` entry, nothing for any other effect. -/
def Effect.srcRectSet : Effect → Option SDL_Rect
  | .setSrcRect x y w h => some ⟨x, y, w, h⟩
  | _ => none

/-- The source rectangles a trace sets, in order. -/
def emitted (fx : List Effect) : List SDL_Rect := fx.filterMap Effect.srcRectSet

/-- The renderer calls of a trace, in order. -/
def rendererCalls (fx : List Effect) : List Effect := fx.filter Effect.isRendererCall

/-- The line-draw calls of a trace, in order. -/
def lineDraws (fx : List Effect) : List Effect := fx.filter Effect.isLineDraw

/-- The milliseconds of an `SDL_Delay` call, nothing for any other effect. -/
def Effect.delayMs : Effect → Option Nat
  | .SDL_Delay ms => some ms
  | _ => none

/-- The sleeps a trace requests, in order. -/
def delays (fx : List Effect) : List Nat := fx.filterMap Effect.delayMs

/-- How many times a trace releases the surface `surface`. -/
def releases (surface : Ptr) (fx : List Effect) : Nat :=
  fx.count (.SDL_FreeSurface surface)

/-- Whether an effect is a surface-to-surface blit. -/
def Effect.isSurfaceBlit : Effect → Bool
  | .SDL_BlitSurface _ _ _ _ => true
  | _ => false

/-- The surface-to-surface blits of a trace, in order. -/
def surfaceBlits (fx : List Effect) : List Effect := fx.filter Effect.isSurfaceBlit

/-- Whether no blit of the trace comes before its first `setSrcRect` entry. -/
def noBlitBeforeSetSrcRect : List Effect → Bool
  | [] => true
  | .setSrcRect _ _ _ _ :: _ => true
  | .SDL_RenderCopy _ _ _ :: _ => false
  | _ :: rest => noBlitBeforeSetSrcRect rest

/-! ## Point2D and LineSegment -/

/-- The class `Point2D`: an integer pair. -/
structure Point2D where
  xInputed : Int := 0
  yInputed : Int := 0
deriving DecidableEq

/-- The method `Point2D::setPoint`. -/
def Point2D.setPoint (_p : Point2D) (x y : Int) : Point2D :=
  { xInputed := x, yInputed := y }

/-- The method `Point2D::getX`. -/
def Point2D.getX (p : Point2D) : Int := p.xInputed

/-- The method `Point2D::getY`. -/
def Point2D.getY (p : Point2D) : Int := p.yInputed

/-- The class `LineSegment`: two owned points and a colour. -/
structure LineSegment where
  start : Point2D
  «end» : Point2D
  color : SDL_Color
deriving DecidableEq

/-- The method `LineSegment::drawSegment`: colour, one line, present. -/
def LineSegment.drawSegment (l : LineSegment) : LineSegment × List Effect :=
  (l, [ .SDL_SetRenderDrawColor l.color,
        .SDL_RenderDrawLine l.start.getX l.start.getY l.«end».getX l.«end».getY,
        .SDL_RenderPresent ])

/-- The method `LineSegment::translate`. -/
def LineSegment.translate (l : LineSegment) (dx dy : Int) : LineSegment × List Effect :=
  let start := l.start.setPoint (l.start.getX + dx) (l.start.getY + dy)
  let l1 := { l with start := start }
  let e := l1.«end».setPoint (l1.«end».getX + dx) (l1.«end».getY + dy)
  let l2 := { l1 with «end» := e }
  l2.drawSegment

/-- The method `LineSegment::rotate`. Every operand is a `float` (an `int`
operand is converted), and `a + b - c` is `(a + b) - c`. -/
def LineSegment.rotate (l : LineSegment) (m : Libm) (angle : ℚ) : LineSegment × List Effect :=
  let x1 := l.start.getX
  let y1 := l.start.getY
  let x2 := l.«end».getX
  let y2 := l.«end».getY
  let centerX : ℚ := fdiv (intToFloat (x1 + x2)) 2
  let centerY : ℚ := fdiv (intToFloat (y1 + y2)) 2
  let radians : ℚ := toRadians angle
  let newX1 := truncToInt
    (fsub (fadd centerX (fmul (fsub (intToFloat x1) centerX) (m.cos radians)))
      (fmul (fsub (intToFloat y1) centerY) (m.sin radians)))
  let newY1 := truncToInt
    (fadd (fadd centerY (fmul (fsub (intToFloat x1) centerX) (m.sin radians)))
      (fmul (fsub (intToFloat y1) centerY) (m.cos radians)))
  let newX2 := truncToInt
    (fsub (fadd centerX (fmul (fsub (intToFloat x2) centerX) (m.cos radians)))
      (fmul (fsub (intToFloat y2) centerY) (m.sin radians)))
  let newY2 := truncToInt
    (fadd (fadd centerY (fmul (fsub (intToFloat x2) centerX) (m.sin radians)))
      (fmul (fsub (intToFloat y2) centerY) (m.cos radians)))
  let l1 := { l with start := l.start.setPoint newX1 newY1 }
  let l2 := { l1 with «end» := l1.«end».setPoint newX2 newY2 }
  l2.drawSegment

/-- The method `LineSegment::scale`. -/
def LineSegment.scale (l : LineSegment) (factor : ℚ) : LineSegment × List Effect :=
  let centerX : ℚ := fdiv (intToFloat (l.start.getX + l.«end».getX)) 2
  let centerY : ℚ := fdiv (intToFloat (l.start.getY + l.«end».getY)) 2
  let newX1 := truncToInt (fadd centerX (fmul (fsub (intToFloat l.start.getX) centerX) factor))
  let newY1 := truncToInt (fadd centerY (fmul (fsub (intToFloat l.start.getY) centerY) factor))
  let newX2 := truncToInt (fadd centerX (fmul (fsub (intToFloat l.«end».getX) centerX) factor))
  let newY2 := truncToInt (fadd centerY (fmul (fsub (intToFloat l.«end».getY) centerY) factor))
  let l1 := { l with start := l.start.setPoint newX1 newY1 }
  let l2 := { l1 with «end» := l1.«end».setPoint newX2 newY2 }
  l2.drawSegment

/-- Whether every coordinate of a line segment is at most `n` in magnitude. -/
def LineSegment.coordsWithin (l : LineSegment) (n : Int) : Prop :=
  |l.start.getX| ≤ n ∧ |l.start.getY| ≤ n ∧ |l.«end».getX| ≤ n ∧ |l.«end».getY| ≤ n

/-! ## Rectangle -/

/-- The body of the loops in `Rectangle::rotate` and `Line::rotate`: the point
`(px, py)` turned about `(centerX, centerY)`, with `c` and `s` the values of
`cos(radians)` and `sin(radians)`; `dx` and `dy` are `float`s, every operation
is a `float` operation, and each component is rounded by `round`. -/
def rotatePoint (c s centerX centerY : ℚ) (px py : Int) : Int × Int :=
  let dx : ℚ := fsub (intToFloat px) centerX
  let dy : ℚ := fsub (intToFloat py) centerY
  (roundToInt (fadd centerX (fsub (fmul dx c) (fmul dy s))),
   roundToInt (fadd centerY (fadd (fmul dx s) (fmul dy c))))

/-- The class `Rectangle`: top-left corner, width, height and colour. -/
structure Rectangle where
  x : Int
  y : Int
  w : Int
  h : Int
  color : SDL_Color
deriving DecidableEq

/-- The method `Rectangle::createObject`. -/
def Rectangle.createObject (_r : Rectangle) (x y w h : Int) (color : SDL_Color) :
    Rectangle × List Effect :=
  ({ x := x, y := y, w := w, h := h, color := color }, [.cout "Object Rectangle Created"])

/-- The method `Rectangle::draw`: colour, the outline of `(x, y, w, h)`, present. -/
def Rectangle.draw (r : Rectangle) : Rectangle × List Effect :=
  (r, [ .SDL_SetRenderDrawColor r.color,
        .SDL_RenderDrawRect ⟨r.x, r.y, r.w, r.h⟩,
        .SDL_RenderPresent ])

/-- The method `Rectangle::translate`. -/
def Rectangle.translate (r : Rectangle) (dx dy : Int) : Rectangle × List Effect :=
  let r1 := { r with x := r.x + dx }
  let r2 := { r1 with y := r1.y + dy }
  r2.draw

/-- The method `Rectangle::rotate`: the four corners turned about the centre
(an `int` sum stored in a `float`) and joined by four lines; no member is
written. -/
def Rectangle.rotate (r : Rectangle) (m : Libm) (angle : ℚ) : Rectangle × List Effect :=
  let centerX : ℚ := intToFloat (r.x + Int.tdiv r.w 2)
  let centerY : ℚ := intToFloat (r.y + Int.tdiv r.h 2)
  let radians : ℚ := toRadians angle
  let c := m.cos radians
  let s := m.sin radians
  let p0 := rotatePoint c s centerX centerY r.x r.y
  let p1 := rotatePoint c s centerX centerY (r.x + r.w) r.y
  let p2 := rotatePoint c s centerX centerY (r.x + r.w) (r.y + r.h)
  let p3 := rotatePoint c s centerX centerY r.x (r.y + r.h)
  (r, [ .SDL_SetRenderDrawColor r.color,
        .SDL_RenderDrawLine p0.1 p0.2 p1.1 p1.2,
        .SDL_RenderDrawLine p1.1 p1.2 p2.1 p2.2,
        .SDL_RenderDrawLine p2.1 p2.2 p3.1 p3.2,
        .SDL_RenderDrawLine p3.1 p3.2 p0.1 p0.2,
        .SDL_RenderPresent ])

/-- The method `Rectangle::scale`. The last assignment stores the scaled width
in `h`, as the source does. -/
def Rectangle.scale (r : Rectangle) (factor : ℚ) : Rectangle × List Effect :=
  let scaledWidth : ℚ := fmul (intToFloat r.w) factor
  let scaledHeight : ℚ := fmul (intToFloat r.h) factor
  let tmpX : ℚ := fsub (intToFloat (r.x + Int.tdiv r.w 2)) (fdiv scaledWidth 2)
  let tmpY : ℚ := fsub (intToFloat (r.y + Int.tdiv r.h 2)) (fdiv scaledHeight 2)
  let r1 := { r with x := truncToInt tmpX }
  let r2 := { r1 with y := truncToInt tmpY }
  let r3 := { r2 with w := truncToInt scaledWidth }
  let r4 := { r3 with h := truncToInt scaledWidth }
  r4.draw

/-! ## Line -/

/-- The class `Line`: four coordinates and a colour. -/
structure Line where
  xStart : Int
  yStart : Int
  xEnd : Int
  yEnd : Int
  color : SDL_Color
deriving DecidableEq

/-- The method `Line::createObject`. -/
def Line.createObject (_l : Line) (x1 y1 x2 y2 : Int) (color : SDL_Color) :
    Line × List Effect :=
  ({ xStart := x1, yStart := y1, xEnd := x2, yEnd := y2, color := color }, [])

/-- The method `Line::draw`: colour, one line, present. -/
def Line.draw (l : Line) : Line × List Effect :=
  (l, [ .SDL_SetRenderDrawColor l.color,
        .SDL_RenderDrawLine l.xStart l.yStart l.xEnd l.yEnd,
        .SDL_RenderPresent ])

/-- The method `Line::translate`. -/
def Line.translate (l : Line) (dx dy : Int) : Line × List Effect :=
  let l1 := { l with xStart := l.xStart + dx }
  let l2 := { l1 with xEnd := l1.xEnd + dx }
  let l3 := { l2 with yStart := l2.yStart + dy }
  let l4 := { l3 with yEnd := l3.yEnd + dy }
  l4.draw

/-- The method `Line::rotate`: both endpoints turned about the midpoint, whose
components are `int` quotients stored in a `float`; the line-draw call receives
`points[0][0], points[1][0], points[0][1], points[1][1]`; no member is
written. -/
def Line.rotate (l : Line) (m : Libm) (angle : ℚ) : Line × List Effect :=
  let centerX : ℚ := intToFloat (Int.tdiv (l.xStart + l.xEnd) 2)
  let centerY : ℚ := intToFloat (Int.tdiv (l.yStart + l.yEnd) 2)
  let radians : ℚ := toRadians angle
  let p0 := rotatePoint (m.cos radians) (m.sin radians) centerX centerY l.xStart l.yStart
  let p1 := rotatePoint (m.cos radians) (m.sin radians) centerX centerY l.xEnd l.yEnd
  (l, [ .SDL_SetRenderDrawColor l.color,
        .SDL_RenderDrawLine p0.1 p1.1 p0.2 p1.2,
        .SDL_RenderPresent ])

/-- The method `Line::scale`: every coordinate times the factor, a `float`
product, truncated. -/
def Line.scale (l : Line) (factor : ℚ) : Line × List Effect :=
  let tmpX : ℚ := fmul (intToFloat l.xStart) factor
  let tmpY : ℚ := fmul (intToFloat l.yStart) factor
  let tmpX2 : ℚ := fmul (intToFloat l.xEnd) factor
  let tmpY2 : ℚ := fmul (intToFloat l.yEnd) factor
  let l1 := { l with xStart := truncToInt tmpX }
  let l2 := { l1 with yStart := truncToInt tmpY }
  let l3 := { l2 with xEnd := truncToInt tmpX2 }
  let l4 := { l3 with yEnd := truncToInt tmpY2 }
  l4.draw

/-! ## BitmapManager -/

/-- The class `BitmapManager`: the surface it holds, `NULL` when it holds none. -/
structure BitmapManager where
  imageSurface : Ptr := none
deriving DecidableEq

/-- The method `BitmapManager::loadBitmapContent`. `loaded` is what `IMG_Load`
returns for the file. A surface already held is freed first; the statement
`imageSurface == NULL;` after it has no effect. -/
def BitmapManager.loadBitmapContent (bm : BitmapManager) (loaded : Ptr) :
    (BitmapManager × Bool) × List Effect :=
  let fx : List Effect :=
    if bm.imageSurface != none then [.SDL_FreeSurface bm.imageSurface] else []
  let bm1 : BitmapManager := { imageSurface := loaded }
  if bm1.imageSurface != none then ((bm1, true), fx) else ((bm1, false), fx)

/-- The method `BitmapManager::getSurface`. -/
def BitmapManager.getSurface (bm : BitmapManager) : Ptr := bm.imageSurface

/-- The method `BitmapManager::createBitmapObj`. `created` is what
`SDL_CreateRGBSurfaceWithFormat` returns. A surface already held is freed and
the member set to `NULL` first. -/
def BitmapManager.createBitmapObj (bm : BitmapManager) (created : Ptr)
    (_bWidth _bHeight : Int) (_depth : Int := 24) : (BitmapManager × Bool) × List Effect :=
  let r : BitmapManager × List Effect :=
    if bm.imageSurface != none then
      ({ bm with imageSurface := none }, [.SDL_FreeSurface bm.imageSurface])
    else (bm, [])
  let bm1 : BitmapManager := { r.1 with imageSurface := created }
  if bm1.imageSurface != none then ((bm1, true), r.2) else ((bm1, false), r.2)

/-- The method `BitmapManager::deleteBitmapObj`: the surface is freed when the
member is not `NULL`; the member is not written. -/
def BitmapManager.deleteBitmapObj (bm : BitmapManager) : BitmapManager × List Effect :=
  if bm.imageSurface != none then (bm, [.SDL_FreeSurface bm.imageSurface]) else (bm, [])

/-- The destructor `BitmapManager::~BitmapManager`: it calls `deleteBitmapObj`. -/
def BitmapManager.destructor (bm : BitmapManager) : List Effect :=
  bm.deleteBitmapObj.2

/-- The method `BitmapManager::copyTo`, with the two stores it leaves behind.
Both rectangle arguments of the blit are `nullptr`: the whole surface. -/
def BitmapManager.copyTo (bm copyDestination : BitmapManager) :
    (BitmapManager × BitmapManager × Bool) × List Effect :=
  if bm.imageSurface != none && copyDestination.imageSurface != none then
    ((bm, copyDestination, true),
      [.SDL_BlitSurface bm.imageSurface none copyDestination.imageSurface none])
  else
    ((bm, copyDestination, false), [])

/-! ## BitmapObject -/

/-- The class `BitmapObject`. -/
structure BitmapObject where
  bt : BitmapManager
  tmpSurface : Ptr
  texture : Ptr
  objPosX : Int
  objPosY : Int
  objWidth : Int
  objHeight : Int
  spritePosX : Int
  spritePosY : Int
  spritePosW : Int
  spritePosH : Int
  destRect : SDL_Rect
  srcRect : SDL_Rect
deriving DecidableEq

/-- What the members that `BitmapObject`'s constructor does not write hold when
it returns: indeterminate values, fixed by the memory the object is built in. -/
structure Unwritten where
  tmpSurface : Ptr
  texture : Ptr
  spritePosX : Int
  spritePosY : Int
  spritePosW : Int
  spritePosH : Int
  destRect : SDL_Rect
  srcRect : SDL_Rect
deriving DecidableEq

/-- The constructor `BitmapObject::BitmapObject`. `loaded` is the result of
`IMG_Load` and `created` the result of `SDL_CreateTextureFromSurface`. When the
load succeeds the texture is created and the surface freed; when it fails only a
diagnostic is printed and `texture` and `tmpSurface` are not written. The source
rectangle members are written on neither path. -/
def BitmapObject.new (junk : Unwritten) (loaded created : Ptr) (x y w h : Int) :
    BitmapObject × List Effect :=
  let r := ({} : BitmapManager).loadBitmapContent loaded
  let bt := r.1.1
  let o : BitmapObject :=
    { bt := bt, tmpSurface := junk.tmpSurface, texture := junk.texture,
      objPosX := x, objPosY := y, objWidth := w, objHeight := h,
      spritePosX := junk.spritePosX, spritePosY := junk.spritePosY,
      spritePosW := junk.spritePosW, spritePosH := junk.spritePosH,
      destRect := junk.destRect, srcRect := junk.srcRect }
  if r.1.2 then
    let tmp := bt.getSurface
    ({ o with tmpSurface := tmp, texture := created },
      r.2 ++ [.SDL_CreateTextureFromSurface tmp, .SDL_FreeSurface tmp])
  else
    (o, r.2 ++ [.cout "texture loading failed!"])

/-- The method `BitmapObject::draw` of `lab5.cpp`. -/
def BitmapObject.draw (o : BitmapObject) : BitmapObject × List Effect :=
  if o.texture != none then
    let o1 := { o with destRect := ⟨o.objPosX, o.objPosY, o.spritePosW, o.spritePosH⟩ }
    let o2 := { o1 with srcRect := ⟨o1.spritePosX, o1.spritePosY, o1.spritePosW, o1.spritePosH⟩ }
    (o2, [ .coutInt o2.spritePosX, .coutInt o2.spritePosY,
           .coutInt o2.spritePosW, .coutInt o2.spritePosH,
           .SDL_RenderCopy o2.texture o2.srcRect o2.destRect ])
  else
    (o, [])

/-- The method `BitmapObject::translate`. -/
def BitmapObject.translate (o : BitmapObject) (dx dy : Int) : BitmapObject × List Effect :=
  let o1 := { o with objPosX := o.objPosX + dx }
  let o2 := { o1 with objPosY := o1.objPosY + dy }
  o2.draw

/-- The method `BitmapObject::setSrcRect`. -/
def BitmapObject.setSrcRect (o : BitmapObject) (x y w h : Int) : BitmapObject × List Effect :=
  let o1 := { o with spritePosX := x, spritePosY := y, spritePosW := w, spritePosH := h }
  let o2 := { o1 with srcRect := ⟨o1.spritePosX, o1.spritePosY, o1.spritePosW, o1.spritePosH⟩ }
  (o2, [.setSrcRect x y w h, .cout "setSrcRect BitmapObj called"])

/-- The destructor `BitmapObject::~BitmapObject`: the texture is destroyed when
the member is not `NULL`, then the member `bt` is destroyed. -/
def BitmapObject.destructor (o : BitmapObject) : List Effect :=
  (if o.texture != none then [.SDL_DestroyTexture o.texture] else []) ++ o.bt.destructor

/-! ## SpriteObject: the frame animator -/

/-- The class `SpriteObject`: a `BitmapObject` with the animator's members. -/
structure SpriteObject extends BitmapObject where
  x : Int
  y : Int
  w : Int
  h : Int
  frameCount : Int
  currentFrame : Int
  animationSpeed : Int
  lastFrameTime : Nat
deriving DecidableEq

/-- The constructor `SpriteObject::SpriteObject`. The base class is built first,
from the parameters `x`, `y` and from the members `w`, `h`, which are not yet
written at that point: `junkW` and `junkH` are what they hold. `now` is the
clock reading `SDL_GetTicks()`. -/
def SpriteObject.new (junk : Unwritten) (junkW junkH : Int) (loaded created : Ptr)
    (now : Nat) (x y frameWidth frameHeight : Int) : SpriteObject × List Effect :=
  let b := BitmapObject.new junk loaded created x y junkW junkH
  ({ toBitmapObject := b.1, x := x, y := y, w := frameWidth, h := frameHeight,
     lastFrameTime := now % U32, animationSpeed := 100, currentFrame := 0,
     frameCount := 9 }, b.2)

/-- The method `SpriteObject::draw`: the base class's draw. -/
def SpriteObject.draw (s : SpriteObject) : SpriteObject × List Effect :=
  let r := s.toBitmapObject.draw
  ({ s with toBitmapObject := r.1 }, r.2)

/-- The method `BitmapObject::translate` on a `SpriteObject`; its `draw()` is the
virtual call, which reaches `SpriteObject::draw`. -/
def SpriteObject.translate (s : SpriteObject) (dx dy : Int) : SpriteObject × List Effect :=
  let s1 := { s with objPosX := s.objPosX + dx }
  let s2 := { s1 with objPosY := s1.objPosY + dy }
  s2.draw

/-- The method `SpriteObject::animate(int direction, bool idle)`. `now` is the
clock reading `SDL_GetTicks()`. The test compares the `Uint32` difference with
`animationSpeed` converted to `unsigned int`. -/
def SpriteObject.animate (s : SpriteObject) (direction : Int) (idle : Bool) (now : Nat) :
    SpriteObject × List Effect :=
  let currentTicks := now % U32
  if u32sub currentTicks s.lastFrameTime > toU32 s.animationSpeed then
    if !idle then
      let s1 := { s with currentFrame := s.currentFrame + 1 }
      let s2 := if s1.currentFrame ≥ s1.frameCount then { s1 with currentFrame := 0 } else s1
      let r := s2.toBitmapObject.setSrcRect (s2.currentFrame * s2.w) (direction * s2.h) s2.w s2.h
      ({ s2 with toBitmapObject := r.1, lastFrameTime := currentTicks }, r.2)
    else
      let r := s.toBitmapObject.setSrcRect 0 (direction * s.h) s.w s.h
      ({ s with toBitmapObject := r.1, lastFrameTime := currentTicks }, r.2)
  else
    (s, [])

/-- The method `SpriteObject::animate()` without arguments: an empty body. -/
def SpriteObject.animate0 (s : SpriteObject) : SpriteObject × List Effect := (s, [])

/-! ## Player -/

/-- The host library's event type code for a key press. -/
def SDL_KEYDOWN : Nat := 0x300

/-- The host library's event type code for a key release. -/
def SDL_KEYUP : Nat := 0x301

/-- The host library's key code of the right arrow. -/
def SDLK_RIGHT : Int := 1073741903

/-- The host library's key code of the left arrow. -/
def SDLK_LEFT : Int := 1073741904

/-- The host library's key code of the down arrow. -/
def SDLK_DOWN : Int := 1073741905

/-- The host library's key code of the up arrow. -/
def SDLK_UP : Int := 1073741906

/-- The part of the host library's event the player reads: `type` and
`key.keysym.sym`. -/
structure SDL_Event where
  type : Nat
  sym : Int
deriving DecidableEq

/-- The class `Player`. -/
structure Player extends SpriteObject where
  moveSpeed : Int
  direction : Int
  idle : Bool
deriving DecidableEq

/-- The constructor `Player::Player`. -/
def Player.new (junk : Unwritten) (junkW junkH : Int) (loaded created : Ptr) (now : Nat)
    (spawnX spawnY playerWidth playerHeight moveSpeed : Int) : Player × List Effect :=
  let s := SpriteObject.new junk junkW junkH loaded created now spawnX spawnY playerWidth playerHeight
  ({ toSpriteObject := s.1, moveSpeed := moveSpeed, direction := 2, idle := true }, s.2)

/-- The method `Player::getDirection`. -/
def Player.getDirection (p : Player) : Int := p.direction

/-- The method `Player::setDirection`. -/
def Player.setDirection (p : Player) (direction : Int) : Player :=
  { p with direction := direction }

/-- The inherited `translate` on a `Player`. -/
def Player.translate (p : Player) (dx dy : Int) : Player × List Effect :=
  let r := p.toSpriteObject.translate dx dy
  ({ p with toSpriteObject := r.1 }, r.2)

/-- The method `Player::inputEventHandler`. -/
def Player.inputEventHandler (p : Player) (event : SDL_Event) : Player × List Effect :=
  let r : Player × List Effect :=
    if event.type = SDL_KEYDOWN then
      let p1 := { p with idle := false }
      if event.sym = SDLK_LEFT then (p1.setDirection 1).translate (-p1.moveSpeed) 0
      else if event.sym = SDLK_RIGHT then (p1.setDirection 3).translate p1.moveSpeed 0
      else if event.sym = SDLK_UP then (p1.setDirection 0).translate 0 (-p1.moveSpeed)
      else if event.sym = SDLK_DOWN then (p1.setDirection 2).translate 0 p1.moveSpeed
      else (p1, [])
    else (p, [])
  if event.type = SDL_KEYUP then ({ r.1 with idle := true }, r.2) else r

/-- The method `Player::update`: animate with the player's direction and idle
flag, then draw. -/
def Player.update (p : Player) (now : Nat) : Player × List Effect :=
  let a := p.toSpriteObject.animate p.direction p.idle now
  let d := a.1.draw
  ({ p with toSpriteObject := d.1 }, a.2 ++ d.2)

/-- The destructor of a `Player`: the bodies of `~Player` and `~SpriteObject` are
empty, so what happens is the destruction of the `BitmapObject` base. -/
def Player.destructor (p : Player) : List Effect :=
  p.toBitmapObject.destructor

/-! ## The render loop of `main` -/

/-- The host library's event type code for a quit request. -/
def SDL_QUIT : Nat := 0x100

/-- The constant `FPS` of `main`. -/
def FPS : Int := 60

/-- The constant `frameDelay` of `main`: the `int` quotient `1000 / FPS`. -/
def frameDelay : Int := Int.tdiv 1000 FPS

/-- What the outside world supplies to one iteration of the loop: the clock at
`frameStart = SDL_GetTicks()`, the events `SDL_PollEvent` hands out before it
returns 0, the clock `update` reads, and the clock read after the present. -/
structure Frame where
  frameStart : Nat
  events : List SDL_Event
  updateTicks : Nat
  afterPresent : Nat
deriving DecidableEq

/-- The inner loop `while (SDL_PollEvent(&e))`: a quit event sets `quit`, and
every event goes to the player. -/
def pollEvents (p : Player) (quit : Bool) : List SDL_Event → (Player × Bool) × List Effect
  | [] => ((p, quit), [])
  | e :: es =>
    let quit1 := if e.type = SDL_QUIT then true else quit
    let r := p.inputEventHandler e
    let rest := pollEvents r.1 quit1 es
    (rest.1, r.2 ++ rest.2)

/-- The last two statements of the loop body: `frameTime` is the `Uint32` clock
difference stored in an `int`, and `SDL_Delay(frameDelay - frameTime)` is called
when `frameDelay > frameTime`. -/
def framePacing (frameStart now : Nat) : List Effect :=
  let frameTime : Int := toInt32 (u32sub now frameStart)
  if frameDelay > frameTime then [.SDL_Delay (toU32 (frameDelay - frameTime))] else []

/-- One iteration of the `while (!quit)` loop of `main` in `lab5.cpp`. -/
def mainLoopBody (p : Player) (quit : Bool) (f : Frame) : (Player × Bool) × List Effect :=
  let polled := pollEvents p quit f.events
  let a := polled.1.1.toSpriteObject.animate0
  let p1 : Player := { polled.1.1 with toSpriteObject := a.1 }
  let u := p1.update f.updateTicks
  ((u.1, polled.1.2),
    [.SDL_SetRenderDrawColor white, .SDL_RenderClear] ++ polled.2 ++ a.2 ++ u.2
      ++ [.SDL_RenderPresent] ++ framePacing f.frameStart f.afterPresent)

/-! ## Runs and sample values -/

/-- Memory contents for the members a constructor leaves unwritten, as one
possible start: no pointer set and the stale integers 7, 11, 13, 17. -/
def staleMem : Unwritten :=
  { tmpSurface := none, texture := none,
    spritePosX := 7, spritePosY := 11, spritePosW := 13, spritePosH := 17,
    destRect := ⟨0, 0, 0, 0⟩, srcRect := ⟨0, 0, 0, 0⟩ }

/-- Memory contents like `staleMem`, except that the place of the `texture`
member holds the non-null value 99. -/
def dirtyMem : Unwritten := { staleMem with texture := some 99 }

/-- A sprite built at clock reading 1000 with 64x64 frames at (0, 0); the image
loaded as surface 1 and the texture was created as texture 2. -/
def sampleSprite : SpriteObject :=
  (SpriteObject.new staleMem 0 0 (some 1) (some 2) 1000 0 0 64 64).1

/-- A player built like `sampleSprite`, with `moveSpeed = 2`. -/
def samplePlayer : Player :=
  (Player.new staleMem 0 0 (some 1) (some 2) 1000 0 0 64 64 2).1

/-- A sample library: a table with the `float`s nearest to the cosine and the
sine at the `float` radians of 360, 90 and 60 degrees (the `float`s nearest to
2 pi, pi / 2 and pi / 3), and with `cos = 1`, `sin = 0`, the values at 0, at
every other argument. -/
def sampleLibm : Libm :=
  { cos := fun r =>
      if r = 13176795 / 2097152 then 1
      else if r = 13176795 / 8388608 then -6151831 / 140737488355328
      else if r = 4392265 / 4194304 then 16777215 / 33554432
      else 1
    sin := fun r =>
      if r = 13176795 / 2097152 then 6151831 / 35184372088832
      else if r = 13176795 / 8388608 then 1
      else if r = 4392265 / 4194304 then 1816187 / 2097152
      else 0 }

/-- One call `animate(direction, idle)` together with the clock reading it sees. -/
structure AnimateCall where
  direction : Int
  idle : Bool
  now : Nat
deriving DecidableEq

/-- A sequence of `animate(direction, idle)` calls on one sprite, in order. -/
def SpriteObject.run (s : SpriteObject) : List AnimateCall → SpriteObject × List Effect
  | [] => (s, [])
  | c :: cs =>
    let r := s.animate c.direction c.idle c.now
    let t := SpriteObject.run r.1 cs
    (t.1, r.2 ++ t.2)

/-- Repeated calls `animate(direction, idle)`, the first `gap` milliseconds after
the clock reading `t` and each later one `gap` milliseconds after the call
before it; the clock is a `Uint32` and wraps. -/
def SpriteObject.ticks (s : SpriteObject) (direction : Int) (idle : Bool) (t : Nat) :
    List Nat → SpriteObject × List Effect
  | [] => (s, [])
  | gap :: gaps =>
    let now := (t + gap) % U32
    let r := s.animate direction idle now
    let rest := SpriteObject.ticks r.1 direction idle now gaps
    (rest.1, r.2 ++ rest.2)

/-- One call on a player from the render loop: `update()` with the clock reading
it sees, `inputEventHandler(event)`, or the empty `animate()`. -/
inductive PlayerCall where
  | update (now : Nat)
  | input (event : SDL_Event)
  | animate0
deriving DecidableEq

/-- The effect of one call on a player. -/
def Player.call (p : Player) : PlayerCall → Player × List Effect
  | .update now => p.update now
  | .input event => p.inputEventHandler event
  | .animate0 =>
    let r := p.toSpriteObject.animate0
    ({ p with toSpriteObject := r.1 }, r.2)

/-- A sequence of calls on one player, in order, with the whole trace. -/
def Player.calls (p : Player) : List PlayerCall → Player × List Effect
  | [] => (p, [])
  | c :: cs =>
    let r := p.call c
    let t := Player.calls r.1 cs
    (t.1, r.2 ++ t.2)

/-- Whether a call hands the player an input event. -/
def PlayerCall.isInput : PlayerCall → Bool
  | .input _ => true
  | _ => false

/-- Whether a call hands the player a right-arrow keydown. -/
def PlayerCall.isRightKeydown : PlayerCall → Bool
  | .input event => event.type = SDL_KEYDOWN ∧ event.sym = SDLK_RIGHT
  | _ => false

/-! ## Arithmetic lemmas -/

theorem u32sub_mod_left (a b : Nat) : u32sub (a % U32) b = u32sub a b := by
  unfold u32sub
  rw [Nat.mod_mod]

theorem u32sub_add_gap (t gap : Nat) (hg : gap < U32) :
    u32sub ((t + gap) % U32) (t % U32) = gap := by
  unfold u32sub U32 at *
  omega

theorem toU32_hundred : toU32 100 = 100 := by decide

/-! ## Lemmas on drawing and on the input handler -/

theorem emitted_append (a b : List Effect) : emitted (a ++ b) = emitted a ++ emitted b := by
  simp [emitted]

theorem bitmap_draw_state (o : BitmapObject) :
    o.draw.1 =
      { o with
        destRect := if o.texture != none then ⟨o.objPosX, o.objPosY, o.spritePosW, o.spritePosH⟩
          else o.destRect,
        srcRect := if o.texture != none then ⟨o.spritePosX, o.spritePosY, o.spritePosW, o.spritePosH⟩
          else o.srcRect } := by
  unfold BitmapObject.draw
  split <;> rfl

theorem bitmap_draw_sets_no_rect (o : BitmapObject) : emitted o.draw.2 = [] := by
  unfold BitmapObject.draw
  split <;> rfl

theorem sprite_draw_sets_no_rect (s : SpriteObject) : emitted s.draw.2 = [] :=
  bitmap_draw_sets_no_rect s.toBitmapObject

theorem sprite_draw_state (s : SpriteObject) :
    s.draw.1 = { s with toBitmapObject := s.toBitmapObject.draw.1 } := rfl

theorem player_translate_state (p : Player) (dx dy : Int) :
    (p.translate dx dy).1 =
      { p with
        objPosX := p.objPosX + dx, objPosY := p.objPosY + dy,
        destRect := if p.texture != none
          then ⟨p.objPosX + dx, p.objPosY + dy, p.spritePosW, p.spritePosH⟩ else p.destRect,
        srcRect := if p.texture != none
          then ⟨p.spritePosX, p.spritePosY, p.spritePosW, p.spritePosH⟩ else p.srcRect } := by
  simp only [Player.translate, SpriteObject.translate, sprite_draw_state,
    bitmap_draw_state]

theorem handler_on_keyup (p : Player) (event : SDL_Event)
    (h : event.type = SDL_KEYUP) :
    p.inputEventHandler event = ({ p with idle := true }, []) := by
  have hne : ¬ SDL_KEYUP = SDL_KEYDOWN := by decide
  simp [Player.inputEventHandler, h, hne]

theorem handler_on_keydown (p : Player) (event : SDL_Event)
    (h : event.type = SDL_KEYDOWN) :
    p.inputEventHandler event =
      if event.sym = SDLK_LEFT then
        (({ p with idle := false } : Player).setDirection 1).translate (-p.moveSpeed) 0
      else if event.sym = SDLK_RIGHT then
        (({ p with idle := false } : Player).setDirection 3).translate p.moveSpeed 0
      else if event.sym = SDLK_UP then
        (({ p with idle := false } : Player).setDirection 0).translate 0 (-p.moveSpeed)
      else if event.sym = SDLK_DOWN then
        (({ p with idle := false } : Player).setDirection 2).translate 0 p.moveSpeed
      else ({ p with idle := false }, []) := by
  have hne : ¬ SDL_KEYDOWN = SDL_KEYUP := by decide
  simp [Player.inputEventHandler, h, hne]

/-! ## The frame animator -/

theorem animate_walk_step (s : SpriteObject) (direction : Int) (now : Nat)
    (hcount : s.frameCount = 9) (hlo : 0 ≤ s.currentFrame) (hhi : s.currentFrame < 9)
    (hgate : toU32 s.animationSpeed < u32sub now s.lastFrameTime) :
    (s.animate direction false now).1.currentFrame = (s.currentFrame + 1) % 9 ∧
    emitted (s.animate direction false now).2
      = [⟨(s.currentFrame + 1) % 9 * s.w, direction * s.h, s.w, s.h⟩] ∧
    (s.animate direction false now).1.srcRect
      = ⟨(s.currentFrame + 1) % 9 * s.w, direction * s.h, s.w, s.h⟩ ∧
    (s.animate direction false now).1.lastFrameTime = now % U32 ∧
    (s.animate direction false now).1.frameCount = 9 ∧
    (s.animate direction false now).1.animationSpeed = s.animationSpeed ∧
    (s.animate direction false now).1.w = s.w ∧
    (s.animate direction false now).1.h = s.h := by
  have hg : toU32 s.animationSpeed < u32sub (now % U32) s.lastFrameTime := by
    rw [u32sub_mod_left]; exact hgate
  by_cases hwrap : s.currentFrame + 1 ≥ 9
  · have h8 : s.currentFrame = 8 := by omega
    simp [SpriteObject.animate, BitmapObject.setSrcRect, emitted, Effect.srcRectSet,
      hg, hcount, h8]
  · have hm : (s.currentFrame + 1) % 9 = s.currentFrame + 1 := by omega
    have hlt : ¬ (9 : Int) ≤ s.currentFrame + 1 := by omega
    simp [SpriteObject.animate, BitmapObject.setSrcRect, emitted, Effect.srcRectSet,
      hg, hcount, hm, hlt]

theorem animate_range_step (s : SpriteObject) (direction : Int) (idle : Bool)
    (now : Nat) (hcount : s.frameCount = 9) (hlo : 0 ≤ s.currentFrame)
    (hhi : s.currentFrame < 9) :
    (s.animate direction idle now).1.frameCount = 9 ∧
    0 ≤ (s.animate direction idle now).1.currentFrame ∧
    (s.animate direction idle now).1.currentFrame < 9 := by
  by_cases hg : toU32 s.animationSpeed < u32sub now s.lastFrameTime
  · cases idle
    · obtain ⟨h1, _, _, _, h5, _⟩ := animate_walk_step s direction now hcount hlo hhi hg
      rw [h1, h5]
      omega
    · have hg2 : toU32 s.animationSpeed < u32sub (now % U32) s.lastFrameTime := by
        rw [u32sub_mod_left]; exact hg
      simp [SpriteObject.animate, hg2, hcount, hlo, hhi]
  · have hg2 : ¬ toU32 s.animationSpeed < u32sub (now % U32) s.lastFrameTime := by
      rw [u32sub_mod_left]; exact hg
    simp [SpriteObject.animate, hg2, hcount, hlo, hhi]

theorem run_range_inv (calls : List AnimateCall) :
    ∀ s : SpriteObject, s.frameCount = 9 → 0 ≤ s.currentFrame → s.currentFrame < 9 →
      (s.run calls).1.frameCount = 9 ∧ 0 ≤ (s.run calls).1.currentFrame ∧
      (s.run calls).1.currentFrame < 9 := by
  induction calls with
  | nil => intro s hc hlo hhi; exact ⟨hc, hlo, hhi⟩
  | cons c cs ih =>
    intro s hc hlo hhi
    obtain ⟨h1, h2, h3⟩ := animate_range_step s c.direction c.idle c.now hc hlo hhi
    exact ih _ h1 h2 h3

theorem ticks_emitted_seq (direction : Int) (gaps : List Nat) :
    ∀ (s : SpriteObject) (t : Nat), s.frameCount = 9 → s.animationSpeed = 100 →
      0 ≤ s.currentFrame → s.currentFrame < 9 → s.lastFrameTime = t % U32 →
      (∀ g ∈ gaps, 100 < g ∧ g < U32) →
      emitted (s.ticks direction false t gaps).2 =
        (List.range gaps.length).map
          (fun k => ⟨(s.currentFrame + 1 + (k : Int)) % 9 * s.w, direction * s.h, s.w, s.h⟩) := by
  induction gaps with
  | nil => intro s t _ _ _ _ _ _; rfl
  | cons g gs ih =>
    intro s t hc hs hlo hhi ht hgaps
    have hg := hgaps g (List.mem_cons_self g gs)
    have hgate : toU32 s.animationSpeed < u32sub ((t + g) % U32) s.lastFrameTime := by
      rw [hs, ht, u32sub_add_gap t g hg.2, toU32_hundred]; exact hg.1
    obtain ⟨h1, h2, _, h4, h5, h6, h7, h8⟩ :=
      animate_walk_step s direction ((t + g) % U32) hc hlo hhi hgate
    have hrest := ih (s.animate direction false ((t + g) % U32)).1 ((t + g) % U32) h5
      (h6.trans hs) (by rw [h1]; omega) (by rw [h1]; omega) h4
      (fun x hx => hgaps x (List.mem_cons_of_mem g hx))
    simp only [SpriteObject.ticks, emitted_append, h2, hrest, h1, h7, h8, List.length_cons,
      List.range_succ_eq_map, List.map_cons, List.map_map, List.singleton_append]
    congr 1
    · simp
    · apply List.map_congr_left
      intro k _
      simp only [Function.comp, Nat.succ_eq_add_one, Nat.cast_add, Nat.cast_one]
      congr 2
      omega

/-- C1: with `idle = false`, `frameCount = 9`, `0 ≤ currentFrame < 9` and a clock
reading `now` whose `Uint32` distance from `lastFrameTime` exceeds
`animationSpeed`, `animate` leaves `currentFrame` at `(old + 1) mod 9`, enters
`setSrcRect` exactly once, with `(currentFrame * w, direction * h, w, h)` for the
new `currentFrame`, stores that rectangle, and leaves `lastFrameTime` at `now`. -/
theorem animate_advances (s : SpriteObject) (direction : Int) (now : Nat)
    (hcount : s.frameCount = 9) (hlo : 0 ≤ s.currentFrame) (hhi : s.currentFrame < 9)
    (hnow : now < U32)
    (hgate : u32sub now s.lastFrameTime > toU32 s.animationSpeed) :
    (s.animate direction false now).1.currentFrame = (s.currentFrame + 1) % 9 ∧
    emitted (s.animate direction false now).2
      = [⟨(s.animate direction false now).1.currentFrame * s.w, direction * s.h, s.w, s.h⟩] ∧
    (s.animate direction false now).1.srcRect
      = ⟨(s.animate direction false now).1.currentFrame * s.w, direction * s.h, s.w, s.h⟩ ∧
    (s.animate direction false now).1.lastFrameTime = now := by
  obtain ⟨h1, h2, h3, h4, _⟩ := animate_walk_step s direction now hcount hlo hhi hgate
  rw [Nat.mod_eq_of_lt hnow] at h4
  rw [h1]
  exact ⟨rfl, h2, h3, h4⟩

/-- Witness of C1: the sample sprite, last advanced at 1000, ticked at 1101 with
direction 3, goes to frame 1 and emits (64, 192, 64, 64). -/
theorem animate_advances_witness :
    (sampleSprite.frameCount = 9 ∧ 0 ≤ sampleSprite.currentFrame ∧
      sampleSprite.currentFrame < 9 ∧ 1101 < U32 ∧
      u32sub 1101 sampleSprite.lastFrameTime > toU32 sampleSprite.animationSpeed) ∧
    ((sampleSprite.animate 3 false 1101).1.currentFrame = (sampleSprite.currentFrame + 1) % 9 ∧
    emitted (sampleSprite.animate 3 false 1101).2
      = [⟨(sampleSprite.animate 3 false 1101).1.currentFrame * sampleSprite.w,
          3 * sampleSprite.h, sampleSprite.w, sampleSprite.h⟩] ∧
    (sampleSprite.animate 3 false 1101).1.srcRect
      = ⟨(sampleSprite.animate 3 false 1101).1.currentFrame * sampleSprite.w,
          3 * sampleSprite.h, sampleSprite.w, sampleSprite.h⟩ ∧
    (sampleSprite.animate 3 false 1101).1.lastFrameTime = 1101) :=
  ⟨by decide,
   animate_advances sampleSprite 3 1101 (by decide) (by decide) (by decide) (by decide)
     (by decide)⟩

/-- C2: when the `Uint32` distance of the clock reading `now` from
`lastFrameTime` does not exceed `animationSpeed`, `animate` returns the object
unchanged (so `currentFrame`, `lastFrameTime` and the source rectangle stay) and
performs no effect (so `setSrcRect` is not entered), whatever the direction and
the idle flag. -/
theorem animate_period_not_elapsed (s : SpriteObject) (direction : Int) (idle : Bool)
    (now : Nat) (hgate : u32sub now s.lastFrameTime ≤ toU32 s.animationSpeed) :
    (s.animate direction idle now).1 = s ∧ (s.animate direction idle now).2 = [] ∧
    emitted (s.animate direction idle now).2 = [] := by
  have hg : ¬ toU32 s.animationSpeed < u32sub (now % U32) s.lastFrameTime := by
    rw [u32sub_mod_left]; omega
  simp [SpriteObject.animate, hg, emitted]

/-- Witness of C2: the sample sprite, last advanced at 1000, ticked at 1100. -/
theorem animate_period_not_elapsed_witness :
    u32sub 1100 sampleSprite.lastFrameTime ≤ toU32 sampleSprite.animationSpeed ∧
    ((sampleSprite.animate 1 false 1100).1 = sampleSprite ∧
      (sampleSprite.animate 1 false 1100).2 = [] ∧
      emitted (sampleSprite.animate 1 false 1100).2 = []) :=
  ⟨by decide, animate_period_not_elapsed sampleSprite 1 false 1100 (by decide)⟩

/-- C3: with `idle = true` and a clock reading whose `Uint32` distance from
`lastFrameTime` exceeds `animationSpeed`, `animate` enters `setSrcRect` exactly
once, with `(0, direction * h, w, h)`, and stores that rectangle. For a player
with 64x64 frames, a right-arrow keydown followed by a keyup makes the next such
`update` emit `(0, 192, 64, 64)`. -/
theorem animate_idle_first_column (s : SpriteObject) (direction : Int) (now : Nat)
    (hgate : u32sub now s.lastFrameTime > toU32 s.animationSpeed) :
    (emitted (s.animate direction true now).2 = [⟨0, direction * s.h, s.w, s.h⟩] ∧
     (s.animate direction true now).1.srcRect = ⟨0, direction * s.h, s.w, s.h⟩) ∧
    ∀ (p : Player) (key : Int), p.toSpriteObject = s → s.w = 64 → s.h = 64 →
      emitted ((((p.inputEventHandler ⟨SDL_KEYDOWN, SDLK_RIGHT⟩).1.inputEventHandler
        ⟨SDL_KEYUP, key⟩).1.update now).2) = [⟨0, 192, 64, 64⟩] := by
  have hidle : ∀ (t : SpriteObject) (d : Int),
      toU32 t.animationSpeed < u32sub (now % U32) t.lastFrameTime →
      emitted (t.animate d true now).2 = [⟨0, d * t.h, t.w, t.h⟩] ∧
      (t.animate d true now).1.srcRect = ⟨0, d * t.h, t.w, t.h⟩ := by
    intro t d hg
    simp [SpriteObject.animate, BitmapObject.setSrcRect, emitted, Effect.srcRectSet, hg]
  have hg : toU32 s.animationSpeed < u32sub (now % U32) s.lastFrameTime := by
    rw [u32sub_mod_left]; exact hgate
  refine ⟨hidle s direction hg, ?_⟩
  intro p key hp hw hh
  subst hp
  have hr : ¬ SDLK_RIGHT = SDLK_LEFT := by decide
  rw [handler_on_keydown p _ rfl, handler_on_keyup _ _ rfl]
  simp only [hr, if_false, if_true, player_translate_state, Player.setDirection, Player.update,
    emitted_append, sprite_draw_sets_no_rect, List.append_nil]
  have hrow : ∀ t : SpriteObject, t.w = 64 → t.h = 64 →
      toU32 t.animationSpeed < u32sub (now % U32) t.lastFrameTime →
      emitted (t.animate 3 true now).2 = [⟨0, 192, 64, 64⟩] := by
    intro t htw hth htg
    have h := (hidle t 3 htg).1
    rw [htw, hth] at h
    exact h
  exact hrow _ hw hh hg

/-- Witness of C3: the sample player, ticked at 1101 after right-down, right-up. -/
theorem animate_idle_first_column_witness :
    u32sub 1101 samplePlayer.lastFrameTime > toU32 samplePlayer.animationSpeed ∧
    emitted ((((samplePlayer.inputEventHandler ⟨SDL_KEYDOWN, SDLK_RIGHT⟩).1.inputEventHandler
        ⟨SDL_KEYUP, SDLK_RIGHT⟩).1.update 1101).2) = [⟨0, 192, 64, 64⟩] :=
  ⟨by decide,
   (animate_idle_first_column samplePlayer.toSpriteObject 2 1101 (by decide)).2
     samplePlayer SDLK_RIGHT rfl (by decide) (by decide)⟩

/-- C4 (as stated, refuted): the sample sprite, built at clock reading 1000 and
ticked twice with direction 2 at intervals of 101 ms, emits frames 1 and 2
(x = 64, then 128), not frames 0 and 1; and ticked once after exactly
100 ms (`animationSpeed`) it emits nothing. -/
theorem frame_sequence_counterexample :
    emitted (sampleSprite.ticks 2 false 1000 [101, 101]).2
      = [⟨64, 128, 64, 64⟩, ⟨128, 128, 64, 64⟩] ∧
    emitted (sampleSprite.ticks 2 false 1000 [101, 101]).2
      ≠ (List.range 2).map (fun k => ⟨(k : Int) % 9 * 64, 2 * 64, 64, 64⟩) ∧
    emitted (sampleSprite.ticks 2 false 1000 [100]).2 = [] := by
  decide

/-- C4 (amended): from a freshly constructed `SpriteObject`, for every direction
`d`, calls `animate(d, false)` at intervals above `animationSpeed` = 100 ms (and
below `2^32` ms) each emit one source rectangle, and the `k`-th emitted
rectangle, `k = 0, 1, 2, …`, is `(((k + 1) mod 9) * w, d * h, w, h)`: the frame
indices run 1, 2, …, 8, 0, 1, …. -/
theorem frame_sequence_from_one (junk : Unwritten) (junkW junkH : Int) (loaded created : Ptr)
    (t0 : Nat) (x y w h : Int) (d : Int) (gaps : List Nat)
    (hgaps : ∀ g ∈ gaps, 100 < g ∧ g < U32) :
    emitted ((SpriteObject.new junk junkW junkH loaded created t0 x y w h).1.ticks
        d false t0 gaps).2
      = (List.range gaps.length).map (fun k => ⟨((k : Int) + 1) % 9 * w, d * h, w, h⟩) ∧
    (emitted ((SpriteObject.new junk junkW junkH loaded created t0 x y w h).1.ticks
        d false t0 gaps).2).length = gaps.length := by
  have hseq := ticks_emitted_seq d gaps
    (SpriteObject.new junk junkW junkH loaded created t0 x y w h).1 t0 rfl rfl
    (le_refl _) (show (0 : Int) < 9 by decide) rfl hgaps
  have hfun : (fun k : Nat => (⟨((k : Int) + 1) % 9 * w, d * h, w, h⟩ : SDL_Rect))
      = fun k : Nat => ⟨((0 : Int) + 1 + (k : Int)) % 9 * w, d * h, w, h⟩ := by
    funext k
    congr 2
    omega
  rw [hfun]
  refine ⟨hseq, ?_⟩
  rw [hseq]
  simp

/-- Witness of C4 (amended): the sample sprite ticked after 101 ms and then after
200 ms more. -/
theorem frame_sequence_from_one_witness :
    (∀ g ∈ [101, 200], 100 < g ∧ g < U32) ∧
    (emitted ((SpriteObject.new staleMem 0 0 (some 1) (some 2) 1000 0 0 64 64).1.ticks
        2 false 1000 [101, 200]).2
      = (List.range [101, 200].length).map (fun k => ⟨((k : Int) + 1) % 9 * 64, 2 * 64, 64, 64⟩) ∧
    (emitted ((SpriteObject.new staleMem 0 0 (some 1) (some 2) 1000 0 0 64 64).1.ticks
        2 false 1000 [101, 200]).2).length = [101, 200].length) :=
  ⟨by decide,
   frame_sequence_from_one staleMem 0 0 (some 1) (some 2) 1000 0 0 64 64 2 [101, 200]
     (by decide)⟩

/-- C5: after the `SpriteObject` constructor and any sequence of
`animate(direction, idle)` calls, with any directions, idle flags and clock
readings, `0 ≤ currentFrame < frameCount` and `frameCount = 9`. -/
theorem currentFrame_in_range (junk : Unwritten) (junkW junkH : Int) (loaded created : Ptr)
    (t0 : Nat) (x y w h : Int) (calls : List AnimateCall) :
    0 ≤ ((SpriteObject.new junk junkW junkH loaded created t0 x y w h).1.run calls).1.currentFrame ∧
    ((SpriteObject.new junk junkW junkH loaded created t0 x y w h).1.run calls).1.currentFrame
      < ((SpriteObject.new junk junkW junkH loaded created t0 x y w h).1.run calls).1.frameCount ∧
    ((SpriteObject.new junk junkW junkH loaded created t0 x y w h).1.run calls).1.frameCount = 9 := by
  obtain ⟨h1, h2, h3⟩ := run_range_inv calls
    (SpriteObject.new junk junkW junkH loaded created t0 x y w h).1 rfl (le_refl _)
    (show (0 : Int) < 9 by decide)
  rw [h1]
  exact ⟨h2, h3, rfl⟩

/-! ## The player's input handler -/

/-- C6: on a keydown event `idle` becomes false whatever the key; the left,
right, up and down arrows set the direction to 1, 3, 0 and 2 and move the
position by `(-moveSpeed, 0)`, `(+moveSpeed, 0)`, `(0, -moveSpeed)` and
`(0, +moveSpeed)`; any other key leaves direction and position as they were. -/
theorem keydown_sets_direction_and_moves (p : Player) (event : SDL_Event)
    (hdown : event.type = SDL_KEYDOWN) :
    (p.inputEventHandler event).1.idle = false ∧
    (event.sym = SDLK_LEFT →
      (p.inputEventHandler event).1.direction = 1 ∧
      (p.inputEventHandler event).1.objPosX = p.objPosX - p.moveSpeed ∧
      (p.inputEventHandler event).1.objPosY = p.objPosY) ∧
    (event.sym = SDLK_RIGHT →
      (p.inputEventHandler event).1.direction = 3 ∧
      (p.inputEventHandler event).1.objPosX = p.objPosX + p.moveSpeed ∧
      (p.inputEventHandler event).1.objPosY = p.objPosY) ∧
    (event.sym = SDLK_UP →
      (p.inputEventHandler event).1.direction = 0 ∧
      (p.inputEventHandler event).1.objPosX = p.objPosX ∧
      (p.inputEventHandler event).1.objPosY = p.objPosY - p.moveSpeed) ∧
    (event.sym = SDLK_DOWN →
      (p.inputEventHandler event).1.direction = 2 ∧
      (p.inputEventHandler event).1.objPosX = p.objPosX ∧
      (p.inputEventHandler event).1.objPosY = p.objPosY + p.moveSpeed) ∧
    (event.sym ≠ SDLK_LEFT → event.sym ≠ SDLK_RIGHT → event.sym ≠ SDLK_UP →
      event.sym ≠ SDLK_DOWN →
      (p.inputEventHandler event).1.direction = p.direction ∧
      (p.inputEventHandler event).1.objPosX = p.objPosX ∧
      (p.inputEventHandler event).1.objPosY = p.objPosY) := by
  have hrl : ¬ SDLK_RIGHT = SDLK_LEFT := by decide
  have hul : ¬ SDLK_UP = SDLK_LEFT := by decide
  have hur : ¬ SDLK_UP = SDLK_RIGHT := by decide
  have hdl : ¬ SDLK_DOWN = SDLK_LEFT := by decide
  have hdr : ¬ SDLK_DOWN = SDLK_RIGHT := by decide
  have hdu : ¬ SDLK_DOWN = SDLK_UP := by decide
  rw [handler_on_keydown p event hdown]
  refine ⟨?_, ?_, ?_, ?_, ?_, ?_⟩
  · split_ifs <;> simp [player_translate_state, Player.setDirection]
  · intro hk
    simp [hk, player_translate_state, Player.setDirection, sub_eq_add_neg]
  · intro hk
    simp [hk, hrl, player_translate_state, Player.setDirection]
  · intro hk
    simp [hk, hul, hur, player_translate_state, Player.setDirection, sub_eq_add_neg]
  · intro hk
    simp [hk, hdl, hdr, hdu, player_translate_state, Player.setDirection]
  · intro h1 h2 h3 h4
    simp [h1, h2, h3, h4]

/-- Witness of C6: the sample player at (0, 0) with `moveSpeed = 2` receives a
left-arrow keydown, and a keydown of the key `a` (code 97). -/
theorem keydown_sets_direction_and_moves_witness :
    ((samplePlayer.inputEventHandler ⟨SDL_KEYDOWN, SDLK_LEFT⟩).1.idle = false ∧
      (samplePlayer.inputEventHandler ⟨SDL_KEYDOWN, SDLK_LEFT⟩).1.direction = 1 ∧
      (samplePlayer.inputEventHandler ⟨SDL_KEYDOWN, SDLK_LEFT⟩).1.objPosX
        = samplePlayer.objPosX - samplePlayer.moveSpeed ∧
      (samplePlayer.inputEventHandler ⟨SDL_KEYDOWN, SDLK_LEFT⟩).1.objPosY
        = samplePlayer.objPosY) ∧
    ((samplePlayer.inputEventHandler ⟨SDL_KEYDOWN, 97⟩).1.idle = false ∧
      (samplePlayer.inputEventHandler ⟨SDL_KEYDOWN, 97⟩).1.direction = samplePlayer.direction ∧
      (samplePlayer.inputEventHandler ⟨SDL_KEYDOWN, 97⟩).1.objPosX = samplePlayer.objPosX ∧
      (samplePlayer.inputEventHandler ⟨SDL_KEYDOWN, 97⟩).1.objPosY = samplePlayer.objPosY) :=
  ⟨⟨(keydown_sets_direction_and_moves samplePlayer ⟨SDL_KEYDOWN, SDLK_LEFT⟩ rfl).1,
    (keydown_sets_direction_and_moves samplePlayer ⟨SDL_KEYDOWN, SDLK_LEFT⟩ rfl).2.1 rfl⟩,
   ⟨(keydown_sets_direction_and_moves samplePlayer ⟨SDL_KEYDOWN, 97⟩ rfl).1,
    (keydown_sets_direction_and_moves samplePlayer ⟨SDL_KEYDOWN, 97⟩ rfl).2.2.2.2.2
      (by decide) (by decide) (by decide) (by decide)⟩⟩

/-- C7: on a keyup event, whatever key was released, the handler performs no
effect and changes nothing but `idle`, which is true afterwards: direction,
position, source rectangle and `currentFrame` are as before. -/
theorem keyup_sets_idle_only (p : Player) (event : SDL_Event)
    (hup : event.type = SDL_KEYUP) :
    (p.inputEventHandler event).1.idle = true ∧
    (p.inputEventHandler event).1.direction = p.direction ∧
    (p.inputEventHandler event).1.objPosX = p.objPosX ∧
    (p.inputEventHandler event).1.objPosY = p.objPosY ∧
    (p.inputEventHandler event).1.srcRect = p.srcRect ∧
    (p.inputEventHandler event).1.spritePosX = p.spritePosX ∧
    (p.inputEventHandler event).1.spritePosY = p.spritePosY ∧
    (p.inputEventHandler event).1.spritePosW = p.spritePosW ∧
    (p.inputEventHandler event).1.spritePosH = p.spritePosH ∧
    (p.inputEventHandler event).1.currentFrame = p.currentFrame ∧
    (p.inputEventHandler event).1 = { p with idle := true } ∧
    (p.inputEventHandler event).2 = [] := by
  rw [handler_on_keyup p event hup]
  simp

/-- Witness of C7: the sample player receives a keyup of the key `a` (code 97). -/
theorem keyup_sets_idle_only_witness :
    (samplePlayer.inputEventHandler ⟨SDL_KEYUP, 97⟩).1.idle = true ∧
    (samplePlayer.inputEventHandler ⟨SDL_KEYUP, 97⟩).1.direction = 2 ∧
    (samplePlayer.inputEventHandler ⟨SDL_KEYUP, 97⟩).1.currentFrame = 0 :=
  ⟨(keyup_sets_idle_only samplePlayer ⟨SDL_KEYUP, 97⟩ rfl).1,
   (keyup_sets_idle_only samplePlayer ⟨SDL_KEYUP, 97⟩ rfl).2.1,
   (keyup_sets_idle_only samplePlayer ⟨SDL_KEYUP, 97⟩ rfl).2.2.2.2.2.2.2.2.2.1⟩

/-! ## The textured sprite -/

/-- C8 (the code at the failing input): a player whose image loaded and whose
texture was created at clock reading 1000 is updated at 1016. `animate`
finds the period not elapsed and does not enter `setSrcRect`; `draw` then blits
with the source rectangle (7, 11, 13, 17) that the unwritten members happen to
hold. The trace from the constructor on has a blit before any `setSrcRect`, and
so has the trace of a right-arrow keydown delivered first. -/
theorem update_blits_before_setSrcRect :
    (Player.new staleMem 0 0 (some 1) (some 2) 1000 0 0 64 64 2).2
        ++ (samplePlayer.calls [.update 1016]).2
      = [ .SDL_CreateTextureFromSurface (some 1), .SDL_FreeSurface (some 1),
          .coutInt 7, .coutInt 11, .coutInt 13, .coutInt 17,
          .SDL_RenderCopy (some 2) ⟨7, 11, 13, 17⟩ ⟨0, 0, 13, 17⟩ ] ∧
    noBlitBeforeSetSrcRect
      ((Player.new staleMem 0 0 (some 1) (some 2) 1000 0 0 64 64 2).2
        ++ (samplePlayer.calls [.update 1016]).2) = false ∧
    noBlitBeforeSetSrcRect
      ((Player.new staleMem 0 0 (some 1) (some 2) 1000 0 0 64 64 2).2
        ++ (samplePlayer.calls [.input ⟨SDL_KEYDOWN, SDLK_RIGHT⟩]).2) = false := by
  decide

/-- C9: `BitmapObject::draw` with a null texture performs no effect and leaves
the object as it was; with a texture its only renderer call is one blit of
`(spritePosX, spritePosY, spritePosW, spritePosH)` to
`(objPosX, objPosY, spritePosW, spritePosH)`, with no present. `setSrcRect`
makes no renderer call, and `setSrcRect(a, b, c, d)` followed by `draw` blits
`(a, b, c, d)` to `(objPosX, objPosY, c, d)`. -/
theorem draw_blits_source_rect (o : BitmapObject) :
    (o.texture = none → o.draw = (o, [])) ∧
    (o.texture ≠ none →
      rendererCalls o.draw.2
        = [.SDL_RenderCopy o.texture ⟨o.spritePosX, o.spritePosY, o.spritePosW, o.spritePosH⟩
            ⟨o.objPosX, o.objPosY, o.spritePosW, o.spritePosH⟩]) ∧
    (∀ a b c d : Int, rendererCalls (o.setSrcRect a b c d).2 = []) ∧
    (∀ a b c d : Int, o.texture ≠ none →
      rendererCalls (o.setSrcRect a b c d).1.draw.2
        = [.SDL_RenderCopy o.texture ⟨a, b, c, d⟩ ⟨o.objPosX, o.objPosY, c, d⟩]) := by
  refine ⟨?_, ?_, ?_, ?_⟩
  · intro h
    simp [BitmapObject.draw, h]
  · intro h
    simp [BitmapObject.draw, h, rendererCalls, Effect.isRendererCall]
  · intro a b c d
    simp [BitmapObject.setSrcRect, rendererCalls, Effect.isRendererCall]
  · intro a b c d h
    simp [BitmapObject.draw, BitmapObject.setSrcRect, h, rendererCalls, Effect.isRendererCall]

/-- Witness of C9: an object whose load failed in memory that held a null
texture pointer draws nothing; the sample player's sprite, with texture 2,
blits `(1, 2, 3, 4)` to `(0, 0, 3, 4)` after `setSrcRect(1, 2, 3, 4)`. -/
theorem draw_blits_source_rect_witness :
    (BitmapObject.new staleMem none none 5 6 64 64).1.draw
      = ((BitmapObject.new staleMem none none 5 6 64 64).1, []) ∧
    rendererCalls (samplePlayer.toBitmapObject.setSrcRect 1 2 3 4).1.draw.2
      = [.SDL_RenderCopy (some 2) ⟨1, 2, 3, 4⟩ ⟨0, 0, 3, 4⟩] :=
  ⟨(draw_blits_source_rect (BitmapObject.new staleMem none none 5 6 64 64).1).1 rfl,
   (draw_blits_source_rect samplePlayer.toBitmapObject).2.2.2 1 2 3 4 (by decide)⟩

/-! ## The line segment -/

/-- C10: `LineSegment::translate(dx, dy)` adds `(dx, dy)` to the start point and
to the end point, and `translate(0, 0)` leaves both endpoints as they were. -/
theorem lineSegment_translate_adds_offset (l : LineSegment) (dx dy : Int) :
    (l.translate dx dy).1.start.getX = l.start.getX + dx ∧
    (l.translate dx dy).1.start.getY = l.start.getY + dy ∧
    (l.translate dx dy).1.«end».getX = l.«end».getX + dx ∧
    (l.translate dx dy).1.«end».getY = l.«end».getY + dy ∧
    (l.translate 0 0).1.start = l.start ∧
    (l.translate 0 0).1.«end» = l.«end» := by
  simp [LineSegment.translate, LineSegment.drawSegment, Point2D.setPoint, Point2D.getX,
    Point2D.getY]

/-! ## Truncation and rounding -/

theorem truncToInt_intCast {K : Type} [LinearOrderedField K] [FloorRing K] (n : Int) :
    truncToInt (n : K) = n := by
  unfold truncToInt
  split <;> simp

theorem truncToInt_of_nonneg {K : Type} [LinearOrderedField K] [FloorRing K] (x : K) (n : Int)
    (h0 : 0 ≤ x) (h1 : (n : K) ≤ x) (h2 : x < n + 1) : truncToInt x = n := by
  unfold truncToInt
  rw [if_pos h0]
  exact Int.floor_eq_iff.mpr ⟨h1, h2⟩

theorem truncToInt_of_neg {K : Type} [LinearOrderedField K] [FloorRing K] (x : K) (n : Int)
    (h0 : x < 0) (h1 : (n : K) - 1 < x) (h2 : x ≤ n) : truncToInt x = n := by
  unfold truncToInt
  rw [if_neg (not_le.mpr h0)]
  exact Int.ceil_eq_iff.mpr ⟨h1, h2⟩

theorem truncToInt_sub_lt_one {K : Type} [LinearOrderedField K] [FloorRing K] (x : K) :
    ((truncToInt x : Int) : K) - x < 1 := by
  unfold truncToInt
  split
  · have := Int.floor_le x
    linarith
  · have := Int.ceil_lt_add_one x
    linarith

theorem sub_truncToInt_lt_one {K : Type} [LinearOrderedField K] [FloorRing K] (x : K) :
    x - ((truncToInt x : Int) : K) < 1 := by
  unfold truncToInt
  split
  · have := Int.lt_floor_add_one x
    linarith
  · have := Int.le_ceil x
    linarith

theorem truncToInt_between {K : Type} [LinearOrderedField K] [FloorRing K] (v : K)
    (lo hi : Int) (h1 : (lo : K) ≤ v) (h2 : v ≤ (hi : K)) :
    lo ≤ truncToInt v ∧ truncToInt v ≤ hi := by
  unfold truncToInt
  split
  · refine ⟨Int.le_floor.mpr h1, ?_⟩
    have h3 : ((Int.floor v : Int) : K) ≤ (hi : K) := le_trans (Int.floor_le v) h2
    exact_mod_cast h3
  · refine ⟨?_, Int.ceil_le.mpr h2⟩
    have h3 : (lo : K) ≤ ((Int.ceil v : Int) : K) := le_trans h1 (Int.le_ceil v)
    exact_mod_cast h3

/-- A value within 1/2 of the half-integer `N / 2` truncates to within 1 of it. -/
theorem truncToInt_near_half (w : ℚ) (N : Int) (h1 : ((N : ℚ) - 1) / 2 ≤ w)
    (h2 : w ≤ ((N : ℚ) + 1) / 2) : |((truncToInt w : Int) : ℚ) - (N : ℚ) / 2| ≤ 1 := by
  have h3 := truncToInt_sub_lt_one w
  have h4 := sub_truncToInt_lt_one w
  have h5 : ((2 * truncToInt w - N : Int) : ℚ) < ((3 : Int) : ℚ) := by push_cast; linarith
  have h6 : ((-3 : Int) : ℚ) < ((2 * truncToInt w - N : Int) : ℚ) := by push_cast; linarith
  have h7 : 2 * truncToInt w - N < 3 := by exact_mod_cast h5
  have h8 : -3 < 2 * truncToInt w - N := by exact_mod_cast h6
  have h9 : ((2 * truncToInt w - N : Int) : ℚ) ≤ ((2 : Int) : ℚ) := by
    exact_mod_cast (show 2 * truncToInt w - N ≤ 2 by omega)
  have h10 : ((-2 : Int) : ℚ) ≤ ((2 * truncToInt w - N : Int) : ℚ) := by
    exact_mod_cast (show -2 ≤ 2 * truncToInt w - N by omega)
  push_cast at h9 h10
  rw [abs_le]
  constructor <;> linarith

/-- Two values less than 1 apart truncate to integers at most 1 apart. -/
theorem truncToInt_close (a b : ℚ) (h : |a - b| < 1) : |truncToInt a - truncToInt b| ≤ 1 := by
  have hab := abs_lt.mp h
  have key : ∀ u v : ℚ, u ≤ v → v < u + 1 →
      truncToInt u ≤ truncToInt v ∧ truncToInt v ≤ truncToInt u + 1 := by
    intro u v huv hvu
    unfold truncToInt
    by_cases hu : 0 ≤ u
    · have hv : 0 ≤ v := le_trans hu huv
      rw [if_pos hu, if_pos hv]
      refine ⟨Int.floor_mono huv, ?_⟩
      have h1 : Int.floor v ≤ Int.floor (u + 1) := Int.floor_mono hvu.le
      rw [Int.floor_add_one] at h1
      exact h1
    · by_cases hv : 0 ≤ v
      · rw [if_neg hu, if_pos hv]
        have hu2 : u < 0 := not_le.mp hu
        have hc : Int.ceil u = 0 := by
          rw [Int.ceil_eq_iff]
          push_cast
          constructor <;> linarith
        have hf : Int.floor v = 0 := by
          rw [Int.floor_eq_iff]
          push_cast
          constructor <;> linarith
        rw [hc, hf]
        constructor <;> decide
      · rw [if_neg hu, if_neg hv]
        refine ⟨Int.ceil_mono huv, ?_⟩
        have h1 : Int.ceil v ≤ Int.ceil (u + 1) := Int.ceil_mono hvu.le
        rw [Int.ceil_add_one] at h1
        exact h1
  rw [abs_le]
  by_cases hle : a ≤ b
  · have := key a b hle (by linarith)
    constructor <;> omega
  · have := key b a (by linarith) (by linarith)
    constructor <;> omega

/-! ## Rounding to `float` -/

theorem roundHalfEven_spec (y : ℚ) :
    (roundHalfEven y : ℚ) - 1 / 2 ≤ y ∧ y ≤ (roundHalfEven y : ℚ) + 1 / 2 := by
  have h1 := Int.floor_le y
  have h2 := Int.lt_floor_add_one y
  unfold roundHalfEven
  split_ifs <;> push_cast <;> constructor <;> linarith

theorem roundHalfEven_ge (y : ℚ) (k : Int) (h : (k : ℚ) ≤ y) : k ≤ roundHalfEven y := by
  have hs := (roundHalfEven_spec y).2
  by_contra hc
  have hc2 : roundHalfEven y + 1 ≤ k := by omega
  have hc3 : ((roundHalfEven y + 1 : Int) : ℚ) ≤ (k : ℚ) := by exact_mod_cast hc2
  push_cast at hc3
  linarith

theorem roundHalfEven_le (y : ℚ) (k : Int) (h : y ≤ (k : ℚ)) : roundHalfEven y ≤ k := by
  have hs := (roundHalfEven_spec y).1
  by_contra hc
  have hc2 : k + 1 ≤ roundHalfEven y := by omega
  have hc3 : ((k + 1 : Int) : ℚ) ≤ (roundHalfEven y : ℚ) := by exact_mod_cast hc2
  push_cast at hc3
  linarith

theorem roundHalfEven_intCast (k : Int) : roundHalfEven (k : ℚ) = k :=
  le_antisymm (roundHalfEven_le _ k le_rfl) (roundHalfEven_ge _ k le_rfl)

theorem roundHalfEven_of_near (y : ℚ) (n : Int) (h1 : (n : ℚ) - 1 / 2 < y)
    (h2 : y < (n : ℚ) + 1 / 2) : roundHalfEven y = n := by
  have hs := roundHalfEven_spec y
  have ha : roundHalfEven y < n + 1 := by
    have : (roundHalfEven y : ℚ) < ((n + 1 : Int) : ℚ) := by push_cast; linarith
    exact_mod_cast this
  have hb : n < roundHalfEven y + 1 := by
    have : (n : ℚ) < ((roundHalfEven y + 1 : Int) : ℚ) := by push_cast; linarith
    exact_mod_cast this
  omega

theorem roundHalfEven_of_tie (y : ℚ) (n : Int) (hy : y = (n : ℚ) + 1 / 2) :
    roundHalfEven y = if n % 2 = 0 then n else n + 1 := by
  have hf : Int.floor y = n := by
    rw [Int.floor_eq_iff]
    constructor <;> linarith
  unfold roundHalfEven
  rw [hf]
  have h3 : ¬ (y - (n : ℚ) < 1 / 2) := by rw [hy]; norm_num
  have h4 : ¬ ((1 : ℚ) / 2 < y - (n : ℚ)) := by rw [hy]; norm_num
  rw [if_neg h3, if_neg h4]

theorem roundHalfEven_neg (y : ℚ) : roundHalfEven (-y) = - roundHalfEven y := by
  have hf1 := Int.floor_le y
  have hf2 := Int.lt_floor_add_one y
  by_cases hy : ((Int.floor y : Int) : ℚ) = y
  · have h1 : roundHalfEven y = Int.floor y := by
      have := roundHalfEven_intCast (Int.floor y)
      rwa [hy] at this
    have h2 : roundHalfEven (-y) = - Int.floor y := by
      have := roundHalfEven_intCast (- Int.floor y)
      push_cast at this
      rwa [hy] at this
    rw [h1, h2]
  · have hlt : ((Int.floor y : Int) : ℚ) < y := lt_of_le_of_ne hf1 hy
    have hg : Int.floor (-y) = - Int.floor y - 1 := by
      rw [Int.floor_eq_iff]
      push_cast
      constructor <;> linarith
    unfold roundHalfEven
    rw [hg]
    push_cast
    split_ifs <;> first | omega | (exfalso; linarith)

theorem two_zpow_pos (n : Int) : (0 : ℚ) < 2 ^ n := zpow_pos (by norm_num) n

theorem roundTo_zero (p : Nat) (emin : Int) : roundTo p emin 0 = 0 := by
  simp [roundTo]

theorem roundTo_neg (p : Nat) (emin : Int) (x : ℚ) :
    roundTo p emin (-x) = - roundTo p emin x := by
  by_cases hx : x = 0
  · simp [hx, roundTo_zero]
  · have hx2 : -x ≠ 0 := neg_ne_zero.mpr hx
    unfold roundTo
    rw [if_neg hx, if_neg hx2, abs_neg, neg_div, roundHalfEven_neg]
    push_cast
    ring

theorem log_lt_of_abs_lt (x : ℚ) (hx : x ≠ 0) (n : Int) (h : |x| < 2 ^ n) :
    Int.log 2 |x| < n := by
  have hpos : 0 < |x| := abs_pos.mpr hx
  have := (Int.lt_zpow_iff_log_lt (b := 2) (by norm_num) (x := n) hpos).1
    (by simpa using h)
  exact this

theorem le_log_of_le_abs (x : ℚ) (hx : x ≠ 0) (n : Int) (h : 2 ^ n ≤ |x|) :
    n ≤ Int.log 2 |x| := by
  have hpos : 0 < |x| := abs_pos.mpr hx
  have := (Int.zpow_le_iff_le_log (b := 2) (by norm_num) (x := n) hpos).1
    (by simpa using h)
  exact this

/-- A lower bound on the grid `2^j` is kept by rounding, when the value's own
grid is at least as fine. -/
theorem roundTo_grid_ge (p : Nat) (emin : Int) (x : ℚ) (k j : Int)
    (hx : |x| < 2 ^ (j + p)) (hj : emin - ((p : Int) - 1) ≤ j)
    (h : (k : ℚ) * 2 ^ j ≤ x) : (k : ℚ) * 2 ^ j ≤ roundTo p emin x := by
  by_cases hx0 : x = 0
  · rw [hx0, roundTo_zero]; rw [hx0] at h; exact h
  · have hlog := log_lt_of_abs_lt x hx0 _ hx
    have he : max (Int.log 2 |x|) emin - ((p : Int) - 1) ≤ j := by
      have : max (Int.log 2 |x|) emin ≤ j + ((p : Int) - 1) := max_le (by omega) (by omega)
      omega
    unfold roundTo
    rw [if_neg hx0]
    generalize max (Int.log 2 |x|) emin - ((p : Int) - 1) = e at he
    have hq := two_zpow_pos e
    obtain ⟨d, hd⟩ : ∃ d : Nat, j = e + d := ⟨(j - e).toNat, by omega⟩
    have hpow : (2 : ℚ) ^ j = 2 ^ e * 2 ^ d := by
      rw [hd, zpow_add₀ (by norm_num), zpow_natCast]
    have hK : ((k * 2 ^ d : Int) : ℚ) ≤ x / 2 ^ e := by
      rw [le_div_iff₀ hq]
      push_cast
      calc (k : ℚ) * 2 ^ d * 2 ^ e = (k : ℚ) * 2 ^ j := by rw [hpow]; ring
        _ ≤ x := h
    have hr := roundHalfEven_ge _ _ hK
    have hr2 : ((k * 2 ^ d : Int) : ℚ) ≤ (roundHalfEven (x / 2 ^ e) : ℚ) := by exact_mod_cast hr
    calc (k : ℚ) * 2 ^ j = ((k * 2 ^ d : Int) : ℚ) * 2 ^ e := by rw [hpow]; push_cast; ring
      _ ≤ (roundHalfEven (x / 2 ^ e) : ℚ) * 2 ^ e := mul_le_mul_of_nonneg_right hr2 hq.le

theorem roundTo_grid_le (p : Nat) (emin : Int) (x : ℚ) (k j : Int)
    (hx : |x| < 2 ^ (j + p)) (hj : emin - ((p : Int) - 1) ≤ j)
    (h : x ≤ (k : ℚ) * 2 ^ j) : roundTo p emin x ≤ (k : ℚ) * 2 ^ j := by
  have h1 := roundTo_grid_ge p emin (-x) (-k) j (by rwa [abs_neg]) hj
    (by push_cast; linarith)
  rw [roundTo_neg] at h1
  push_cast at h1
  linarith

theorem roundTo_eval (p : Nat) (emin : Int) (x : ℚ) (e n : Int)
    (h1 : 2 ^ e ≤ |x|) (h2 : |x| < 2 ^ (e + 1)) (he : emin ≤ e)
    (hn : roundHalfEven (x / 2 ^ (e - ((p : Int) - 1))) = n) :
    roundTo p emin x = (n : ℚ) * 2 ^ (e - ((p : Int) - 1)) := by
  have hx0 : x ≠ 0 := by
    intro h0
    rw [h0, abs_zero] at h1
    exact absurd h1 (not_le.mpr (two_zpow_pos e))
  have hl1 := le_log_of_le_abs x hx0 e h1
  have hl2 := log_lt_of_abs_lt x hx0 (e + 1) h2
  have hlog : max (Int.log 2 |x|) emin = e := by
    rw [max_eq_left (by omega)]; omega
  unfold roundTo
  rw [if_neg hx0, hlog, hn]

theorem toFloat_zero : toFloat 0 = 0 := roundTo_zero _ _

theorem toFloat_neg (x : ℚ) : toFloat (-x) = - toFloat x := roundTo_neg _ _ x

theorem toFloat_grid_ge (x : ℚ) (k j : Int) (hx : |x| < 2 ^ (j + 24)) (hj : -149 ≤ j)
    (h : (k : ℚ) * 2 ^ j ≤ x) : (k : ℚ) * 2 ^ j ≤ toFloat x :=
  roundTo_grid_ge 24 (-126) x k j (by simpa using hx) (by norm_num; omega) h

theorem toFloat_grid_le (x : ℚ) (k j : Int) (hx : |x| < 2 ^ (j + 24)) (hj : -149 ≤ j)
    (h : x ≤ (k : ℚ) * 2 ^ j) : toFloat x ≤ (k : ℚ) * 2 ^ j :=
  roundTo_grid_le 24 (-126) x k j (by simpa using hx) (by norm_num; omega) h

theorem toFloat_ge_int (x : ℚ) (k : Int) (hx : |x| < 16777216) (h : (k : ℚ) ≤ x) :
    (k : ℚ) ≤ toFloat x := by
  have := toFloat_grid_ge x k 0 (by norm_num; exact hx) (by norm_num) (by simpa using h)
  simpa using this

theorem toFloat_le_int (x : ℚ) (k : Int) (hx : |x| < 16777216) (h : x ≤ (k : ℚ)) :
    toFloat x ≤ (k : ℚ) := by
  have := toFloat_grid_le x k 0 (by norm_num; exact hx) (by norm_num) (by simpa using h)
  simpa using this

theorem toFloat_ge_half (x : ℚ) (k : Int) (hx : |x| < 8388608) (h : (k : ℚ) / 2 ≤ x) :
    (k : ℚ) / 2 ≤ toFloat x := by
  have h2 : (2 : ℚ) ^ (-1 : Int) = 1 / 2 := by norm_num
  have := toFloat_grid_ge x k (-1) (by norm_num; exact hx) (by norm_num)
    (by rw [h2]; linarith)
  rw [h2] at this
  linarith

theorem toFloat_le_half (x : ℚ) (k : Int) (hx : |x| < 8388608) (h : x ≤ (k : ℚ) / 2) :
    toFloat x ≤ (k : ℚ) / 2 := by
  have h2 : (2 : ℚ) ^ (-1 : Int) = 1 / 2 := by norm_num
  have := toFloat_grid_le x k (-1) (by norm_num; exact hx) (by norm_num)
    (by rw [h2]; linarith)
  rw [h2] at this
  linarith

/-- Every integer multiple `n * 2^j` of a power of two with `|n| ≤ 2^24` and
`j ≥ -149` is a `float`. -/
theorem toFloat_grid (n j : Int) (hn : |n| ≤ 16777216) (hj : -149 ≤ j) :
    toFloat ((n : ℚ) * 2 ^ j) = (n : ℚ) * 2 ^ j := by
  have hq := two_zpow_pos j
  by_cases hlt : |n| < 16777216
  · have hx : |(n : ℚ) * 2 ^ j| < 2 ^ (j + 24) := by
      rw [abs_mul, abs_of_pos hq, zpow_add₀ (by norm_num), mul_comm]
      have : |(n : ℚ)| < 16777216 := by exact_mod_cast hlt
      have h24 : (2 : ℚ) ^ (24 : Int) = 16777216 := by norm_num
      rw [h24]
      exact mul_lt_mul_of_pos_left this hq
    exact le_antisymm (toFloat_grid_le _ n j hx hj le_rfl) (toFloat_grid_ge _ n j hx hj le_rfl)
  · have habs : |n| = 16777216 := by omega
    have hq1 := two_zpow_pos (j + 1)
    have hp : (2 : ℚ) ^ (j + 1) = 2 ^ j * 2 := by
      rw [zpow_add₀ (by norm_num)]; norm_num
    obtain ⟨m, hm, hm2⟩ : ∃ m : Int, n = 2 * m ∧ |m| = 8388608 := by
      refine ⟨n / 2, ?_, ?_⟩
      · rcases abs_cases n with ⟨h, _⟩ | ⟨h, _⟩ <;> omega
      · rcases abs_cases n with ⟨h, _⟩ | ⟨h, _⟩ <;>
          rcases abs_cases (n / 2) with ⟨h2, _⟩ | ⟨h2, _⟩ <;> omega
    have hval : (n : ℚ) * 2 ^ j = (m : ℚ) * 2 ^ (j + 1) := by
      rw [hm, hp]; push_cast; ring
    have hx : |(m : ℚ) * 2 ^ (j + 1)| < 2 ^ (j + 1 + 24) := by
      rw [abs_mul, abs_of_pos hq1, zpow_add₀ (by norm_num) (j + 1), mul_comm]
      have : |(m : ℚ)| < 16777216 := by
        have : |m| < 16777216 := by omega
        exact_mod_cast this
      have h24 : (2 : ℚ) ^ (24 : Int) = 16777216 := by norm_num
      rw [h24]
      exact mul_lt_mul_of_pos_left this hq1
    rw [hval]
    exact le_antisymm (toFloat_grid_le _ m (j + 1) hx (by omega) le_rfl)
      (toFloat_grid_ge _ m (j + 1) hx (by omega) le_rfl)

theorem toFloat_intCast (k : Int) (hk : |k| ≤ 16777216) : toFloat (k : ℚ) = k := by
  have := toFloat_grid k 0 hk (by norm_num)
  simpa using this

theorem toFloat_half (k : Int) (hk : |k| ≤ 16777216) : toFloat ((k : ℚ) / 2) = (k : ℚ) / 2 := by
  have h2 : (2 : ℚ) ^ (-1 : Int) = 1 / 2 := by norm_num
  have := toFloat_grid k (-1) hk (by norm_num)
  rw [h2] at this
  have e : (k : ℚ) / 2 = (k : ℚ) * (1 / 2) := by ring
  rw [e]
  exact this

/-- A rational `x` with `x * 2^s` an integer of magnitude at most `2^24` is a
`float`. -/
theorem toFloat_exact (x : ℚ) (n : Int) (s : Nat) (hx : x * 2 ^ s = n)
    (hn : |n| ≤ 16777216) (hs : s ≤ 149) : toFloat x = x := by
  have hq : (0 : ℚ) < 2 ^ s := by positivity
  have hval : x = (n : ℚ) * 2 ^ (-(s : Int)) := by
    rw [zpow_neg, zpow_natCast, ← hx]
    field_simp
  have := toFloat_grid n (-(s : Int)) hn (by omega)
  rw [← hval] at this
  exact this

/-- Rounding to `float` is idempotent. -/
theorem toFloat_idem (x : ℚ) : toFloat (toFloat x) = toFloat x := by
  by_cases hx0 : x = 0
  · rw [hx0, toFloat_zero, toFloat_zero]
  · have hpos : 0 < |x| := abs_pos.mpr hx0
    have hup : |x| < 2 ^ (Int.log 2 |x| + 1) := by
      have := Int.lt_zpow_succ_log_self (b := 2) (by norm_num) |x|
      simpa using this
    have hval : toFloat x
        = (roundHalfEven (x / 2 ^ (max (Int.log 2 |x|) (-126) - 23)) : ℚ)
            * 2 ^ (max (Int.log 2 |x|) (-126) - 23) := by
      unfold toFloat roundTo
      rw [if_neg hx0]
      norm_num
    have hle : Int.log 2 |x| ≤ max (Int.log 2 |x|) (-126) := le_max_left _ _
    have hge : (-126 : Int) ≤ max (Int.log 2 |x|) (-126) := le_max_right _ _
    generalize max (Int.log 2 |x|) (-126) = e at hval hle hge
    have hq := two_zpow_pos (e - 23)
    have hup2 : |x| < 16777216 * 2 ^ (e - 23) := by
      have h1 : (2 : ℚ) ^ (Int.log 2 |x| + 1) ≤ 2 ^ (e + 1) :=
        zpow_le_zpow_right₀ (by norm_num) (by omega)
      have h2 : (2 : ℚ) ^ (e + 1) = 16777216 * 2 ^ (e - 23) := by
        have : e + 1 = 24 + (e - 23) := by ring
        rw [this, zpow_add₀ (by norm_num)]
        norm_num
      linarith
    have habs := abs_lt.mp hup2
    have hr1 : (-16777216 : Int) ≤ roundHalfEven (x / 2 ^ (e - 23)) := by
      apply roundHalfEven_ge
      rw [le_div_iff₀ hq]
      push_cast
      linarith [habs.1]
    have hr2 : roundHalfEven (x / 2 ^ (e - 23)) ≤ (16777216 : Int) := by
      apply roundHalfEven_le
      rw [div_le_iff₀ hq]
      push_cast
      linarith [habs.2]
    rw [hval]
    exact toFloat_grid _ _ (abs_le.mpr ⟨hr1, hr2⟩) (by omega)

/-- Rounding to `float` moves a value of magnitude below `2^(j+24)` by at most
`2^j`. -/
theorem toFloat_abs_sub_le (x : ℚ) (j : Int) (hx : |x| < 2 ^ (j + 24)) (hj : -149 ≤ j) :
    |toFloat x - x| ≤ 2 ^ j := by
  have hq := two_zpow_pos j
  have h1 : ((Int.floor (x / 2 ^ j) : Int) : ℚ) * 2 ^ j ≤ x := by
    rw [← le_div_iff₀ hq]; exact Int.floor_le _
  have h2 : x ≤ ((Int.floor (x / 2 ^ j) + 1 : Int) : ℚ) * 2 ^ j := by
    rw [← div_le_iff₀ hq]; push_cast; exact (Int.lt_floor_add_one _).le
  have h3 := toFloat_grid_ge x _ j hx hj h1
  have h4 := toFloat_grid_le x _ j hx hj h2
  push_cast at h2 h4
  rw [abs_le]
  constructor <;> linarith


theorem toFloat_nonneg (x : ℚ) (h : 0 ≤ x) : 0 ≤ toFloat x := by
  unfold toFloat roundTo
  split
  · exact le_rfl
  · have hq := two_zpow_pos (max (Int.log 2 |x|) (-126) - (((24 : Nat) : Int) - 1))
    have h1 := roundHalfEven_ge (x / 2 ^ (max (Int.log 2 |x|) (-126) - (((24 : Nat) : Int) - 1))) 0
      (by push_cast; exact div_nonneg h hq.le)
    have h2 : (0 : ℚ) ≤ (roundHalfEven
        (x / 2 ^ (max (Int.log 2 |x|) (-126) - (((24 : Nat) : Int) - 1))) : ℚ) := by
      exact_mod_cast h1
    exact mul_nonneg h2 hq.le

/-- A value within 1/2 of the half-integer `M / 2`, `|M| ≤ 2^23`, stays within
1/2 of it when it is rounded to `float`. -/
theorem toFloat_half_window (M : Int) (z : ℚ) (hM : |M| ≤ 8388608)
    (h1 : ((M : ℚ) - 1) / 2 ≤ z) (h2 : z ≤ ((M : ℚ) + 1) / 2) :
    ((M : ℚ) - 1) / 2 ≤ toFloat z ∧ toFloat z ≤ ((M : ℚ) + 1) / 2 := by
  have hMq : |(M : ℚ)| ≤ 8388608 := by exact_mod_cast hM
  have hMb := abs_le.mp hMq
  have hz : |z| < 8388608 := by
    rw [abs_lt]
    constructor <;> linarith [hMb.1, hMb.2]
  have e1 := toFloat_ge_half z (M - 1) hz (by push_cast; linarith)
  have e2 := toFloat_le_half z (M + 1) hz (by push_cast; linarith)
  push_cast at e1 e2
  exact ⟨e1, e2⟩

/-- The `float` product of a value of magnitude at most `2^21` and one of
magnitude at most `2^-22` has magnitude at most 1/2. -/
theorem fmul_small (d e : ℚ) (hd : |d| ≤ 2097152) (he : |e| ≤ 1 / 4194304) :
    -(1 / 2) ≤ fmul d e ∧ fmul d e ≤ 1 / 2 := by
  have hprod : |d * e| ≤ 1 / 2 := by
    rw [abs_mul]
    calc |d| * |e| ≤ 2097152 * (1 / 4194304) :=
          mul_le_mul hd he (abs_nonneg e) (by norm_num)
      _ = 1 / 2 := by norm_num
  have hb := abs_le.mp hprod
  have h := toFloat_half_window 0 (d * e) (by norm_num) (by push_cast; linarith [hb.1])
    (by push_cast; linarith [hb.2])
  push_cast at h
  unfold fmul
  constructor <;> linarith [h.1, h.2]

/-- The `float` radians of 360, 90, 60 and 0 degrees: the `float`s nearest to
2 pi, pi / 2 and pi / 3, and 0. -/
theorem toRadians_values :
    toRadians 360 = 13176795 / 2097152 ∧ toRadians 90 = 13176795 / 8388608 ∧
    toRadians 60 = 4392265 / 4194304 ∧ toRadians 0 = 0 := by
  refine ⟨?_, ?_, ?_, ?_⟩
  · have d1 : toDouble (360 * M_PI) = 4974073419394997 / 4398046511104 := by
      unfold toDouble M_PI
      rw [roundTo_eval 53 (-1022) _ 10 4974073419394997 (by norm_num [abs_of_pos])
        (by norm_num [abs_of_pos]) (by norm_num)
        (roundHalfEven_of_near _ 4974073419394997 (by norm_num) (by norm_num))]
      norm_num
    have d2 : toDouble (4974073419394997 / 4398046511104 / 180)
        = 884279719003555 / 140737488355328 := by
      unfold toDouble
      rw [roundTo_eval 53 (-1022) _ 2 7074237752028440 (by norm_num [abs_of_pos])
        (by norm_num [abs_of_pos]) (by norm_num)
        (roundHalfEven_of_near _ 7074237752028440 (by norm_num) (by norm_num))]
      norm_num
    have d3 : toFloat (884279719003555 / 140737488355328) = 13176795 / 2097152 := by
      unfold toFloat
      rw [roundTo_eval 24 (-126) _ 2 13176795 (by norm_num [abs_of_pos])
        (by norm_num [abs_of_pos]) (by norm_num)
        (roundHalfEven_of_near _ 13176795 (by norm_num) (by norm_num))]
      norm_num
    unfold toRadians
    rw [d1, d2, d3]
  · have d1 : toDouble (90 * M_PI) = 4974073419394997 / 17592186044416 := by
      unfold toDouble M_PI
      rw [roundTo_eval 53 (-1022) _ 8 4974073419394997 (by norm_num [abs_of_pos])
        (by norm_num [abs_of_pos]) (by norm_num)
        (roundHalfEven_of_near _ 4974073419394997 (by norm_num) (by norm_num))]
      norm_num
    have d2 : toDouble (4974073419394997 / 17592186044416 / 180)
        = 884279719003555 / 562949953421312 := by
      unfold toDouble
      rw [roundTo_eval 53 (-1022) _ 0 7074237752028440 (by norm_num [abs_of_pos])
        (by norm_num [abs_of_pos]) (by norm_num)
        (roundHalfEven_of_near _ 7074237752028440 (by norm_num) (by norm_num))]
      norm_num
    have d3 : toFloat (884279719003555 / 562949953421312) = 13176795 / 8388608 := by
      unfold toFloat
      rw [roundTo_eval 24 (-126) _ 0 13176795 (by norm_num [abs_of_pos])
        (by norm_num [abs_of_pos]) (by norm_num)
        (roundHalfEven_of_near _ 13176795 (by norm_num) (by norm_num))]
      norm_num
    unfold toRadians
    rw [d1, d2, d3]
  · have d1 : toDouble (60 * M_PI) = 3316048946263331 / 17592186044416 := by
      unfold toDouble M_PI
      rw [roundTo_eval 53 (-1022) _ 7 6632097892526662 (by norm_num [abs_of_pos])
        (by norm_num [abs_of_pos]) (by norm_num)
        (by rw [roundHalfEven_of_tie _ 6632097892526662 (by norm_num)]; norm_num)]
      norm_num
    have d2 : toDouble (3316048946263331 / 17592186044416 / 180)
        = 4716158501352293 / 4503599627370496 := by
      unfold toDouble
      rw [roundTo_eval 53 (-1022) _ 0 4716158501352293 (by norm_num [abs_of_pos])
        (by norm_num [abs_of_pos]) (by norm_num)
        (roundHalfEven_of_near _ 4716158501352293 (by norm_num) (by norm_num))]
      norm_num
    have d3 : toFloat (4716158501352293 / 4503599627370496) = 4392265 / 4194304 := by
      unfold toFloat
      rw [roundTo_eval 24 (-126) _ 0 8784530 (by norm_num [abs_of_pos])
        (by norm_num [abs_of_pos]) (by norm_num)
        (roundHalfEven_of_near _ 8784530 (by norm_num) (by norm_num))]
      norm_num
    unfold toRadians
    rw [d1, d2, d3]
  · unfold toRadians toDouble
    rw [zero_mul, roundTo_zero, zero_div, roundTo_zero, toFloat_zero]

/-- The values of the sample library at the radians of 360, 90, 60 and 0
degrees. -/
theorem sampleLibm_values :
    (sampleLibm.cos (toRadians 360) = 1 ∧
      sampleLibm.sin (toRadians 360) = 6151831 / 35184372088832) ∧
    (sampleLibm.cos (toRadians 90) = -6151831 / 140737488355328 ∧
      sampleLibm.sin (toRadians 90) = 1) ∧
    (sampleLibm.cos (toRadians 60) = 16777215 / 33554432 ∧
      sampleLibm.sin (toRadians 60) = 1816187 / 2097152) ∧
    (sampleLibm.cos (toRadians 0) = 1 ∧ sampleLibm.sin (toRadians 0) = 0) := by
  obtain ⟨r1, r2, r3, r4⟩ := toRadians_values
  rw [r1, r2, r3, r4]
  unfold sampleLibm
  norm_num

/-! ## Lemmas on the line segment's rotate and scale -/

theorem segment_rotate_state (l : LineSegment) (m : Libm) (angle : ℚ) :
    (l.rotate m angle).1 =
      { start :=
          ⟨truncToInt
            (fsub
              (fadd (fdiv (intToFloat (l.start.getX + l.«end».getX)) 2)
                (fmul
                  (fsub (intToFloat l.start.getX)
                    (fdiv (intToFloat (l.start.getX + l.«end».getX)) 2))
                  (m.cos (toRadians angle))))
              (fmul
                (fsub (intToFloat l.start.getY)
                  (fdiv (intToFloat (l.start.getY + l.«end».getY)) 2))
                (m.sin (toRadians angle)))),
           truncToInt
            (fadd
              (fadd (fdiv (intToFloat (l.start.getY + l.«end».getY)) 2)
                (fmul
                  (fsub (intToFloat l.start.getX)
                    (fdiv (intToFloat (l.start.getX + l.«end».getX)) 2))
                  (m.sin (toRadians angle))))
              (fmul
                (fsub (intToFloat l.start.getY)
                  (fdiv (intToFloat (l.start.getY + l.«end».getY)) 2))
                (m.cos (toRadians angle))))⟩,
        «end» :=
          ⟨truncToInt
            (fsub
              (fadd (fdiv (intToFloat (l.start.getX + l.«end».getX)) 2)
                (fmul
                  (fsub (intToFloat l.«end».getX)
                    (fdiv (intToFloat (l.start.getX + l.«end».getX)) 2))
                  (m.cos (toRadians angle))))
              (fmul
                (fsub (intToFloat l.«end».getY)
                  (fdiv (intToFloat (l.start.getY + l.«end».getY)) 2))
                (m.sin (toRadians angle)))),
           truncToInt
            (fadd
              (fadd (fdiv (intToFloat (l.start.getY + l.«end».getY)) 2)
                (fmul
                  (fsub (intToFloat l.«end».getX)
                    (fdiv (intToFloat (l.start.getX + l.«end».getX)) 2))
                  (m.sin (toRadians angle))))
              (fmul
                (fsub (intToFloat l.«end».getY)
                  (fdiv (intToFloat (l.start.getY + l.«end».getY)) 2))
                (m.cos (toRadians angle))))⟩,
        color := l.color } := rfl

theorem segment_rotate_trace (l : LineSegment) (m : Libm) (angle : ℚ) :
    (l.rotate m angle).2 =
      [ .SDL_SetRenderDrawColor l.color,
        .SDL_RenderDrawLine (l.rotate m angle).1.start.getX (l.rotate m angle).1.start.getY
          (l.rotate m angle).1.«end».getX (l.rotate m angle).1.«end».getY,
        .SDL_RenderPresent ] := rfl

theorem segment_scale_state (l : LineSegment) (factor : ℚ) :
    (l.scale factor).1 =
      { start :=
          ⟨truncToInt
            (fadd (fdiv (intToFloat (l.start.getX + l.«end».getX)) 2)
              (fmul
                (fsub (intToFloat l.start.getX)
                  (fdiv (intToFloat (l.start.getX + l.«end».getX)) 2))
                factor)),
           truncToInt
            (fadd (fdiv (intToFloat (l.start.getY + l.«end».getY)) 2)
              (fmul
                (fsub (intToFloat l.start.getY)
                  (fdiv (intToFloat (l.start.getY + l.«end».getY)) 2))
                factor))⟩,
        «end» :=
          ⟨truncToInt
            (fadd (fdiv (intToFloat (l.start.getX + l.«end».getX)) 2)
              (fmul
                (fsub (intToFloat l.«end».getX)
                  (fdiv (intToFloat (l.start.getX + l.«end».getX)) 2))
                factor)),
           truncToInt
            (fadd (fdiv (intToFloat (l.start.getY + l.«end».getY)) 2)
              (fmul
                (fsub (intToFloat l.«end».getY)
                  (fdiv (intToFloat (l.start.getY + l.«end».getY)) 2))
                factor))⟩,
        color := l.color } := rfl

theorem segment_scale_trace (l : LineSegment) (factor : ℚ) :
    (l.scale factor).2 =
      [ .SDL_SetRenderDrawColor l.color,
        .SDL_RenderDrawLine (l.scale factor).1.start.getX (l.scale factor).1.start.getY
          (l.scale factor).1.«end».getX (l.scale factor).1.«end».getY,
        .SDL_RenderPresent ] := rfl

/-- The midpoint coordinate `(a + b) / 2.0f` is exact when `|a + b| ≤ 2^24`. -/
theorem segment_centre_exact (a b : Int) (h : |a + b| ≤ 16777216) :
    fdiv (intToFloat (a + b)) 2 = ((a + b : Int) : ℚ) / 2 := by
  unfold fdiv intToFloat
  rw [toFloat_intCast _ h, toFloat_half _ h]

/-- The offset `v - centre` of a coordinate from the midpoint coordinate is
exact when the sum, the coordinate and twice the offset are at most `2^24` in
magnitude. -/
theorem segment_offset_exact (a b v : Int) (hs : |a + b| ≤ 16777216) (hv : |v| ≤ 16777216)
    (hd : |2 * v - (a + b)| ≤ 16777216) :
    fsub (intToFloat v) (fdiv (intToFloat (a + b)) 2)
      = ((2 * v - (a + b) : Int) : ℚ) / 2 := by
  rw [segment_centre_exact a b hs]
  unfold fsub intToFloat
  rw [toFloat_intCast _ hv]
  have e : (v : ℚ) - ((a + b : Int) : ℚ) / 2 = ((2 * v - (a + b) : Int) : ℚ) / 2 := by
    push_cast; ring
  rw [e, toFloat_half _ hd]

/-- With factor 1 a coordinate of a segment whose coordinates are at most
`2^23` in magnitude is computed back exactly. -/
theorem scale_one_coord (a b v : Int) (ha : |a| ≤ 8388608) (hb : |b| ≤ 8388608)
    (hv : v = a ∨ v = b) :
    truncToInt
      (fadd (fdiv (intToFloat (a + b)) 2)
        (fmul (fsub (intToFloat v) (fdiv (intToFloat (a + b)) 2)) 1)) = v := by
  have ha2 := abs_le.mp ha
  have hb2 := abs_le.mp hb
  have hs : |a + b| ≤ 16777216 := abs_le.mpr ⟨by omega, by omega⟩
  have hv2 : |v| ≤ 16777216 := by
    rcases hv with h | h <;> rw [h] <;> exact abs_le.mpr ⟨by omega, by omega⟩
  have hd : |2 * v - (a + b)| ≤ 16777216 := by
    rcases hv with h | h <;> rw [h] <;> exact abs_le.mpr ⟨by omega, by omega⟩
  rw [segment_offset_exact a b v hs hv2 hd, segment_centre_exact a b hs]
  unfold fmul fadd
  rw [mul_one, toFloat_half _ hd]
  have e : ((a + b : Int) : ℚ) / 2 + ((2 * v - (a + b) : Int) : ℚ) / 2 = ((v : Int) : ℚ) := by
    push_cast; ring
  rw [e, toFloat_intCast _ hv2, truncToInt_intCast]

/-- The two ties the counterexamples of the line segment rest on. -/
theorem toFloat_ties :
    toFloat 16777217 = 16777216 ∧ toFloat 33554434 = 33554432 ∧
    toFloat 67108868 = 67108864 := by
  refine ⟨?_, ?_, ?_⟩
  · have := roundTo_eval 24 (-126) 16777217 24 8388608 (by norm_num) (by norm_num)
      (by norm_num) (by rw [roundHalfEven_of_tie _ 8388608 (by norm_num)]; rfl)
    unfold toFloat
    rw [this]
    norm_num
  · have := roundTo_eval 24 (-126) 33554434 25 8388608 (by norm_num) (by norm_num)
      (by norm_num) (by rw [roundHalfEven_of_tie _ 8388608 (by norm_num)]; rfl)
    unfold toFloat
    rw [this]
    norm_num
  · have := roundTo_eval 24 (-126) 67108868 26 8388608 (by norm_num) (by norm_num)
      (by norm_num) (by rw [roundHalfEven_of_tie _ 8388608 (by norm_num)]; rfl)
    unfold toFloat
    rw [this]
    norm_num

/-- A degenerate segment at a coordinate of magnitude at most `2^24`: the
midpoint coordinate is the coordinate and the offset from it is zero. -/
theorem degenerate_coord (x : Int) (hx : |x| ≤ 16777216) :
    fdiv (intToFloat (x + x)) 2 = (x : ℚ) ∧
    fsub (intToFloat x) (fdiv (intToFloat (x + x)) 2) = 0 := by
  have h1 : intToFloat (x + x) = (x : ℚ) * 2 := by
    unfold intToFloat
    have := toFloat_grid x 1 hx (by norm_num)
    have e : ((x + x : Int) : ℚ) = (x : ℚ) * 2 ^ (1 : Int) := by push_cast; ring
    rw [e, this]
    norm_num
  have h2 : fdiv (intToFloat (x + x)) 2 = (x : ℚ) := by
    unfold fdiv
    rw [h1]
    have e : (x : ℚ) * 2 / 2 = (x : ℚ) := by ring
    rw [e, toFloat_intCast _ hx]
  refine ⟨h2, ?_⟩
  rw [h2]
  unfold fsub intToFloat
  rw [toFloat_intCast _ hx, sub_self, toFloat_zero]

/-- A degenerate segment at the coordinates `(x, y)`, each of magnitude at most
`2^24`, is computed back exactly by `rotate` and by `scale`. -/
theorem degenerate_values (x y : Int) (hx : |x| ≤ 16777216) (hy : |y| ≤ 16777216)
    (c s f : ℚ) :
    truncToInt
      (fsub
        (fadd (fdiv (intToFloat (x + x)) 2)
          (fmul (fsub (intToFloat x) (fdiv (intToFloat (x + x)) 2)) c))
        (fmul (fsub (intToFloat y) (fdiv (intToFloat (y + y)) 2)) s)) = x ∧
    truncToInt
      (fadd
        (fadd (fdiv (intToFloat (y + y)) 2)
          (fmul (fsub (intToFloat x) (fdiv (intToFloat (x + x)) 2)) s))
        (fmul (fsub (intToFloat y) (fdiv (intToFloat (y + y)) 2)) c)) = y ∧
    truncToInt
      (fadd (fdiv (intToFloat (x + x)) 2)
        (fmul (fsub (intToFloat x) (fdiv (intToFloat (x + x)) 2)) f)) = x := by
  obtain ⟨hx1, hx2⟩ := degenerate_coord x hx
  obtain ⟨hy1, hy2⟩ := degenerate_coord y hy
  rw [hx2, hx1, hy2, hy1]
  unfold fmul fadd fsub
  simp only [zero_mul, toFloat_zero, add_zero, sub_zero, toFloat_intCast _ hx,
    toFloat_intCast _ hy, truncToInt_intCast]
  exact ⟨trivial, trivial, trivial⟩

/-! ## The line segment under scale and rotate -/

/-- C11 (as stated, refuted): the segment from (16777217, 0) to (16777217, 0)
scaled by 1 is stored as the segment from (16777216, 0) to (16777216, 0): a
`float` holds no odd integer above `2^24`. Just beyond `2^23` the offset from
the midpoint is lost already: the segment from (8388609, 0) to (-8388608, 0)
scaled by 1 is stored as the segment from (8388608, 0) to (-8388607, 0). -/
theorem lineSegment_scale_one_counterexample :
    ((⟨⟨16777217, 0⟩, ⟨16777217, 0⟩, white⟩ : LineSegment).scale 1).1
      = ⟨⟨16777216, 0⟩, ⟨16777216, 0⟩, white⟩ ∧
    (⟨⟨16777216, 0⟩, ⟨16777216, 0⟩, white⟩ : LineSegment).start
      ≠ (⟨⟨16777217, 0⟩, ⟨16777217, 0⟩, white⟩ : LineSegment).start ∧
    ((⟨⟨8388609, 0⟩, ⟨-8388608, 0⟩, white⟩ : LineSegment).scale 1).1
      = ⟨⟨8388608, 0⟩, ⟨-8388607, 0⟩, white⟩ := by
  obtain ⟨t1, t2, -⟩ := toFloat_ties
  have h16 : toFloat 16777216 = 16777216 := by
    have := toFloat_intCast 16777216 (by decide)
    simpa using this
  have hy : truncToInt
      (fadd (fdiv (intToFloat (0 + 0)) 2)
        (fmul (fsub (intToFloat 0) (fdiv (intToFloat (0 + 0)) 2)) 1)) = 0 :=
    scale_one_coord 0 0 0 (by decide) (by decide) (Or.inl rfl)
  have hst : ((⟨⟨16777217, 0⟩, ⟨16777217, 0⟩, white⟩ : LineSegment).scale 1).1
      = ⟨⟨16777216, 0⟩, ⟨16777216, 0⟩, white⟩ := by
    have hx : truncToInt
        (fadd (fdiv (intToFloat (16777217 + 16777217)) 2)
          (fmul (fsub (intToFloat 16777217) (fdiv (intToFloat (16777217 + 16777217)) 2)) 1))
        = 16777216 := by
      unfold fadd fmul fsub fdiv intToFloat
      norm_num [t1, t2, h16, toFloat_zero]
      have := truncToInt_intCast (K := ℚ) 16777216
      simpa using this
    rw [segment_scale_state]
    simp only [Point2D.getX, Point2D.getY, hx, hy]
  have hnear : ((⟨⟨8388609, 0⟩, ⟨-8388608, 0⟩, white⟩ : LineSegment).scale 1).1
      = ⟨⟨8388608, 0⟩, ⟨-8388607, 0⟩, white⟩ := by
    have cx : fdiv (intToFloat (8388609 + -8388608)) 2 = 1 / 2 := by
      rw [segment_centre_exact 8388609 (-8388608) (by decide)]
      norm_num
    have i1 : intToFloat 8388609 = 8388609 := by
      unfold intToFloat
      exact_mod_cast toFloat_intCast 8388609 (by decide)
    have i2 : intToFloat (-8388608) = -8388608 := by
      unfold intToFloat
      exact_mod_cast toFloat_intCast (-8388608) (by decide)
    have k : toFloat 8388608 = 8388608 := by
      exact_mod_cast toFloat_intCast 8388608 (by decide)
    have tie : toFloat (8388608 + 1 / 2) = 8388608 := by
      unfold toFloat
      rw [roundTo_eval 24 (-126) _ 23 8388608 (by norm_num [abs_of_pos])
        (by norm_num [abs_of_pos]) (by norm_num)
        (by rw [roundHalfEven_of_tie _ 8388608 (by norm_num)]; rfl)]
      norm_num
    have d1 : fsub 8388609 (1 / 2) = 8388608 := by
      unfold fsub
      have e : (8388609 : ℚ) - 1 / 2 = 8388608 + 1 / 2 := by norm_num
      rw [e, tie]
    have d2 : fsub (-8388608) (1 / 2) = -8388608 := by
      unfold fsub
      have e : (-8388608 : ℚ) - 1 / 2 = -(8388608 + 1 / 2) := by norm_num
      rw [e, toFloat_neg, tie]
    have m1 : fmul 8388608 1 = 8388608 := by
      unfold fmul
      rw [mul_one, k]
    have m2 : fmul (-8388608) 1 = -8388608 := by
      unfold fmul
      rw [mul_one, toFloat_neg, k]
    have a1 : fadd (1 / 2) 8388608 = 8388608 := by
      unfold fadd
      have e : (1 / 2 : ℚ) + 8388608 = 8388608 + 1 / 2 := by norm_num
      rw [e, tie]
    have a2 : fadd (1 / 2) (-8388608) = -(16777215 / 2) := by
      unfold fadd
      have e : (1 / 2 : ℚ) + -8388608 = -(16777215 / 2) := by norm_num
      rw [e, toFloat_neg]
      have := toFloat_exact (16777215 / 2) 16777215 1 (by norm_num) (by decide) (by norm_num)
      rw [this]
    have n1 : truncToInt (8388608 : ℚ) = 8388608 := by
      exact_mod_cast truncToInt_intCast (K := ℚ) 8388608
    have n2 : truncToInt (-(16777215 / 2) : ℚ) = -8388607 :=
      truncToInt_of_neg _ (-8388607) (by norm_num) (by norm_num) (by norm_num)
    rw [segment_scale_state]
    simp only [Point2D.getX, Point2D.getY, cx, i1, i2, d1, d2, m1, m2, a1, a2, n1, n2, hy]
  exact ⟨hst, by decide, hnear⟩

/-- C11 (amended): for every line segment whose four coordinates are at most
`2^23 = 8388608` in magnitude, `LineSegment::scale` with factor 1 leaves both
endpoints as they were. -/
theorem lineSegment_scale_one_is_noop (l : LineSegment)
    (hx1 : |l.start.getX| ≤ 8388608) (hy1 : |l.start.getY| ≤ 8388608)
    (hx2 : |l.«end».getX| ≤ 8388608) (hy2 : |l.«end».getY| ≤ 8388608) :
    (l.scale 1).1.start = l.start ∧ (l.scale 1).1.«end» = l.«end» := by
  rw [segment_scale_state]
  simp only [scale_one_coord _ _ _ hx1 hx2 (Or.inl rfl), scale_one_coord _ _ _ hx1 hx2 (Or.inr rfl),
    scale_one_coord _ _ _ hy1 hy2 (Or.inl rfl), scale_one_coord _ _ _ hy1 hy2 (Or.inr rfl)]
  exact ⟨rfl, rfl⟩

/-- Witness of C11 (amended): the segment from (100, 100) to (200, 100). -/
theorem lineSegment_scale_one_is_noop_witness :
    (|(100 : Int)| ≤ 8388608 ∧ |(200 : Int)| ≤ 8388608) ∧
    ((⟨⟨100, 100⟩, ⟨200, 100⟩, white⟩ : LineSegment).scale 1).1.start = ⟨100, 100⟩ ∧
    ((⟨⟨100, 100⟩, ⟨200, 100⟩, white⟩ : LineSegment).scale 1).1.«end» = ⟨200, 100⟩ :=
  ⟨⟨by decide, by decide⟩,
   lineSegment_scale_one_is_noop (⟨⟨100, 100⟩, ⟨200, 100⟩, white⟩ : LineSegment)
     (by decide) (by decide) (by decide) (by decide)⟩

/-! ## Lemmas on the degenerate segment and on rotations -/

/-- A degenerate segment at a coordinate `x` that a `float` holds as `X`, with
`x + x` held as `2 * X`: the midpoint coordinate is `X`, the offset from it is
zero, and `rotate` and `scale` store `X`. -/
theorem degenerate_collapse (x y X : Int) (c s f : ℚ)
    (h1 : toFloat ((x + x : Int) : ℚ) = 2 * (X : ℚ)) (h2 : toFloat (x : ℚ) = (X : ℚ))
    (h3 : toFloat (X : ℚ) = (X : ℚ)) (hy : |y| ≤ 16777216) :
    truncToInt
      (fsub
        (fadd (fdiv (intToFloat (x + x)) 2)
          (fmul (fsub (intToFloat x) (fdiv (intToFloat (x + x)) 2)) c))
        (fmul (fsub (intToFloat y) (fdiv (intToFloat (y + y)) 2)) s)) = X ∧
    truncToInt
      (fadd
        (fadd (fdiv (intToFloat (y + y)) 2)
          (fmul (fsub (intToFloat x) (fdiv (intToFloat (x + x)) 2)) s))
        (fmul (fsub (intToFloat y) (fdiv (intToFloat (y + y)) 2)) c)) = y ∧
    truncToInt
      (fadd (fdiv (intToFloat (x + x)) 2)
        (fmul (fsub (intToFloat x) (fdiv (intToFloat (x + x)) 2)) f)) = X := by
  obtain ⟨hy1, hy2⟩ := degenerate_coord y hy
  have hx1 : fdiv (intToFloat (x + x)) 2 = (X : ℚ) := by
    unfold fdiv intToFloat
    rw [h1]
    have e : 2 * (X : ℚ) / 2 = (X : ℚ) := by ring
    rw [e, h3]
  have hx2 : fsub (intToFloat x) (fdiv (intToFloat (x + x)) 2) = 0 := by
    rw [hx1]
    unfold fsub intToFloat
    rw [h2, sub_self, toFloat_zero]
  rw [hx2, hx1, hy2, hy1]
  unfold fmul fadd fsub
  simp only [zero_mul, toFloat_zero, add_zero, sub_zero, h3, toFloat_intCast _ hy,
    truncToInt_intCast]
  exact ⟨trivial, trivial, trivial⟩

/-- A half-integer plus or minus a value of magnitude at most 1/2, rounded to
`float` and truncated, is within 1 of the half-integer. -/
theorem near_half_after_small (M : Int) (t : ℚ) (hM : |M| ≤ 8388608)
    (ht1 : -(1 / 2) ≤ t) (ht2 : t ≤ 1 / 2) :
    |((truncToInt (toFloat ((M : ℚ) / 2 + t)) : Int) : ℚ) - (M : ℚ) / 2| ≤ 1 ∧
    |((truncToInt (toFloat ((M : ℚ) / 2 - t)) : Int) : ℚ) - (M : ℚ) / 2| ≤ 1 := by
  have h1 := toFloat_half_window M ((M : ℚ) / 2 + t) hM (by linarith) (by linarith)
  have h2 := toFloat_half_window M ((M : ℚ) / 2 - t) hM (by linarith) (by linarith)
  exact ⟨truncToInt_near_half _ M h1.1 h1.2, truncToInt_near_half _ M h2.1 h2.2⟩

/-- A half-integer `S / 2` plus a value of magnitude at most 1/2, rounded to
`float`, then moved by the half-integer `D / 2`, rounded again and truncated, is
within 1 of the half-integer reached. -/
theorem near_half_after_shift (S D : Int) (t : ℚ) (hS : |S| ≤ 8388608)
    (hp : |S + D| ≤ 8388608) (hm : |S - D| ≤ 8388608)
    (ht1 : -(1 / 2) ≤ t) (ht2 : t ≤ 1 / 2) :
    |((truncToInt (toFloat (toFloat ((S : ℚ) / 2 + t) + (D : ℚ) / 2)) : Int) : ℚ)
        - ((S + D : Int) : ℚ) / 2| ≤ 1 ∧
    |((truncToInt (toFloat (toFloat ((S : ℚ) / 2 + t) - (D : ℚ) / 2)) : Int) : ℚ)
        - ((S - D : Int) : ℚ) / 2| ≤ 1 := by
  have h1 := toFloat_half_window S ((S : ℚ) / 2 + t) hS (by linarith) (by linarith)
  have h2 := toFloat_half_window (S + D) (toFloat ((S : ℚ) / 2 + t) + (D : ℚ) / 2) hp
    (by push_cast; linarith [h1.1]) (by push_cast; linarith [h1.2])
  have h3 := toFloat_half_window (S - D) (toFloat ((S : ℚ) / 2 + t) - (D : ℚ) / 2) hm
    (by push_cast; linarith [h1.1]) (by push_cast; linarith [h1.2])
  exact ⟨truncToInt_near_half _ _ h2.1 h2.2, truncToInt_near_half _ _ h3.1 h3.2⟩

/-- The bounds the rotation lemmas need, for a segment with coordinates at most
`n` in magnitude. -/
theorem segment_bounds (n a b v : Int) (ha : |a| ≤ n) (hb : |b| ≤ n)
    (hv : v = a ∨ v = b) :
    |a + b| ≤ 2 * n ∧ |v| ≤ n ∧ |2 * v - (a + b)| ≤ 2 * n := by
  have ha2 := abs_le.mp ha
  have hb2 := abs_le.mp hb
  rcases hv with h | h <;> rw [h] <;>
    exact ⟨abs_le.mpr ⟨by omega, by omega⟩, abs_le.mpr ⟨by omega, by omega⟩,
      abs_le.mpr ⟨by omega, by omega⟩⟩

/-- One `x` component of `LineSegment::rotate` when `cos(radians)` is 1 and
`sin(radians)` is at most `2^-22` in magnitude: within 1 of the old
component. -/
theorem full_turn_x (x1 x2 y1 y2 v w : Int) (c s : ℚ)
    (hx1 : |x1| ≤ 2097152) (hx2 : |x2| ≤ 2097152) (hy1 : |y1| ≤ 2097152)
    (hy2 : |y2| ≤ 2097152) (hv : v = x1 ∨ v = x2) (hw : w = y1 ∨ w = y2)
    (hc : c = 1) (hs : |s| ≤ 1 / 4194304) :
    |truncToInt
        (fsub
          (fadd (fdiv (intToFloat (x1 + x2)) 2)
            (fmul (fsub (intToFloat v) (fdiv (intToFloat (x1 + x2)) 2)) c))
          (fmul (fsub (intToFloat w) (fdiv (intToFloat (y1 + y2)) 2)) s)) - v| ≤ 1 := by
  obtain ⟨bx1, bx2, bx3⟩ := segment_bounds 2097152 x1 x2 v hx1 hx2 hv
  obtain ⟨by1, by2, by3⟩ := segment_bounds 2097152 y1 y2 w hy1 hy2 hw
  rw [segment_offset_exact x1 x2 v (by omega) (by omega) (by omega),
    segment_offset_exact y1 y2 w (by omega) (by omega) (by omega),
    segment_centre_exact x1 x2 (by omega), hc]
  have hdw : |((2 * w - (y1 + y2) : Int) : ℚ) / 2| ≤ 2097152 := by
    have : |((2 * w - (y1 + y2) : Int) : ℚ)| ≤ 4194304 := by exact_mod_cast by3
    rw [abs_div, abs_of_pos (by norm_num : (0 : ℚ) < 2)]
    linarith
  obtain ⟨ht1, ht2⟩ := fmul_small _ s hdw hs
  have e1 : fmul (((2 * v - (x1 + x2) : Int) : ℚ) / 2) 1
      = ((2 * v - (x1 + x2) : Int) : ℚ) / 2 := by
    unfold fmul
    rw [mul_one, toFloat_half _ (by omega)]
  have e2 : fadd (((x1 + x2 : Int) : ℚ) / 2) (((2 * v - (x1 + x2) : Int) : ℚ) / 2)
      = ((2 * v : Int) : ℚ) / 2 := by
    unfold fadd
    have e : ((x1 + x2 : Int) : ℚ) / 2 + ((2 * v - (x1 + x2) : Int) : ℚ) / 2
        = ((2 * v : Int) : ℚ) / 2 := by push_cast; ring
    rw [e, toFloat_half _ (by have := abs_le.mp bx2; exact abs_le.mpr ⟨by omega, by omega⟩)]
  rw [e1, e2]
  unfold fsub
  have h := (near_half_after_small (2 * v) _
    (by have := abs_le.mp bx2; exact abs_le.mpr ⟨by omega, by omega⟩) ht1 ht2).2
  have e3 : ((2 * v : Int) : ℚ) / 2 = ((v : Int) : ℚ) := by push_cast; ring
  rw [e3] at h ⊢
  exact_mod_cast h

/-- One `y` component of `LineSegment::rotate` when `cos(radians)` is 1 and
`sin(radians)` is at most `2^-22` in magnitude: within 1 of the old
component. -/
theorem full_turn_y (x1 x2 y1 y2 v w : Int) (c s : ℚ)
    (hx1 : |x1| ≤ 2097152) (hx2 : |x2| ≤ 2097152) (hy1 : |y1| ≤ 2097152)
    (hy2 : |y2| ≤ 2097152) (hv : v = x1 ∨ v = x2) (hw : w = y1 ∨ w = y2)
    (hc : c = 1) (hs : |s| ≤ 1 / 4194304) :
    |truncToInt
        (fadd
          (fadd (fdiv (intToFloat (y1 + y2)) 2)
            (fmul (fsub (intToFloat v) (fdiv (intToFloat (x1 + x2)) 2)) s))
          (fmul (fsub (intToFloat w) (fdiv (intToFloat (y1 + y2)) 2)) c)) - w| ≤ 1 := by
  obtain ⟨bx1, bx2, bx3⟩ := segment_bounds 2097152 x1 x2 v hx1 hx2 hv
  obtain ⟨by1, by2, by3⟩ := segment_bounds 2097152 y1 y2 w hy1 hy2 hw
  rw [segment_offset_exact x1 x2 v (by omega) (by omega) (by omega),
    segment_offset_exact y1 y2 w (by omega) (by omega) (by omega),
    segment_centre_exact y1 y2 (by omega), hc]
  have hdv : |((2 * v - (x1 + x2) : Int) : ℚ) / 2| ≤ 2097152 := by
    have : |((2 * v - (x1 + x2) : Int) : ℚ)| ≤ 4194304 := by exact_mod_cast bx3
    rw [abs_div, abs_of_pos (by norm_num : (0 : ℚ) < 2)]
    linarith
  obtain ⟨ht1, ht2⟩ := fmul_small _ s hdv hs
  have e1 : fmul (((2 * w - (y1 + y2) : Int) : ℚ) / 2) 1
      = ((2 * w - (y1 + y2) : Int) : ℚ) / 2 := by
    unfold fmul
    rw [mul_one, toFloat_half _ (by omega)]
  rw [e1]
  unfold fadd
  have hw2 := abs_le.mp by2
  have h := (near_half_after_shift (y1 + y2) (2 * w - (y1 + y2)) _ (by omega)
    (abs_le.mpr ⟨by omega, by omega⟩)
    (by have := abs_le.mp by1; have := abs_le.mp by3; exact abs_le.mpr ⟨by omega, by omega⟩)
    ht1 ht2).1
  have e3 : ((y1 + y2 + (2 * w - (y1 + y2)) : Int) : ℚ) / 2 = ((w : Int) : ℚ) := by
    push_cast; ring
  rw [e3] at h
  exact_mod_cast h

/-- One `x` component of `LineSegment::rotate` when `sin(radians)` is 1 and
`cos(radians)` is at most `2^-22` in magnitude: within 1 of the `x` component
of `M + (-b, a)`. -/
theorem quarter_turn_x (x1 x2 y1 y2 v w : Int) (c s : ℚ)
    (hx1 : |x1| ≤ 2097152) (hx2 : |x2| ≤ 2097152) (hy1 : |y1| ≤ 2097152)
    (hy2 : |y2| ≤ 2097152) (hv : v = x1 ∨ v = x2) (hw : w = y1 ∨ w = y2)
    (hs : s = 1) (hc : |c| ≤ 1 / 4194304) :
    |((truncToInt
        (fsub
          (fadd (fdiv (intToFloat (x1 + x2)) 2)
            (fmul (fsub (intToFloat v) (fdiv (intToFloat (x1 + x2)) 2)) c))
          (fmul (fsub (intToFloat w) (fdiv (intToFloat (y1 + y2)) 2)) s)) : Int) : ℚ)
      - (((x1 + x2 : Int) : ℚ) / 2 - ((w : ℚ) - ((y1 + y2 : Int) : ℚ) / 2))| ≤ 1 := by
  obtain ⟨bx1, bx2, bx3⟩ := segment_bounds 2097152 x1 x2 v hx1 hx2 hv
  obtain ⟨by1, by2, by3⟩ := segment_bounds 2097152 y1 y2 w hy1 hy2 hw
  rw [segment_offset_exact x1 x2 v (by omega) (by omega) (by omega),
    segment_offset_exact y1 y2 w (by omega) (by omega) (by omega),
    segment_centre_exact x1 x2 (by omega), hs]
  have hdv : |((2 * v - (x1 + x2) : Int) : ℚ) / 2| ≤ 2097152 := by
    have : |((2 * v - (x1 + x2) : Int) : ℚ)| ≤ 4194304 := by exact_mod_cast bx3
    rw [abs_div, abs_of_pos (by norm_num : (0 : ℚ) < 2)]
    linarith
  obtain ⟨ht1, ht2⟩ := fmul_small _ c hdv hc
  have e1 : fmul (((2 * w - (y1 + y2) : Int) : ℚ) / 2) 1
      = ((2 * w - (y1 + y2) : Int) : ℚ) / 2 := by
    unfold fmul
    rw [mul_one, toFloat_half _ (by omega)]
  rw [e1]
  unfold fadd fsub
  have h := (near_half_after_shift (x1 + x2) (2 * w - (y1 + y2)) _ (by omega)
    (by have := abs_le.mp bx1; have := abs_le.mp by3; exact abs_le.mpr ⟨by omega, by omega⟩)
    (by have := abs_le.mp bx1; have := abs_le.mp by3; exact abs_le.mpr ⟨by omega, by omega⟩)
    ht1 ht2).2
  have e3 : ((x1 + x2 - (2 * w - (y1 + y2)) : Int) : ℚ) / 2
      = ((x1 + x2 : Int) : ℚ) / 2 - ((w : ℚ) - ((y1 + y2 : Int) : ℚ) / 2) := by
    push_cast; ring
  rw [e3] at h
  exact h

/-- One `y` component of `LineSegment::rotate` when `sin(radians)` is 1 and
`cos(radians)` is at most `2^-22` in magnitude: within 1 of the `y` component
of `M + (-b, a)`. -/
theorem quarter_turn_y (x1 x2 y1 y2 v w : Int) (c s : ℚ)
    (hx1 : |x1| ≤ 2097152) (hx2 : |x2| ≤ 2097152) (hy1 : |y1| ≤ 2097152)
    (hy2 : |y2| ≤ 2097152) (hv : v = x1 ∨ v = x2) (hw : w = y1 ∨ w = y2)
    (hs : s = 1) (hc : |c| ≤ 1 / 4194304) :
    |((truncToInt
        (fadd
          (fadd (fdiv (intToFloat (y1 + y2)) 2)
            (fmul (fsub (intToFloat v) (fdiv (intToFloat (x1 + x2)) 2)) s))
          (fmul (fsub (intToFloat w) (fdiv (intToFloat (y1 + y2)) 2)) c)) : Int) : ℚ)
      - (((y1 + y2 : Int) : ℚ) / 2 + ((v : ℚ) - ((x1 + x2 : Int) : ℚ) / 2))| ≤ 1 := by
  obtain ⟨bx1, bx2, bx3⟩ := segment_bounds 2097152 x1 x2 v hx1 hx2 hv
  obtain ⟨by1, by2, by3⟩ := segment_bounds 2097152 y1 y2 w hy1 hy2 hw
  rw [segment_offset_exact x1 x2 v (by omega) (by omega) (by omega),
    segment_offset_exact y1 y2 w (by omega) (by omega) (by omega),
    segment_centre_exact y1 y2 (by omega), hs]
  have hdw : |((2 * w - (y1 + y2) : Int) : ℚ) / 2| ≤ 2097152 := by
    have : |((2 * w - (y1 + y2) : Int) : ℚ)| ≤ 4194304 := by exact_mod_cast by3
    rw [abs_div, abs_of_pos (by norm_num : (0 : ℚ) < 2)]
    linarith
  obtain ⟨ht1, ht2⟩ := fmul_small _ c hdw hc
  have hsum : |y1 + y2 + (2 * v - (x1 + x2))| ≤ 8388608 := by
    have := abs_le.mp by1
    have := abs_le.mp bx3
    exact abs_le.mpr ⟨by omega, by omega⟩
  have e1 : fmul (((2 * v - (x1 + x2) : Int) : ℚ) / 2) 1
      = ((2 * v - (x1 + x2) : Int) : ℚ) / 2 := by
    unfold fmul
    rw [mul_one, toFloat_half _ (by omega)]
  have e2 : fadd (((y1 + y2 : Int) : ℚ) / 2) (((2 * v - (x1 + x2) : Int) : ℚ) / 2)
      = ((y1 + y2 + (2 * v - (x1 + x2)) : Int) : ℚ) / 2 := by
    unfold fadd
    have e : ((y1 + y2 : Int) : ℚ) / 2 + ((2 * v - (x1 + x2) : Int) : ℚ) / 2
        = ((y1 + y2 + (2 * v - (x1 + x2)) : Int) : ℚ) / 2 := by push_cast; ring
    rw [e, toFloat_half _ (by omega)]
  rw [e1, e2]
  unfold fadd
  have h := (near_half_after_small (y1 + y2 + (2 * v - (x1 + x2))) _ hsum ht1 ht2).1
  have e3 : ((y1 + y2 + (2 * v - (x1 + x2)) : Int) : ℚ) / 2
      = ((y1 + y2 : Int) : ℚ) / 2 + ((v : ℚ) - ((x1 + x2 : Int) : ℚ) / 2) := by
    push_cast; ring
  rw [e3] at h ⊢
  exact h

theorem toFloat_err_128 (x : ℚ) (h : |x| < 131072) : |toFloat x - x| ≤ 1 / 128 := by
  have := toFloat_abs_sub_le x (-7) (by norm_num; exact h) (by norm_num)
  norm_num at this
  linarith

theorem toFloat_err_64 (x : ℚ) (h : |x| < 262144) : |toFloat x - x| ≤ 1 / 64 := by
  have := toFloat_abs_sub_le x (-6) (by norm_num; exact h) (by norm_num)
  norm_num at this
  linarith

theorem toFloat_err_one (x : ℚ) (h : |x| < 16777216) : |toFloat x - x| ≤ 1 := by
  have := toFloat_abs_sub_le x 0 (by norm_num; exact h) (by norm_num)
  norm_num at this
  linarith

theorem abs_mul_le_of_le_one (d c : ℚ) (n : ℚ) (hd : |d| ≤ n) (hc : |c| ≤ 1) :
    |d * c| ≤ n := by
  rw [abs_mul]
  calc |d| * |c| ≤ n * 1 := mul_le_mul hd hc (abs_nonneg c) (le_trans (abs_nonneg d) hd)
    _ = n := mul_one n

/-- The four roundings of an `x` component of a rotation move it by at most
3/64, for a centre and offsets of magnitude at most `2^16`. -/
theorem rot_error_x (cx dv dw c s : ℚ) (hcx : |cx| ≤ 65536) (hdv : |dv| ≤ 65536)
    (hdw : |dw| ≤ 65536) (hc : |c| ≤ 1) (hs : |s| ≤ 1) :
    |fsub (fadd cx (fmul dv c)) (fmul dw s) - (cx + dv * c - dw * s)| ≤ 3 / 64 := by
  have hp1 := abs_le.mp (abs_mul_le_of_le_one dv c 65536 hdv hc)
  have hp2 := abs_le.mp (abs_mul_le_of_le_one dw s 65536 hdw hs)
  have hcx2 := abs_le.mp hcx
  unfold fsub fadd fmul
  have e1 := abs_le.mp (toFloat_err_128 (dv * c) (by rw [abs_lt]; constructor <;> linarith))
  have e3 := abs_le.mp (toFloat_err_128 (dw * s) (by rw [abs_lt]; constructor <;> linarith))
  have e2 := abs_le.mp (toFloat_err_64 (cx + toFloat (dv * c))
    (by rw [abs_lt]; constructor <;> linarith))
  have e4 := abs_le.mp (toFloat_err_64 (toFloat (cx + toFloat (dv * c)) - toFloat (dw * s))
    (by rw [abs_lt]; constructor <;> linarith))
  rw [abs_le]
  constructor <;> linarith

/-- The four roundings of a `y` component of a rotation move it by at most
3/64, for a centre and offsets of magnitude at most `2^16`. -/
theorem rot_error_y (cy dv dw c s : ℚ) (hcy : |cy| ≤ 65536) (hdv : |dv| ≤ 65536)
    (hdw : |dw| ≤ 65536) (hc : |c| ≤ 1) (hs : |s| ≤ 1) :
    |fadd (fadd cy (fmul dv s)) (fmul dw c) - (cy + dv * s + dw * c)| ≤ 3 / 64 := by
  have hp1 := abs_le.mp (abs_mul_le_of_le_one dv s 65536 hdv hs)
  have hp2 := abs_le.mp (abs_mul_le_of_le_one dw c 65536 hdw hc)
  have hcy2 := abs_le.mp hcy
  unfold fadd fmul
  have e1 := abs_le.mp (toFloat_err_128 (dv * s) (by rw [abs_lt]; constructor <;> linarith))
  have e3 := abs_le.mp (toFloat_err_128 (dw * c) (by rw [abs_lt]; constructor <;> linarith))
  have e2 := abs_le.mp (toFloat_err_64 (cy + toFloat (dv * s))
    (by rw [abs_lt]; constructor <;> linarith))
  have e4 := abs_le.mp (toFloat_err_64 (toFloat (cy + toFloat (dv * s)) + toFloat (dw * c))
    (by rw [abs_lt]; constructor <;> linarith))
  rw [abs_le]
  constructor <;> linarith

theorem abs_mul_diff_le (d c c2 : ℚ) (hd : |d| ≤ 65536) (hc : |c2 - c| ≤ 1 / 262144) :
    |d * c2 - d * c| ≤ 1 / 4 := by
  have e : d * c2 - d * c = d * (c2 - c) := by ring
  rw [e, abs_mul]
  calc |d| * |c2 - c| ≤ 65536 * (1 / 262144) :=
        mul_le_mul hd hc (abs_nonneg _) (by norm_num)
    _ = 1 / 4 := by norm_num

/-- The centre and the offsets of a segment with coordinates at most `2^16` in
magnitude are exact and at most `2^16` in magnitude. -/
theorem segment_parts_small (a b v : Int) (ha : |a| ≤ 65536) (hb : |b| ≤ 65536)
    (hv : v = a ∨ v = b) :
    |fdiv (intToFloat (a + b)) 2| ≤ 65536 ∧
    |fsub (intToFloat v) (fdiv (intToFloat (a + b)) 2)| ≤ 65536 := by
  obtain ⟨b1, b2, b3⟩ := segment_bounds 65536 a b v ha hb hv
  rw [segment_offset_exact a b v (by omega) (by omega) (by omega),
    segment_centre_exact a b (by omega)]
  have h1 : |((a + b : Int) : ℚ)| ≤ 131072 := by exact_mod_cast b1
  have h2 : |((2 * v - (a + b) : Int) : ℚ)| ≤ 131072 := by exact_mod_cast b3
  rw [abs_div, abs_div, abs_of_pos (by norm_num : (0 : ℚ) < 2)]
  constructor <;> linarith

/-- An `x` component of `LineSegment::rotate` for two pairs of `cos` and `sin`
values at most `2^-18` apart: the truncated results are at most 1 apart. -/
theorem cyclic_x (x1 x2 y1 y2 v w : Int) (c s c2 s2 : ℚ)
    (hx1 : |x1| ≤ 65536) (hx2 : |x2| ≤ 65536) (hy1 : |y1| ≤ 65536) (hy2 : |y2| ≤ 65536)
    (hv : v = x1 ∨ v = x2) (hw : w = y1 ∨ w = y2)
    (hc : |c| ≤ 1) (hs : |s| ≤ 1) (hc2 : |c2| ≤ 1) (hs2 : |s2| ≤ 1)
    (hcc : |c2 - c| ≤ 1 / 262144) (hss : |s2 - s| ≤ 1 / 262144) :
    |truncToInt
        (fsub
          (fadd (fdiv (intToFloat (x1 + x2)) 2)
            (fmul (fsub (intToFloat v) (fdiv (intToFloat (x1 + x2)) 2)) c2))
          (fmul (fsub (intToFloat w) (fdiv (intToFloat (y1 + y2)) 2)) s2))
      - truncToInt
        (fsub
          (fadd (fdiv (intToFloat (x1 + x2)) 2)
            (fmul (fsub (intToFloat v) (fdiv (intToFloat (x1 + x2)) 2)) c))
          (fmul (fsub (intToFloat w) (fdiv (intToFloat (y1 + y2)) 2)) s))| ≤ 1 := by
  obtain ⟨hcx, hdv⟩ := segment_parts_small x1 x2 v hx1 hx2 hv
  obtain ⟨-, hdw⟩ := segment_parts_small y1 y2 w hy1 hy2 hw
  generalize fdiv (intToFloat (x1 + x2)) 2 = cx at hcx hdv ⊢
  generalize fdiv (intToFloat (y1 + y2)) 2 = cy at hdw ⊢
  generalize fsub (intToFloat v) cx = dv at hdv ⊢
  generalize fsub (intToFloat w) cy = dw at hdw ⊢
  apply truncToInt_close
  have e1 := abs_le.mp (rot_error_x cx dv dw c s hcx hdv hdw hc hs)
  have e2 := abs_le.mp (rot_error_x cx dv dw c2 s2 hcx hdv hdw hc2 hs2)
  have e3 := abs_le.mp (abs_mul_diff_le dv c c2 hdv hcc)
  have e4 := abs_le.mp (abs_mul_diff_le dw s s2 hdw hss)
  rw [abs_lt]
  constructor <;> linarith

/-- A `y` component of `LineSegment::rotate` for two pairs of `cos` and `sin`
values at most `2^-18` apart: the truncated results are at most 1 apart. -/
theorem cyclic_y (x1 x2 y1 y2 v w : Int) (c s c2 s2 : ℚ)
    (hx1 : |x1| ≤ 65536) (hx2 : |x2| ≤ 65536) (hy1 : |y1| ≤ 65536) (hy2 : |y2| ≤ 65536)
    (hv : v = x1 ∨ v = x2) (hw : w = y1 ∨ w = y2)
    (hc : |c| ≤ 1) (hs : |s| ≤ 1) (hc2 : |c2| ≤ 1) (hs2 : |s2| ≤ 1)
    (hcc : |c2 - c| ≤ 1 / 262144) (hss : |s2 - s| ≤ 1 / 262144) :
    |truncToInt
        (fadd
          (fadd (fdiv (intToFloat (y1 + y2)) 2)
            (fmul (fsub (intToFloat v) (fdiv (intToFloat (x1 + x2)) 2)) s2))
          (fmul (fsub (intToFloat w) (fdiv (intToFloat (y1 + y2)) 2)) c2))
      - truncToInt
        (fadd
          (fadd (fdiv (intToFloat (y1 + y2)) 2)
            (fmul (fsub (intToFloat v) (fdiv (intToFloat (x1 + x2)) 2)) s))
          (fmul (fsub (intToFloat w) (fdiv (intToFloat (y1 + y2)) 2)) c))| ≤ 1 := by
  obtain ⟨-, hdv⟩ := segment_parts_small x1 x2 v hx1 hx2 hv
  obtain ⟨hcy, hdw⟩ := segment_parts_small y1 y2 w hy1 hy2 hw
  generalize fdiv (intToFloat (x1 + x2)) 2 = cx at hdv ⊢
  generalize fdiv (intToFloat (y1 + y2)) 2 = cy at hcy hdw ⊢
  generalize fsub (intToFloat v) cx = dv at hdv ⊢
  generalize fsub (intToFloat w) cy = dw at hdw ⊢
  apply truncToInt_close
  have e1 := abs_le.mp (rot_error_y cy dv dw c s hcy hdv hdw hc hs)
  have e2 := abs_le.mp (rot_error_y cy dv dw c2 s2 hcy hdv hdw hc2 hs2)
  have e3 := abs_le.mp (abs_mul_diff_le dv s s2 hdv hss)
  have e4 := abs_le.mp (abs_mul_diff_le dw c c2 hdw hcc)
  rw [abs_lt]
  constructor <;> linarith

/-! ## Sample rotations -/

/-- The sample rotations: with the sample library, `rotate(360)` stores the
segment from (100, 100) to (200, 100) as the segment from (100, 99) to
(200, 100), the `float` sum `100 - 50 * sin` lying just below 100, and
`rotate(90)` stores it as the segment from (150, 50) to (150, 150). -/
theorem segment_sample_rotations :
    ((⟨⟨100, 100⟩, ⟨200, 100⟩, white⟩ : LineSegment).rotate sampleLibm 360).1
      = ⟨⟨100, 99⟩, ⟨200, 100⟩, white⟩ ∧
    ((⟨⟨100, 100⟩, ⟨200, 100⟩, white⟩ : LineSegment).rotate sampleLibm 90).1
      = ⟨⟨150, 50⟩, ⟨150, 150⟩, white⟩ := by
  obtain ⟨⟨c360, s360⟩, ⟨c90, s90⟩, -, -⟩ := sampleLibm_values
  have cx : fdiv (intToFloat (100 + 200)) 2 = 150 := by
    rw [segment_centre_exact 100 200 (by decide)]
    norm_num
  have cy : fdiv (intToFloat (100 + 100)) 2 = 100 := by
    rw [segment_centre_exact 100 100 (by decide)]
    norm_num
  have i100 : intToFloat 100 = 100 := by
    unfold intToFloat
    exact_mod_cast toFloat_intCast 100 (by decide)
  have i200 : intToFloat 200 = 200 := by
    unfold intToFloat
    exact_mod_cast toFloat_intCast 200 (by decide)
  have k50 : toFloat 50 = 50 := toFloat_exact 50 50 0 (by norm_num) (by decide) (by norm_num)
  have k100 : toFloat 100 = 100 :=
    toFloat_exact 100 100 0 (by norm_num) (by decide) (by norm_num)
  have k150 : toFloat 150 = 150 :=
    toFloat_exact 150 150 0 (by norm_num) (by decide) (by norm_num)
  have k200 : toFloat 200 = 200 :=
    toFloat_exact 200 200 0 (by norm_num) (by decide) (by norm_num)
  have dxa : fsub 100 150 = -50 := by
    unfold fsub
    have e : (100 : ℚ) - 150 = -50 := by norm_num
    rw [e, toFloat_neg, k50]
  have dxb : fsub 200 150 = 50 := by
    unfold fsub
    have e : (200 : ℚ) - 150 = 50 := by norm_num
    rw [e, k50]
  have dy : fsub 100 100 = 0 := by
    unfold fsub
    rw [sub_self, toFloat_zero]
  have m1 : fmul (-50) 1 = -50 := by
    unfold fmul
    rw [mul_one, toFloat_neg, k50]
  have m2 : fmul 50 1 = 50 := by
    unfold fmul
    rw [mul_one, k50]
  have z1 : fmul 0 1 = 0 := by
    unfold fmul
    rw [zero_mul, toFloat_zero]
  have a1 : fadd 150 (-50) = 100 := by
    unfold fadd
    have e : (150 : ℚ) + -50 = 100 := by norm_num
    rw [e, k100]
  have a2 : fadd 150 50 = 200 := by
    unfold fadd
    have e : (150 : ℚ) + 50 = 200 := by norm_num
    rw [e, k200]
  have a3 : fadd 100 (-50) = 50 := by
    unfold fadd
    have e : (100 : ℚ) + -50 = 50 := by norm_num
    rw [e, k50]
  have a4 : fadd 100 50 = 150 := by
    unfold fadd
    have e : (100 : ℚ) + 50 = 150 := by norm_num
    rw [e, k150]
  have s1 : fsub 100 0 = 100 := by
    unfold fsub
    rw [sub_zero, k100]
  have s2 : fsub 200 0 = 200 := by
    unfold fsub
    rw [sub_zero, k200]
  have s3 : fsub 150 0 = 150 := by
    unfold fsub
    rw [sub_zero, k150]
  have t50 : fadd 50 0 = 50 := by
    unfold fadd
    rw [add_zero, k50]
  have t150 : fadd 150 0 = 150 := by
    unfold fadd
    rw [add_zero, k150]
  have n100 : truncToInt (100 : ℚ) = 100 := by
    exact_mod_cast truncToInt_intCast (K := ℚ) 100
  have n200 : truncToInt (200 : ℚ) = 200 := by
    exact_mod_cast truncToInt_intCast (K := ℚ) 200
  have n150 : truncToInt (150 : ℚ) = 150 := by
    exact_mod_cast truncToInt_intCast (K := ℚ) 150
  have n50 : truncToInt (50 : ℚ) = 50 := by
    exact_mod_cast truncToInt_intCast (K := ℚ) 50
  constructor
  · -- the full turn: `cos = 1`, `sin = 6151831 / 2^45`
    have z : fmul 0 (6151831 / 35184372088832) = 0 := by
      unfold fmul
      rw [zero_mul, toFloat_zero]
    have p2 : fmul 50 (6151831 / 35184372088832) = 2403059 / 274877906944 := by
      unfold fmul toFloat
      rw [roundTo_eval 24 (-126) _ (-17) 9612236 (by norm_num [abs_of_pos])
        (by norm_num [abs_of_pos]) (by norm_num)
        (roundHalfEven_of_near _ 9612236 (by norm_num) (by norm_num))]
      norm_num
    have p1 : fmul (-50) (6151831 / 35184372088832) = -(2403059 / 274877906944) := by
      have e : (-50 : ℚ) * (6151831 / 35184372088832)
          = -(50 * (6151831 / 35184372088832)) := by ring
      unfold fmul at p2 ⊢
      rw [e, toFloat_neg, p2]
    have b1 : fadd 100 (-(2403059 / 274877906944)) = 13107199 / 131072 := by
      unfold fadd toFloat
      rw [roundTo_eval 24 (-126) _ 6 13107199 (by norm_num [abs_of_pos])
        (by norm_num [abs_of_pos]) (by norm_num)
        (roundHalfEven_of_near _ 13107199 (by norm_num) (by norm_num))]
      norm_num
    have b2 : fadd 100 (2403059 / 274877906944) = 13107201 / 131072 := by
      unfold fadd toFloat
      rw [roundTo_eval 24 (-126) _ 6 13107201 (by norm_num [abs_of_pos])
        (by norm_num [abs_of_pos]) (by norm_num)
        (roundHalfEven_of_near _ 13107201 (by norm_num) (by norm_num))]
      norm_num
    have c1 : fadd (13107199 / 131072) 0 = 13107199 / 131072 := by
      unfold fadd
      rw [add_zero]
      exact toFloat_exact _ 13107199 17 (by norm_num) (by decide) (by norm_num)
    have c2 : fadd (13107201 / 131072) 0 = 13107201 / 131072 := by
      unfold fadd
      rw [add_zero]
      exact toFloat_exact _ 13107201 17 (by norm_num) (by decide) (by norm_num)
    have n99 : truncToInt (13107199 / 131072 : ℚ) = 99 :=
      truncToInt_of_nonneg _ 99 (by norm_num) (by norm_num) (by norm_num)
    have n100b : truncToInt (13107201 / 131072 : ℚ) = 100 :=
      truncToInt_of_nonneg _ 100 (by norm_num) (by norm_num) (by norm_num)
    rw [segment_rotate_state]
    simp only [Point2D.getX, Point2D.getY, c360, s360, cx, cy, i100, i200, dxa, dxb, dy,
      m1, m2, z, z1, a1, a2, s1, s2, p1, p2, b1, b2, c1, c2, n99, n100b, n100, n200]
  · -- the quarter turn: `cos = -6151831 / 2^47`, `sin = 1`
    have z : fmul 0 (-6151831 / 140737488355328) = 0 := by
      unfold fmul
      rw [zero_mul, toFloat_zero]
    have p2 : fmul (-50) (-6151831 / 140737488355328) = 2403059 / 1099511627776 := by
      unfold fmul toFloat
      rw [roundTo_eval 24 (-126) _ (-19) 9612236 (by norm_num [abs_of_pos])
        (by norm_num [abs_of_pos]) (by norm_num)
        (roundHalfEven_of_near _ 9612236 (by norm_num) (by norm_num))]
      norm_num
    have p1 : fmul 50 (-6151831 / 140737488355328) = -(2403059 / 1099511627776) := by
      have e : (50 : ℚ) * (-6151831 / 140737488355328)
          = -((-50) * (-6151831 / 140737488355328)) := by ring
      unfold fmul at p2 ⊢
      rw [e, toFloat_neg, p2]
    have b1 : fadd 150 (2403059 / 1099511627776) = 150 := by
      unfold fadd toFloat
      rw [roundTo_eval 24 (-126) _ 7 9830400 (by norm_num [abs_of_pos])
        (by norm_num [abs_of_pos]) (by norm_num)
        (roundHalfEven_of_near _ 9830400 (by norm_num) (by norm_num))]
      norm_num
    have b2 : fadd 150 (-(2403059 / 1099511627776)) = 150 := by
      unfold fadd toFloat
      rw [roundTo_eval 24 (-126) _ 7 9830400 (by norm_num [abs_of_pos])
        (by norm_num [abs_of_pos]) (by norm_num)
        (roundHalfEven_of_near _ 9830400 (by norm_num) (by norm_num))]
      norm_num
    rw [segment_rotate_state]
    simp only [Point2D.getX, Point2D.getY, c90, s90, cx, cy, i100, i200, dxa, dxb, dy,
      m1, m2, z, z1, a3, a4, s3, p1, p2, b1, b2, t50, t150, n150, n50]

/-- Long segments under the sample library: `rotate(360)` stores the segment
from (0, 0) to (0, 24000000) as the segment from (2, 0) to (-2, 24000000), and
`rotate(90)` stores the segment from (0, 0) to (48000000, 0) as the segment
from (24000002, -24000000) to (23999998, 24000000). -/
theorem segment_long_rotations :
    ((⟨⟨0, 0⟩, ⟨0, 24000000⟩, white⟩ : LineSegment).rotate sampleLibm 360).1
      = ⟨⟨2, 0⟩, ⟨-2, 24000000⟩, white⟩ ∧
    ((⟨⟨0, 0⟩, ⟨48000000, 0⟩, white⟩ : LineSegment).rotate sampleLibm 90).1
      = ⟨⟨24000002, -24000000⟩, ⟨23999998, 24000000⟩, white⟩ := by
  obtain ⟨⟨c360, s360⟩, ⟨c90, s90⟩, -, -⟩ := sampleLibm_values
  have k12 : toFloat 12000000 = 12000000 :=
    toFloat_exact 12000000 12000000 0 (by norm_num) (by decide) (by norm_num)
  have k24 : toFloat 24000000 = 24000000 := by
    have := toFloat_grid 12000000 1 (by decide) (by norm_num)
    norm_num at this
    exact this
  have k48 : toFloat 48000000 = 48000000 := by
    have := toFloat_grid 12000000 2 (by decide) (by norm_num)
    norm_num at this
    exact this
  have i0 : intToFloat 0 = 0 := by
    unfold intToFloat
    exact_mod_cast toFloat_intCast 0 (by decide)
  have c0 : fdiv (intToFloat (0 + 0)) 2 = 0 := (degenerate_coord 0 (by decide)).1
  have z0 : fsub 0 0 = 0 := by
    unfold fsub
    rw [sub_zero, toFloat_zero]
  have f00 : fadd 0 0 = 0 := by
    unfold fadd
    rw [add_zero, toFloat_zero]
  have z1 : fmul 0 1 = 0 := by
    unfold fmul
    rw [zero_mul, toFloat_zero]
  have n0 : truncToInt (0 : ℚ) = 0 := by
    exact_mod_cast truncToInt_intCast (K := ℚ) 0
  constructor
  · have i24 : intToFloat 24000000 = 24000000 := by
      unfold intToFloat
      norm_num
      exact k24
    have cy : fdiv (intToFloat (0 + 24000000)) 2 = 12000000 := by
      unfold fdiv intToFloat
      norm_num
      rw [k24]
      norm_num
      exact k12
    have da : fsub 0 12000000 = -12000000 := by
      unfold fsub
      rw [zero_sub, toFloat_neg, k12]
    have db : fsub 24000000 12000000 = 12000000 := by
      unfold fsub
      have e : (24000000 : ℚ) - 12000000 = 12000000 := by norm_num
      rw [e, k12]
    have zs : fmul 0 (6151831 / 35184372088832) = 0 := by
      unfold fmul
      rw [zero_mul, toFloat_zero]
    have p2 : fmul 12000000 (6151831 / 35184372088832) = 8800265 / 4194304 := by
      unfold fmul toFloat
      rw [roundTo_eval 24 (-126) _ 1 8800265 (by norm_num [abs_of_pos])
        (by norm_num [abs_of_pos]) (by norm_num)
        (roundHalfEven_of_near _ 8800265 (by norm_num) (by norm_num))]
      norm_num
    have p1 : fmul (-12000000) (6151831 / 35184372088832) = -(8800265 / 4194304) := by
      have e : (-12000000 : ℚ) * (6151831 / 35184372088832)
          = -(12000000 * (6151831 / 35184372088832)) := by ring
      unfold fmul at p2 ⊢
      rw [e, toFloat_neg, p2]
    have kv : toFloat (8800265 / 4194304) = 8800265 / 4194304 :=
      toFloat_exact _ 8800265 22 (by norm_num) (by decide) (by norm_num)
    have s1 : fsub 0 (-(8800265 / 4194304)) = 8800265 / 4194304 := by
      unfold fsub
      rw [zero_sub, neg_neg, kv]
    have s2 : fsub 0 (8800265 / 4194304) = -(8800265 / 4194304) := by
      unfold fsub
      rw [zero_sub, toFloat_neg, kv]
    have m1 : fmul (-12000000) 1 = -12000000 := by
      unfold fmul
      rw [mul_one, toFloat_neg, k12]
    have m2 : fmul 12000000 1 = 12000000 := by
      unfold fmul
      rw [mul_one, k12]
    have a0 : fadd 12000000 0 = 12000000 := by
      unfold fadd
      rw [add_zero, k12]
    have a1 : fadd 12000000 (-12000000) = 0 := by
      unfold fadd
      rw [add_neg_cancel, toFloat_zero]
    have a2 : fadd 12000000 12000000 = 24000000 := by
      unfold fadd
      have e : (12000000 : ℚ) + 12000000 = 24000000 := by norm_num
      rw [e, k24]
    have n2 : truncToInt (8800265 / 4194304 : ℚ) = 2 :=
      truncToInt_of_nonneg _ 2 (by norm_num) (by norm_num) (by norm_num)
    have n3 : truncToInt (-(8800265 / 4194304) : ℚ) = -2 :=
      truncToInt_of_neg _ (-2) (by norm_num) (by norm_num) (by norm_num)
    have n24 : truncToInt (24000000 : ℚ) = 24000000 := by
      exact_mod_cast truncToInt_intCast (K := ℚ) 24000000
    rw [segment_rotate_state]
    simp only [Point2D.getX, Point2D.getY, c360, s360, c0, cy, i0, i24, z0, da, db, z1, zs,
      f00, p1, p2, s1, s2, m1, m2, a0, a1, a2, n0, n2, n3, n24]
  · have i48 : intToFloat 48000000 = 48000000 := by
      unfold intToFloat
      norm_num
      exact k48
    have cx : fdiv (intToFloat (0 + 48000000)) 2 = 24000000 := by
      unfold fdiv intToFloat
      norm_num
      rw [k48]
      norm_num
      exact k24
    have da : fsub 0 24000000 = -24000000 := by
      unfold fsub
      rw [zero_sub, toFloat_neg, k24]
    have db : fsub 48000000 24000000 = 24000000 := by
      unfold fsub
      have e : (48000000 : ℚ) - 24000000 = 24000000 := by norm_num
      rw [e, k24]
    have zc : fmul 0 (-6151831 / 140737488355328) = 0 := by
      unfold fmul
      rw [zero_mul, toFloat_zero]
    have p2 : fmul (-24000000) (-6151831 / 140737488355328) = 8800265 / 8388608 := by
      unfold fmul toFloat
      rw [roundTo_eval 24 (-126) _ 0 8800265 (by norm_num [abs_of_pos])
        (by norm_num [abs_of_pos]) (by norm_num)
        (roundHalfEven_of_near _ 8800265 (by norm_num) (by norm_num))]
      norm_num
    have p1 : fmul 24000000 (-6151831 / 140737488355328) = -(8800265 / 8388608) := by
      have e : (24000000 : ℚ) * (-6151831 / 140737488355328)
          = -((-24000000) * (-6151831 / 140737488355328)) := by ring
      unfold fmul at p2 ⊢
      rw [e, toFloat_neg, p2]
    have b1 : fadd 24000000 (8800265 / 8388608) = 24000002 := by
      unfold fadd toFloat
      rw [roundTo_eval 24 (-126) _ 24 12000001 (by norm_num [abs_of_pos])
        (by norm_num [abs_of_pos]) (by norm_num)
        (roundHalfEven_of_near _ 12000001 (by norm_num) (by norm_num))]
      norm_num
    have b2 : fadd 24000000 (-(8800265 / 8388608)) = 23999998 := by
      unfold fadd toFloat
      rw [roundTo_eval 24 (-126) _ 24 11999999 (by norm_num [abs_of_pos])
        (by norm_num [abs_of_pos]) (by norm_num)
        (roundHalfEven_of_near _ 11999999 (by norm_num) (by norm_num))]
      norm_num
    have s1 : fsub 24000002 0 = 24000002 := by
      unfold fsub
      rw [sub_zero]
      have := toFloat_grid 12000001 1 (by decide) (by norm_num)
      norm_num at this
      exact this
    have s2 : fsub 23999998 0 = 23999998 := by
      unfold fsub
      rw [sub_zero]
      have := toFloat_grid 11999999 1 (by decide) (by norm_num)
      norm_num at this
      exact this
    have m1 : fmul (-24000000) 1 = -24000000 := by
      unfold fmul
      rw [mul_one, toFloat_neg, k24]
    have m2 : fmul 24000000 1 = 24000000 := by
      unfold fmul
      rw [mul_one, k24]
    have a1 : fadd 0 (-24000000) = -24000000 := by
      unfold fadd
      rw [zero_add, toFloat_neg, k24]
    have a2 : fadd 0 24000000 = 24000000 := by
      unfold fadd
      rw [zero_add, k24]
    have a3 : fadd (-24000000) 0 = -24000000 := by
      unfold fadd
      rw [add_zero, toFloat_neg, k24]
    have a4 : fadd 24000000 0 = 24000000 := by
      unfold fadd
      rw [add_zero, k24]
    have n1 : truncToInt (24000002 : ℚ) = 24000002 := by
      exact_mod_cast truncToInt_intCast (K := ℚ) 24000002
    have n2 : truncToInt (23999998 : ℚ) = 23999998 := by
      exact_mod_cast truncToInt_intCast (K := ℚ) 23999998
    have n3 : truncToInt (-24000000 : ℚ) = -24000000 := by
      exact_mod_cast truncToInt_intCast (K := ℚ) (-24000000)
    have n4 : truncToInt (24000000 : ℚ) = 24000000 := by
      exact_mod_cast truncToInt_intCast (K := ℚ) 24000000
    rw [segment_rotate_state]
    simp only [Point2D.getX, Point2D.getY, c90, s90, c0, cx, i0, i48, z0, da, db, z1, zc,
      p1, p2, b1, b2, s1, s2, m1, m2, a1, a2, a3, a4, n1, n2, n3, n4]

/-! ## Degenerate segments beyond the exact range of a `float` -/

/-- A degenerate segment at `(x, y)`, where a `float` holds `x` as `X` and
`x + x` as `2 * X` and `y` is at most `2^24` in magnitude, is stored at
`(X, y)` by `rotate` and by `scale`. -/
theorem degenerate_state (x y X : Int) (color : SDL_Color) (m : Libm) (angle factor : ℚ)
    (h1 : toFloat ((x + x : Int) : ℚ) = 2 * (X : ℚ)) (h2 : toFloat (x : ℚ) = (X : ℚ))
    (h3 : toFloat (X : ℚ) = (X : ℚ)) (hy : |y| ≤ 16777216) :
    ((⟨⟨x, y⟩, ⟨x, y⟩, color⟩ : LineSegment).rotate m angle).1
      = ⟨⟨X, y⟩, ⟨X, y⟩, color⟩ ∧
    ((⟨⟨x, y⟩, ⟨x, y⟩, color⟩ : LineSegment).scale factor).1
      = ⟨⟨X, y⟩, ⟨X, y⟩, color⟩ := by
  obtain ⟨e1, e2, e3⟩ := degenerate_collapse x y X (m.cos (toRadians angle))
    (m.sin (toRadians angle)) factor h1 h2 h3 hy
  have e4 := (degenerate_values y y hy hy 0 0 factor).2.2
  constructor
  · rw [segment_rotate_state]
    simp only [Point2D.getX, Point2D.getY, e1, e2]
  · rw [segment_scale_state]
    simp only [Point2D.getX, Point2D.getY, e3, e4]

/-- The degenerate segment at (33554434, 0) is stored at (33554432, 0) by
`rotate` and by `scale`. -/
theorem degenerate_state_33554434 (m : Libm) (angle factor : ℚ) :
    ((⟨⟨33554434, 0⟩, ⟨33554434, 0⟩, white⟩ : LineSegment).rotate m angle).1
      = ⟨⟨33554432, 0⟩, ⟨33554432, 0⟩, white⟩ ∧
    ((⟨⟨33554434, 0⟩, ⟨33554434, 0⟩, white⟩ : LineSegment).scale factor).1
      = ⟨⟨33554432, 0⟩, ⟨33554432, 0⟩, white⟩ := by
  obtain ⟨-, t2, t3⟩ := toFloat_ties
  have h3 : toFloat ((33554432 : Int) : ℚ) = ((33554432 : Int) : ℚ) := by
    have := toFloat_grid 8388608 2 (by decide) (by norm_num)
    norm_num at this
    norm_num
    exact this
  exact degenerate_state 33554434 0 33554432 white m angle factor (by norm_num [t3])
    (by norm_num [t2]) h3 (by decide)

/-- The degenerate segment at (16777217, 0) is stored at (16777216, 0) by
`rotate` and by `scale`. -/
theorem degenerate_state_16777217 (m : Libm) (angle factor : ℚ) :
    ((⟨⟨16777217, 0⟩, ⟨16777217, 0⟩, white⟩ : LineSegment).rotate m angle).1
      = ⟨⟨16777216, 0⟩, ⟨16777216, 0⟩, white⟩ ∧
    ((⟨⟨16777217, 0⟩, ⟨16777217, 0⟩, white⟩ : LineSegment).scale factor).1
      = ⟨⟨16777216, 0⟩, ⟨16777216, 0⟩, white⟩ := by
  obtain ⟨t1, t2, -⟩ := toFloat_ties
  exact degenerate_state 16777217 0 16777216 white m angle factor (by norm_num [t2])
    (by norm_num [t1]) (toFloat_intCast 16777216 (by decide)) (by decide)

/-! ## The line segment under rotate -/

/-- C12 (as stated, refuted): `rotate(360)` stores the segment from
(33554434, 0) to (33554434, 0) with the `x` component 33554432 in its start
point, 2 away from the original: a `float` holds only multiples of 4 from
`2^25` on (the sample library is used; `cos` and `sin` multiply a zero offset
here, so their values do not matter). With the sample library, whose `sin` at
the `float` radians of 360 degrees is 6151831 / 2^45, `rotate(360)` stores the
segment from (0, 0) to (0, 24000000) as the segment from (2, 0) to
(-2, 24000000): the `x` components move by 2. -/
theorem lineSegment_rotate_full_turn_counterexample :
    ((⟨⟨33554434, 0⟩, ⟨33554434, 0⟩, white⟩ : LineSegment).rotate sampleLibm 360).1.start.getX
      = 33554432 ∧
    ¬ |((⟨⟨33554434, 0⟩, ⟨33554434, 0⟩, white⟩ : LineSegment).rotate
          sampleLibm 360).1.start.getX
        - (⟨⟨33554434, 0⟩, ⟨33554434, 0⟩, white⟩ : LineSegment).start.getX| ≤ 1 ∧
    ((⟨⟨0, 0⟩, ⟨0, 24000000⟩, white⟩ : LineSegment).rotate sampleLibm 360).1
      = ⟨⟨2, 0⟩, ⟨-2, 24000000⟩, white⟩ := by
  refine ⟨?_, ?_, segment_long_rotations.1⟩
  · rw [(degenerate_state_33554434 sampleLibm 360 0).1]
    decide
  · rw [(degenerate_state_33554434 sampleLibm 360 0).1]
    decide

/-- C12 (amended). (1) For a segment whose coordinates are at most
`2^21 = 2097152` in magnitude, when the library returns `cos = 1` and a `sin`
of magnitude at most `2^-22` at the `float` radians of 360 degrees,
`rotate(360)` moves no component of either endpoint by more than 1. (2) For a
segment whose coordinates are at most `2^16 = 65536` in magnitude, when the
library's `cos` and `sin` are at most 1 in magnitude at the radians of `theta`
and of `theta + 360` and differ by at most `2^-18` between the two,
`rotate(theta + 360)` and `rotate(theta)` give endpoints that agree to within 1
in every component. -/
theorem lineSegment_rotate_full_turn (l : LineSegment) (m : Libm) (theta : ℚ) :
    (l.coordsWithin 2097152 →
      m.cos (toRadians 360) = 1 → |m.sin (toRadians 360)| ≤ 1 / 4194304 →
      |(l.rotate m 360).1.start.getX - l.start.getX| ≤ 1 ∧
      |(l.rotate m 360).1.start.getY - l.start.getY| ≤ 1 ∧
      |(l.rotate m 360).1.«end».getX - l.«end».getX| ≤ 1 ∧
      |(l.rotate m 360).1.«end».getY - l.«end».getY| ≤ 1) ∧
    (l.coordsWithin 65536 →
      |m.cos (toRadians theta)| ≤ 1 → |m.sin (toRadians theta)| ≤ 1 →
      |m.cos (toRadians (fadd theta 360))| ≤ 1 → |m.sin (toRadians (fadd theta 360))| ≤ 1 →
      |m.cos (toRadians (fadd theta 360)) - m.cos (toRadians theta)| ≤ 1 / 262144 →
      |m.sin (toRadians (fadd theta 360)) - m.sin (toRadians theta)| ≤ 1 / 262144 →
      |(l.rotate m (fadd theta 360)).1.start.getX - (l.rotate m theta).1.start.getX| ≤ 1 ∧
      |(l.rotate m (fadd theta 360)).1.start.getY - (l.rotate m theta).1.start.getY| ≤ 1 ∧
      |(l.rotate m (fadd theta 360)).1.«end».getX - (l.rotate m theta).1.«end».getX| ≤ 1 ∧
      |(l.rotate m (fadd theta 360)).1.«end».getY - (l.rotate m theta).1.«end».getY| ≤ 1) := by
  constructor
  · rintro ⟨hx1, hy1, hx2, hy2⟩ hc hs
    exact ⟨full_turn_x _ _ _ _ _ _ _ _ hx1 hx2 hy1 hy2 (Or.inl rfl) (Or.inl rfl) hc hs,
      full_turn_y _ _ _ _ _ _ _ _ hx1 hx2 hy1 hy2 (Or.inl rfl) (Or.inl rfl) hc hs,
      full_turn_x _ _ _ _ _ _ _ _ hx1 hx2 hy1 hy2 (Or.inr rfl) (Or.inr rfl) hc hs,
      full_turn_y _ _ _ _ _ _ _ _ hx1 hx2 hy1 hy2 (Or.inr rfl) (Or.inr rfl) hc hs⟩
  · rintro ⟨hx1, hy1, hx2, hy2⟩ hc hs hc2 hs2 hcc hss
    exact ⟨cyclic_x _ _ _ _ _ _ _ _ _ _ hx1 hx2 hy1 hy2 (Or.inl rfl) (Or.inl rfl)
        hc hs hc2 hs2 hcc hss,
      cyclic_y _ _ _ _ _ _ _ _ _ _ hx1 hx2 hy1 hy2 (Or.inl rfl) (Or.inl rfl)
        hc hs hc2 hs2 hcc hss,
      cyclic_x _ _ _ _ _ _ _ _ _ _ hx1 hx2 hy1 hy2 (Or.inr rfl) (Or.inr rfl)
        hc hs hc2 hs2 hcc hss,
      cyclic_y _ _ _ _ _ _ _ _ _ _ hx1 hx2 hy1 hy2 (Or.inr rfl) (Or.inr rfl)
        hc hs hc2 hs2 hcc hss⟩

/-- Witness of C12 (amended): the segment from (100, 100) to (200, 100), the
sample library and `theta = 0`, for which `theta + 360` is 360; `rotate(360)`
stores the segment as the segment from (100, 99) to (200, 100). -/
theorem lineSegment_rotate_full_turn_witness :
    ((⟨⟨100, 100⟩, ⟨200, 100⟩, white⟩ : LineSegment).coordsWithin 65536 ∧
      sampleLibm.cos (toRadians 360) = 1 ∧
      |sampleLibm.sin (toRadians 360)| ≤ 1 / 4194304 ∧
      |sampleLibm.cos (toRadians (fadd 0 360)) - sampleLibm.cos (toRadians 0)| ≤ 1 / 262144 ∧
      |sampleLibm.sin (toRadians (fadd 0 360)) - sampleLibm.sin (toRadians 0)| ≤ 1 / 262144) ∧
    (|((⟨⟨100, 100⟩, ⟨200, 100⟩, white⟩ : LineSegment).rotate sampleLibm 360).1.start.getX
        - 100| ≤ 1 ∧
      |((⟨⟨100, 100⟩, ⟨200, 100⟩, white⟩ : LineSegment).rotate sampleLibm 360).1.start.getY
        - 100| ≤ 1) ∧
    (|((⟨⟨100, 100⟩, ⟨200, 100⟩, white⟩ : LineSegment).rotate sampleLibm
          (fadd 0 360)).1.start.getX
        - ((⟨⟨100, 100⟩, ⟨200, 100⟩, white⟩ : LineSegment).rotate sampleLibm 0).1.start.getX|
      ≤ 1) ∧
    ((⟨⟨100, 100⟩, ⟨200, 100⟩, white⟩ : LineSegment).rotate sampleLibm 360).1
      = ⟨⟨100, 99⟩, ⟨200, 100⟩, white⟩ := by
  obtain ⟨⟨c360, s360⟩, -, -, ⟨c0, s0⟩⟩ := sampleLibm_values
  have hfa : fadd 0 360 = 360 := by
    unfold fadd
    rw [zero_add]
    exact toFloat_exact 360 360 0 (by norm_num) (by decide) (by norm_num)
  have hw21 : (⟨⟨100, 100⟩, ⟨200, 100⟩, white⟩ : LineSegment).coordsWithin 2097152 :=
    ⟨by decide, by decide, by decide, by decide⟩
  have hw16 : (⟨⟨100, 100⟩, ⟨200, 100⟩, white⟩ : LineSegment).coordsWithin 65536 :=
    ⟨by decide, by decide, by decide, by decide⟩
  have hs : |sampleLibm.sin (toRadians 360)| ≤ 1 / 4194304 := by
    rw [s360, abs_of_pos (by norm_num)]
    norm_num
  have hc0 : |sampleLibm.cos (toRadians 0)| ≤ 1 := by
    rw [c0]; norm_num
  have hs0 : |sampleLibm.sin (toRadians 0)| ≤ 1 := by
    rw [s0]; norm_num
  have hc1 : |sampleLibm.cos (toRadians (fadd 0 360))| ≤ 1 := by
    rw [hfa, c360]; norm_num
  have hs1 : |sampleLibm.sin (toRadians (fadd 0 360))| ≤ 1 := by
    rw [hfa, s360, abs_of_pos (by norm_num)]
    norm_num
  have hcc : |sampleLibm.cos (toRadians (fadd 0 360)) - sampleLibm.cos (toRadians 0)|
      ≤ 1 / 262144 := by
    rw [hfa, c360, c0]; norm_num
  have hss : |sampleLibm.sin (toRadians (fadd 0 360)) - sampleLibm.sin (toRadians 0)|
      ≤ 1 / 262144 := by
    rw [hfa, s360, s0, sub_zero, abs_of_pos (by norm_num)]
    norm_num
  have h1 := (lineSegment_rotate_full_turn (⟨⟨100, 100⟩, ⟨200, 100⟩, white⟩ : LineSegment)
    sampleLibm 0).1 hw21 c360 hs
  have h2 := (lineSegment_rotate_full_turn (⟨⟨100, 100⟩, ⟨200, 100⟩, white⟩ : LineSegment)
    sampleLibm 0).2 hw16 hc0 hs0 hc1 hs1 hcc hss
  exact ⟨⟨hw16, c360, hs, hcc, hss⟩, ⟨h1.1, h1.2.1⟩, h2.1, segment_sample_rotations.1⟩

/-- C13 (as stated, refuted): the segment from (33554434, 0) to (33554434, 0)
has the midpoint `M = (33554434, 0)` and both endpoints at `M + (0, 0)`, yet
`rotate(90)` stores the `x` component 33554432 in its start point, 2 away from
that of `M + (-0, 0)` (the sample library is used; `cos` and `sin` multiply a
zero offset here, so their values do not matter). With the sample library,
whose `cos` at the `float` radians of 90 degrees is -6151831 / 2^47,
`rotate(90)` stores the segment from (0, 0) to (48000000, 0), whose start point
is `M + (-24000000, 0)` with `M = (24000000, 0)`, with the start point
(24000002, -24000000), 2 away from `M + (-0, -24000000)` in `x`. -/
theorem lineSegment_rotate_quarter_turn_counterexample :
    ((⟨⟨33554434, 0⟩, ⟨33554434, 0⟩, white⟩ : LineSegment).rotate sampleLibm 90).1.start.getX
      = 33554432 ∧
    ¬ |((((⟨⟨33554434, 0⟩, ⟨33554434, 0⟩, white⟩ : LineSegment).rotate
            sampleLibm 90).1.start.getX : Int) : ℚ)
        - ((((33554434 : Int) + 33554434 : Int) : ℚ) / 2
            - (((0 : Int) : ℚ) - (((0 : Int) + 0 : Int) : ℚ) / 2))| ≤ 1 ∧
    ((⟨⟨0, 0⟩, ⟨48000000, 0⟩, white⟩ : LineSegment).rotate sampleLibm 90).1
      = ⟨⟨24000002, -24000000⟩, ⟨23999998, 24000000⟩, white⟩ := by
  refine ⟨?_, ?_, segment_long_rotations.2⟩
  · rw [(degenerate_state_33554434 sampleLibm 90 0).1]
    rfl
  · rw [(degenerate_state_33554434 sampleLibm 90 0).1]
    simp only [Point2D.getX]
    norm_num

theorem segment_rotate_quarter_bounds (l : LineSegment) (m : Libm)
    (hl : l.coordsWithin 2097152) (hs : m.sin (toRadians 90) = 1)
    (hc : |m.cos (toRadians 90)| ≤ 1 / 4194304) :
    |(((l.rotate m 90).1.start.getX : Int) : ℚ)
        - (((l.start.getX + l.«end».getX : Int) : ℚ) / 2
            - ((l.start.getY : ℚ) - ((l.start.getY + l.«end».getY : Int) : ℚ) / 2))| ≤ 1 ∧
    |(((l.rotate m 90).1.start.getY : Int) : ℚ)
        - (((l.start.getY + l.«end».getY : Int) : ℚ) / 2
            + ((l.start.getX : ℚ) - ((l.start.getX + l.«end».getX : Int) : ℚ) / 2))| ≤ 1 ∧
    |(((l.rotate m 90).1.«end».getX : Int) : ℚ)
        - (((l.start.getX + l.«end».getX : Int) : ℚ) / 2
            - ((l.«end».getY : ℚ) - ((l.start.getY + l.«end».getY : Int) : ℚ) / 2))| ≤ 1 ∧
    |(((l.rotate m 90).1.«end».getY : Int) : ℚ)
        - (((l.start.getY + l.«end».getY : Int) : ℚ) / 2
            + ((l.«end».getX : ℚ) - ((l.start.getX + l.«end».getX : Int) : ℚ) / 2))| ≤ 1 := by
  obtain ⟨hx1, hy1, hx2, hy2⟩ := hl
  exact ⟨quarter_turn_x _ _ _ _ _ _ _ _ hx1 hx2 hy1 hy2 (Or.inl rfl) (Or.inl rfl) hs hc,
    quarter_turn_y _ _ _ _ _ _ _ _ hx1 hx2 hy1 hy2 (Or.inl rfl) (Or.inl rfl) hs hc,
    quarter_turn_x _ _ _ _ _ _ _ _ hx1 hx2 hy1 hy2 (Or.inr rfl) (Or.inr rfl) hs hc,
    quarter_turn_y _ _ _ _ _ _ _ _ hx1 hx2 hy1 hy2 (Or.inr rfl) (Or.inr rfl) hs hc⟩

/-- C13 (amended): when the library returns `sin = 1` and a `cos` of magnitude
at most `2^-22` at the `float` radians of 90 degrees, `rotate(90)` sends an
endpoint `P = M + (a, b)`, `M` the midpoint, of a segment whose coordinates are
at most `2^21 = 2097152` in magnitude to within 1 per component of
`M + (-b, a)`; the segment from (100, 100) to (200, 100) gets a start point
within 1 of (150, 50) and an end point within 1 of (150, 150). -/
theorem lineSegment_rotate_quarter_turn (l : LineSegment) (m : Libm) (color : SDL_Color)
    (hs : m.sin (toRadians 90) = 1) (hc : |m.cos (toRadians 90)| ≤ 1 / 4194304) :
    (l.coordsWithin 2097152 →
     |(((l.rotate m 90).1.start.getX : Int) : ℚ)
        - (((l.start.getX + l.«end».getX : Int) : ℚ) / 2
            - ((l.start.getY : ℚ) - ((l.start.getY + l.«end».getY : Int) : ℚ) / 2))| ≤ 1 ∧
     |(((l.rotate m 90).1.start.getY : Int) : ℚ)
        - (((l.start.getY + l.«end».getY : Int) : ℚ) / 2
            + ((l.start.getX : ℚ) - ((l.start.getX + l.«end».getX : Int) : ℚ) / 2))| ≤ 1 ∧
     |(((l.rotate m 90).1.«end».getX : Int) : ℚ)
        - (((l.start.getX + l.«end».getX : Int) : ℚ) / 2
            - ((l.«end».getY : ℚ) - ((l.start.getY + l.«end».getY : Int) : ℚ) / 2))| ≤ 1 ∧
     |(((l.rotate m 90).1.«end».getY : Int) : ℚ)
        - (((l.start.getY + l.«end».getY : Int) : ℚ) / 2
            + ((l.«end».getX : ℚ) - ((l.start.getX + l.«end».getX : Int) : ℚ) / 2))| ≤ 1) ∧
    (|((⟨⟨100, 100⟩, ⟨200, 100⟩, color⟩ : LineSegment).rotate m 90).1.start.getX - 150| ≤ 1 ∧
     |((⟨⟨100, 100⟩, ⟨200, 100⟩, color⟩ : LineSegment).rotate m 90).1.start.getY - 50| ≤ 1 ∧
     |((⟨⟨100, 100⟩, ⟨200, 100⟩, color⟩ : LineSegment).rotate m 90).1.«end».getX - 150| ≤ 1 ∧
     |((⟨⟨100, 100⟩, ⟨200, 100⟩, color⟩ : LineSegment).rotate m 90).1.«end».getY - 150| ≤ 1) := by
  refine ⟨fun hl => segment_rotate_quarter_bounds l m hl hs hc, ?_⟩
  obtain ⟨h1, h2, h3, h4⟩ :=
    segment_rotate_quarter_bounds (⟨⟨100, 100⟩, ⟨200, 100⟩, color⟩ : LineSegment) m
      ⟨show |(100 : Int)| ≤ 2097152 by decide, show |(100 : Int)| ≤ 2097152 by decide,
       show |(200 : Int)| ≤ 2097152 by decide, show |(100 : Int)| ≤ 2097152 by decide⟩ hs hc
  generalize ((⟨⟨100, 100⟩, ⟨200, 100⟩, color⟩ : LineSegment).rotate m 90).1.start.getX = X1
    at h1 ⊢
  generalize ((⟨⟨100, 100⟩, ⟨200, 100⟩, color⟩ : LineSegment).rotate m 90).1.start.getY = Y1
    at h2 ⊢
  generalize ((⟨⟨100, 100⟩, ⟨200, 100⟩, color⟩ : LineSegment).rotate m 90).1.«end».getX = X2
    at h3 ⊢
  generalize ((⟨⟨100, 100⟩, ⟨200, 100⟩, color⟩ : LineSegment).rotate m 90).1.«end».getY = Y2
    at h4 ⊢
  simp only [Point2D.getX, Point2D.getY] at h1 h2 h3 h4
  norm_num at h1 h2 h3 h4
  refine ⟨?_, ?_, ?_, ?_⟩
  · exact_mod_cast h1
  · exact_mod_cast h2
  · exact_mod_cast h3
  · exact_mod_cast h4

/-- Witness of C13 (amended): the segment from (100, 100) to (200, 100) and the
sample library; `rotate(90)` stores the segment as the segment from (150, 50)
to (150, 150). -/
theorem lineSegment_rotate_quarter_turn_witness :
    (sampleLibm.sin (toRadians 90) = 1 ∧
      |sampleLibm.cos (toRadians 90)| ≤ 1 / 4194304 ∧
      (⟨⟨100, 100⟩, ⟨200, 100⟩, white⟩ : LineSegment).coordsWithin 2097152) ∧
    (|((⟨⟨100, 100⟩, ⟨200, 100⟩, white⟩ : LineSegment).rotate sampleLibm 90).1.start.getX
        - 150| ≤ 1 ∧
     |((⟨⟨100, 100⟩, ⟨200, 100⟩, white⟩ : LineSegment).rotate sampleLibm 90).1.start.getY
        - 50| ≤ 1 ∧
     |((⟨⟨100, 100⟩, ⟨200, 100⟩, white⟩ : LineSegment).rotate sampleLibm 90).1.«end».getX
        - 150| ≤ 1 ∧
     |((⟨⟨100, 100⟩, ⟨200, 100⟩, white⟩ : LineSegment).rotate sampleLibm 90).1.«end».getY
        - 150| ≤ 1) ∧
    ((⟨⟨100, 100⟩, ⟨200, 100⟩, white⟩ : LineSegment).rotate sampleLibm 90).1
      = ⟨⟨150, 50⟩, ⟨150, 150⟩, white⟩ := by
  obtain ⟨-, ⟨c90, s90⟩, -, -⟩ := sampleLibm_values
  have hc : |sampleLibm.cos (toRadians 90)| ≤ 1 / 4194304 := by
    rw [c90, abs_le]
    constructor <;> norm_num
  exact ⟨⟨s90, hc, ⟨by decide, by decide, by decide, by decide⟩⟩,
    (lineSegment_rotate_quarter_turn (⟨⟨100, 100⟩, ⟨200, 100⟩, white⟩ : LineSegment)
      sampleLibm white s90 hc).2, segment_sample_rotations.2⟩

/-! ## The degenerate line segment -/

/-- C14 (as stated, refuted): the segment with `start = end = (16777217, 0)`
has `start = end = (16777216, 0)` after `rotate(90)` and after `scale(3/2)`: a
`float` holds no odd integer above `2^24` (the sample library is used; the
angle, the factor and the values of `cos` and `sin` multiply a zero offset, so
they do not matter). -/
theorem lineSegment_degenerate_counterexample :
    ((⟨⟨16777217, 0⟩, ⟨16777217, 0⟩, white⟩ : LineSegment).rotate sampleLibm 90).1
      = ⟨⟨16777216, 0⟩, ⟨16777216, 0⟩, white⟩ ∧
    ((⟨⟨16777217, 0⟩, ⟨16777217, 0⟩, white⟩ : LineSegment).scale (3 / 2)).1
      = ⟨⟨16777216, 0⟩, ⟨16777216, 0⟩, white⟩ ∧
    (⟨16777216, 0⟩ : Point2D) ≠ ⟨16777217, 0⟩ :=
  ⟨(degenerate_state_16777217 sampleLibm 90 (3 / 2)).1,
    (degenerate_state_16777217 sampleLibm 90 (3 / 2)).2, by decide⟩

/-- C14 (amended): a segment with `start = end = P`, where both coordinates of
`P` are at most `2^24 = 16777216` in magnitude, still has `start = end = P`
after `rotate(angle)` and after `scale(factor)`, for every angle, factor and
`cos`/`sin`, and each of the two calls makes exactly one line-draw call. -/
theorem lineSegment_degenerate_stays (P : Point2D) (color : SDL_Color) (m : Libm)
    (angle factor : ℚ) (hx : |P.getX| ≤ 16777216) (hy : |P.getY| ≤ 16777216) :
    (((⟨P, P, color⟩ : LineSegment).rotate m angle).1.start = P ∧
     ((⟨P, P, color⟩ : LineSegment).rotate m angle).1.«end» = P ∧
     lineDraws ((⟨P, P, color⟩ : LineSegment).rotate m angle).2
       = [.SDL_RenderDrawLine P.getX P.getY P.getX P.getY] ∧
     (lineDraws ((⟨P, P, color⟩ : LineSegment).rotate m angle).2).length = 1) ∧
    (((⟨P, P, color⟩ : LineSegment).scale factor).1.start = P ∧
     ((⟨P, P, color⟩ : LineSegment).scale factor).1.«end» = P ∧
     lineDraws ((⟨P, P, color⟩ : LineSegment).scale factor).2
       = [.SDL_RenderDrawLine P.getX P.getY P.getX P.getY] ∧
     (lineDraws ((⟨P, P, color⟩ : LineSegment).scale factor).2).length = 1) := by
  obtain ⟨h1, h2, h3⟩ := degenerate_values P.getX P.getY hx hy
    (m.cos (toRadians angle)) (m.sin (toRadians angle)) factor
  have h4 := (degenerate_values P.getY P.getX hy hx 0 0 factor).2.2
  have hr : ((⟨P, P, color⟩ : LineSegment).rotate m angle).1 = ⟨P, P, color⟩ := by
    rw [segment_rotate_state]
    simp only [h1, h2]
    rfl
  have hs : ((⟨P, P, color⟩ : LineSegment).scale factor).1 = ⟨P, P, color⟩ := by
    rw [segment_scale_state]
    simp only [h3, h4]
    rfl
  refine ⟨?_, ?_⟩
  · rw [segment_rotate_trace, hr]
    simp [lineDraws, Effect.isLineDraw]
  · rw [segment_scale_trace, hs]
    simp [lineDraws, Effect.isLineDraw]

/-- Witness of C14 (amended): the point (100, -7), the sample library, the angle 90 and the factor 3/2. -/
theorem lineSegment_degenerate_stays_witness :
    (|(100 : Int)| ≤ 16777216 ∧ |(-7 : Int)| ≤ 16777216) ∧
    ((⟨⟨100, -7⟩, ⟨100, -7⟩, white⟩ : LineSegment).rotate sampleLibm 90).1.start
      = ⟨100, -7⟩ ∧
    ((⟨⟨100, -7⟩, ⟨100, -7⟩, white⟩ : LineSegment).scale (3 / 2)).1.«end» = ⟨100, -7⟩ :=
  ⟨⟨by decide, by decide⟩,
   (lineSegment_degenerate_stays ⟨100, -7⟩ white sampleLibm 90 (3 / 2)
     (by decide) (by decide)).1.1,
   (lineSegment_degenerate_stays ⟨100, -7⟩ white sampleLibm 90 (3 / 2)
     (by decide) (by decide)).2.2.1⟩

/-! ## The rectangle -/

theorem rect_scale_state (r : Rectangle) (factor : ℚ) :
    (r.scale factor).1 =
      { x := truncToInt
          (fsub (intToFloat (r.x + Int.tdiv r.w 2)) (fdiv (fmul (intToFloat r.w) factor) 2)),
        y := truncToInt
          (fsub (intToFloat (r.y + Int.tdiv r.h 2)) (fdiv (fmul (intToFloat r.h) factor) 2)),
        w := truncToInt (fmul (intToFloat r.w) factor),
        h := truncToInt (fmul (intToFloat r.w) factor),
        color := r.color } := rfl

/-- The `float` product of 10 and the `float` nearest to 0.7, which is
11744051 / 2^24, is 7: the exact product 6.99999988 is nearer to 7 than to the
`float` below 7. -/
theorem fmul_ten_seven_tenths : fmul (intToFloat 10) (11744051 / 16777216) = 7 := by
  have h10 : intToFloat 10 = 10 := by
    unfold intToFloat
    exact_mod_cast toFloat_intCast 10 (by decide)
  rw [h10]
  unfold fmul toFloat
  have := roundTo_eval 24 (-126) (10 * (11744051 / 16777216)) 2 14680064
    (by norm_num [abs_of_pos]) (by norm_num [abs_of_pos]) (by norm_num)
    (roundHalfEven_of_near _ 14680064 (by norm_num) (by norm_num))
  rw [this]
  norm_num

/-- The centre of the scaled box: for a centre `c` of magnitude at most `2^23`,
a width between 0 and `2^22` and a factor `f ≥ 0` with `w * f ≤ 2^22`, the
stored corner plus half the stored width is `c` or `c - 1`. -/
theorem scaled_centre_bounds (c w : Int) (f : ℚ) (hc : |c| ≤ 8388608) (hw0 : 0 ≤ w)
    (hwb : w ≤ 4194304) (hf : 0 ≤ f) (hwf : (w : ℚ) * f ≤ 4194304) :
    c - 1 ≤ truncToInt (fsub (intToFloat c) (fdiv (fmul (intToFloat w) f) 2))
        + Int.tdiv (truncToInt (fmul (intToFloat w) f)) 2 ∧
    truncToInt (fsub (intToFloat c) (fdiv (fmul (intToFloat w) f) 2))
        + Int.tdiv (truncToInt (fmul (intToFloat w) f)) 2 ≤ c := by
  have hcb := abs_le.mp hc
  have hcq : |(c : ℚ)| ≤ 8388608 := by exact_mod_cast hc
  have hcqb := abs_le.mp hcq
  have ew : intToFloat w = (w : ℚ) := by
    unfold intToFloat
    exact toFloat_intCast w (abs_le.mpr ⟨by omega, by omega⟩)
  have ec : intToFloat c = (c : ℚ) := by
    unfold intToFloat
    exact toFloat_intCast c (abs_le.mpr ⟨by omega, by omega⟩)
  rw [ew, ec]
  have hwq : (0 : ℚ) ≤ (w : ℚ) := by exact_mod_cast hw0
  have hprod0 : (0 : ℚ) ≤ (w : ℚ) * f := mul_nonneg hwq hf
  have ha0 : 0 ≤ fmul (w : ℚ) f := toFloat_nonneg _ hprod0
  have ha1 : fmul (w : ℚ) f ≤ 4194304 := by
    have := toFloat_le_int ((w : ℚ) * f) 4194304
      (by rw [abs_of_nonneg hprod0]; linarith) (by push_cast; linarith)
    push_cast at this
    exact this
  generalize fmul (w : ℚ) f = a at ha0 ha1
  have hfl : truncToInt a = Int.floor a := by
    unfold truncToInt
    rw [if_pos ha0]
  have hn0 : 0 ≤ Int.floor a := Int.floor_nonneg.mpr ha0
  rw [hfl, Int.tdiv_eq_ediv hn0 (by decide)]
  have h3 := Int.floor_le a
  have h4 := Int.lt_floor_add_one a
  have h5 : 2 * (Int.floor a / 2) ≤ Int.floor a := by omega
  have h6 : Int.floor a ≤ 2 * (Int.floor a / 2) + 1 := by omega
  have h5c : (2 : ℚ) * ((Int.floor a / 2 : Int) : ℚ) ≤ ((Int.floor a : Int) : ℚ) := by
    exact_mod_cast h5
  have h6c : ((Int.floor a : Int) : ℚ) ≤ 2 * ((Int.floor a / 2 : Int) : ℚ) + 1 := by
    exact_mod_cast h6
  generalize Int.floor a / 2 = mm at h5 h6 h5c h6c ⊢
  generalize Int.floor a = n at hn0 h3 h4 h5 h6 h5c h6c
  have hhalf0 : |a / 2| < 16777216 := by
    rw [abs_of_nonneg (by linarith)]
    linarith
  have b1 : ((mm : Int) : ℚ) ≤ fdiv a 2 :=
    toFloat_ge_int (a / 2) mm hhalf0 (by linarith)
  have b2 : fdiv a 2 ≤ ((mm + 1 : Int) : ℚ) :=
    toFloat_le_int (a / 2) (mm + 1) hhalf0 (by push_cast; linarith)
  push_cast at b2
  generalize fdiv a 2 = half at b1 b2
  have hmm : ((mm : Int) : ℚ) ≤ 2097152 := by linarith
  have hmm0 : (0 : ℚ) ≤ ((mm : Int) : ℚ) + 1 := by linarith
  have hz : |(c : ℚ) - half| < 16777216 := by
    rw [abs_lt]
    constructor <;> linarith [hcqb.1, hcqb.2]
  have b3 : ((c - mm - 1 : Int) : ℚ) ≤ fsub (c : ℚ) half :=
    toFloat_ge_int ((c : ℚ) - half) (c - mm - 1) hz (by push_cast; linarith)
  have b4 : fsub (c : ℚ) half ≤ ((c - mm : Int) : ℚ) :=
    toFloat_le_int ((c : ℚ) - half) (c - mm) hz (by push_cast; linarith)
  have b5 := truncToInt_between (fsub (c : ℚ) half) (c - mm - 1) (c - mm) b3 b4
  constructor <;> omega

/-- C15: `Rectangle::translate(dx, dy)` yields `(x + dx, y + dy, w, h)`, and
followed by `translate(-dx, -dy)` it restores the rectangle exactly. -/
theorem rectangle_translate_cancels (r : Rectangle) (dx dy : Int) :
    (r.translate dx dy).1.x = r.x + dx ∧
    (r.translate dx dy).1.y = r.y + dy ∧
    (r.translate dx dy).1.w = r.w ∧
    (r.translate dx dy).1.h = r.h ∧
    ((r.translate dx dy).1.translate (-dx) (-dy)).1 = r := by
  simp [Rectangle.translate, Rectangle.draw]

/-- C17 (as stated, refuted): the rectangle (10, 0, 3, 3) scaled by 1 is stored
as (9, 0, 3, 3), so `x' + w' div 2 = 10` while `x + w div 2 = 11`. Beyond the
integers a `float` holds exactly the centre can also move up: the rectangle
(16777219, 0, 0, 0) scaled by 1 is stored as (16777220, 0, 0, 0). -/
theorem rectangle_scale_centre_counterexample :
    ((⟨10, 0, 3, 3, white⟩ : Rectangle).scale 1).1 = ⟨9, 0, 3, 3, white⟩ ∧
    ((⟨10, 0, 3, 3, white⟩ : Rectangle).scale 1).1.x
        + Int.tdiv ((⟨10, 0, 3, 3, white⟩ : Rectangle).scale 1).1.w 2
      ≠ (⟨10, 0, 3, 3, white⟩ : Rectangle).x + Int.tdiv (⟨10, 0, 3, 3, white⟩ : Rectangle).w 2 ∧
    ((⟨16777219, 0, 0, 0, white⟩ : Rectangle).scale 1).1 = ⟨16777220, 0, 0, 0, white⟩ := by
  have hd : Int.tdiv 3 2 = 1 := by decide
  have hst : ((⟨10, 0, 3, 3, white⟩ : Rectangle).scale 1).1 = ⟨9, 0, 3, 3, white⟩ := by
    rw [rect_scale_state]
    have e1 : intToFloat 3 = 3 := by
      unfold intToFloat
      exact_mod_cast toFloat_intCast 3 (by decide)
    have e2 : fmul 3 1 = 3 := by
      unfold fmul
      norm_num
      exact toFloat_exact 3 3 0 (by norm_num) (by decide) (by norm_num)
    have e3 : fdiv 3 2 = 3 / 2 := by
      unfold fdiv
      exact toFloat_exact (3 / 2) 3 1 (by norm_num) (by decide) (by norm_num)
    have e4 : intToFloat (10 + 1) = 11 := by
      unfold intToFloat
      norm_num
      exact toFloat_exact 11 11 0 (by norm_num) (by decide) (by norm_num)
    have e5 : fsub 11 (3 / 2) = 19 / 2 := by
      unfold fsub
      norm_num
      exact toFloat_exact (19 / 2) 19 1 (by norm_num) (by decide) (by norm_num)
    have e6 : intToFloat (0 + 1) = 1 := by
      unfold intToFloat
      norm_num
      exact toFloat_exact 1 1 0 (by norm_num) (by decide) (by norm_num)
    have e7 : fsub 1 (3 / 2) = -(1 / 2) := by
      unfold fsub
      norm_num
      exact toFloat_exact (-(1 / 2)) (-1) 1 (by norm_num) (by decide) (by norm_num)
    have hx : truncToInt (fsub (intToFloat (10 + 1)) (fdiv (fmul (intToFloat 3) 1) 2)) = 9 := by
      rw [e1, e2, e3, e4, e5]
      exact truncToInt_of_nonneg _ 9 (by norm_num) (by norm_num) (by norm_num)
    have hy : truncToInt (fsub (intToFloat (0 + 1)) (fdiv (fmul (intToFloat 3) 1) 2)) = 0 := by
      rw [e1, e2, e3, e6, e7]
      exact truncToInt_of_neg _ 0 (by norm_num) (by norm_num) (by norm_num)
    have hw : truncToInt (fmul (intToFloat 3) 1) = 3 := by
      rw [e1, e2]
      exact_mod_cast truncToInt_intCast (K := ℚ) 3
    simp only [hd, hx, hy, hw]
  have hbig : ((⟨16777219, 0, 0, 0, white⟩ : Rectangle).scale 1).1
      = ⟨16777220, 0, 0, 0, white⟩ := by
    rw [rect_scale_state]
    have hd0 : Int.tdiv 0 2 = 0 := by decide
    have e1 : intToFloat 0 = 0 := by
      unfold intToFloat
      exact_mod_cast toFloat_intCast 0 (by decide)
    have e2 : fmul 0 1 = 0 := by
      unfold fmul
      norm_num
      exact toFloat_zero
    have e3 : fdiv 0 2 = 0 := by
      unfold fdiv
      norm_num
      exact toFloat_zero
    have e4 : intToFloat (16777219 + 0) = 16777220 := by
      unfold intToFloat toFloat
      have := roundTo_eval 24 (-126) 16777219 24 8388610 (by norm_num) (by norm_num)
        (by norm_num) (by rw [roundHalfEven_of_tie _ 8388609 (by norm_num)]; rfl)
      norm_num
      rw [this]
      norm_num
    have e5 : fsub 16777220 0 = 16777220 := by
      unfold fsub
      rw [sub_zero]
      have := toFloat_grid 8388610 1 (by decide) (by norm_num)
      norm_num at this
      exact this
    have e6 : fsub 0 0 = 0 := by
      unfold fsub
      norm_num
      exact toFloat_zero
    have hx : truncToInt (fsub (intToFloat (16777219 + 0)) (fdiv (fmul (intToFloat 0) 1) 2))
        = 16777220 := by
      rw [e1, e2, e3, e4, e5]
      exact_mod_cast truncToInt_intCast (K := ℚ) 16777220
    have hy : truncToInt (fsub (intToFloat (0 + 0)) (fdiv (fmul (intToFloat 0) 1) 2)) = 0 := by
      have e7 : intToFloat (0 + 0) = 0 := by
        unfold intToFloat
        norm_num
        exact toFloat_zero
      rw [e1, e2, e3, e7, e6]
      exact_mod_cast truncToInt_intCast (K := ℚ) 0
    have hw : truncToInt (fmul (intToFloat 0) 1) = 0 := by
      rw [e1, e2]
      exact_mod_cast truncToInt_intCast (K := ℚ) 0
    simp only [hd0, hx, hy, hw]
  refine ⟨hst, ?_, hbig⟩
  rw [hst]
  decide

/-- C17 (amended): for `0 ≤ w, h ≤ 2^22`, `|x|, |y| ≤ 2^22` and `f ≥ 0` with
`w * f ≤ 2^22` and `h * f ≤ 2^22`, after `Rectangle::scale(f)` the horizontal
centre `x' + w' div 2` is the old `x + w div 2` or one less, and the stored
`y'` is the top of a box of height `trunc(h*f)` whose centre
`y' + trunc(h*f) div 2` is the old `y + h div 2` or one less. -/
theorem rectangle_scale_centre_within_one (r : Rectangle) (f : ℚ)
    (hw : 0 ≤ r.w) (hh : 0 ≤ r.h) (hf : 0 ≤ f)
    (hx : |r.x| ≤ 4194304) (hy : |r.y| ≤ 4194304) (hwb : r.w ≤ 4194304) (hhb : r.h ≤ 4194304)
    (hwf : (r.w : ℚ) * f ≤ 4194304) (hhf : (r.h : ℚ) * f ≤ 4194304) :
    (r.x + Int.tdiv r.w 2 - 1 ≤ (r.scale f).1.x + Int.tdiv (r.scale f).1.w 2 ∧
     (r.scale f).1.x + Int.tdiv (r.scale f).1.w 2 ≤ r.x + Int.tdiv r.w 2) ∧
    (r.y + Int.tdiv r.h 2 - 1
        ≤ (r.scale f).1.y + Int.tdiv (truncToInt (fmul (intToFloat r.h) f)) 2 ∧
     (r.scale f).1.y + Int.tdiv (truncToInt (fmul (intToFloat r.h) f)) 2
        ≤ r.y + Int.tdiv r.h 2) := by
  have hxb := abs_le.mp hx
  have hyb := abs_le.mp hy
  have hcx : |r.x + Int.tdiv r.w 2| ≤ 8388608 := by
    rw [Int.tdiv_eq_ediv hw (by decide)]
    exact abs_le.mpr ⟨by omega, by omega⟩
  have hcy : |r.y + Int.tdiv r.h 2| ≤ 8388608 := by
    rw [Int.tdiv_eq_ediv hh (by decide)]
    exact abs_le.mpr ⟨by omega, by omega⟩
  rw [rect_scale_state]
  exact ⟨scaled_centre_bounds (r.x + Int.tdiv r.w 2) r.w f hcx hw hwb hf hwf,
    scaled_centre_bounds (r.y + Int.tdiv r.h 2) r.h f hcy hh hhb hf hhf⟩

/-- Witness of C17 (amended): the rectangle (10, 0, 3, 3) scaled by 1. -/
theorem rectangle_scale_centre_within_one_witness :
    ((0 : Int) ≤ (⟨10, 0, 3, 3, white⟩ : Rectangle).w ∧
      |(⟨10, 0, 3, 3, white⟩ : Rectangle).x| ≤ 4194304 ∧ (0 : ℚ) ≤ 1 ∧
      (((⟨10, 0, 3, 3, white⟩ : Rectangle).w : Int) : ℚ) * 1 ≤ 4194304) ∧
    (10 + Int.tdiv 3 2 - 1
        ≤ ((⟨10, 0, 3, 3, white⟩ : Rectangle).scale 1).1.x
          + Int.tdiv ((⟨10, 0, 3, 3, white⟩ : Rectangle).scale 1).1.w 2 ∧
      ((⟨10, 0, 3, 3, white⟩ : Rectangle).scale 1).1.x
          + Int.tdiv ((⟨10, 0, 3, 3, white⟩ : Rectangle).scale 1).1.w 2
        ≤ 10 + Int.tdiv 3 2) :=
  ⟨⟨by decide, by decide, by norm_num, by norm_num⟩,
   (rectangle_scale_centre_within_one (⟨10, 0, 3, 3, white⟩ : Rectangle) 1
     (by decide) (by decide) (by norm_num) (by decide) (by decide) (by decide) (by decide)
     (by norm_num) (by norm_num)).1⟩

/-- C18: `Rectangle::rotate(angle)` leaves `(x, y, w, h)` as they were, so the
draw that follows emits the same outline `(x, y, w, h)` as a draw before it. -/
theorem rectangle_rotate_is_render_only (r : Rectangle) (m : Libm) (angle : ℚ) :
    (r.rotate m angle).1 = r ∧
    (r.rotate m angle).1.draw.2 = r.draw.2 ∧
    rendererCalls (r.rotate m angle).1.draw.2
      = [.SDL_SetRenderDrawColor r.color, .SDL_RenderDrawRect ⟨r.x, r.y, r.w, r.h⟩,
         .SDL_RenderPresent] := by
  refine ⟨rfl, rfl, ?_⟩
  simp [Rectangle.rotate, Rectangle.draw, rendererCalls, Effect.isRendererCall]

/-! ## The axis-aligned line -/

theorem line_scale_state (l : Line) (factor : ℚ) :
    (l.scale factor).1 =
      { xStart := truncToInt (fmul (intToFloat l.xStart) factor),
        yStart := truncToInt (fmul (intToFloat l.yStart) factor),
        xEnd := truncToInt (fmul (intToFloat l.xEnd) factor),
        yEnd := truncToInt (fmul (intToFloat l.yEnd) factor),
        color := l.color } := rfl

/-- A coordinate of a segment whose midpoint coordinate is zero is scaled by
`LineSegment::scale` as `Line::scale` scales it: the subtraction and the
addition of the zero centre round values that are `float`s already. -/
theorem scale_about_zero_centre (a b v : Int) (f : ℚ) (h : a + b = 0) :
    truncToInt
      (fadd (fdiv (intToFloat (a + b)) 2)
        (fmul (fsub (intToFloat v) (fdiv (intToFloat (a + b)) 2)) f))
      = truncToInt (fmul (intToFloat v) f) := by
  have e0 : fdiv (intToFloat (a + b)) 2 = 0 := by
    rw [h]
    unfold fdiv intToFloat
    rw [Int.cast_zero, toFloat_zero, zero_div, toFloat_zero]
  rw [e0]
  unfold fadd fsub fmul intToFloat
  rw [sub_zero, zero_add, toFloat_idem, toFloat_idem]

/-- The products of the zero coordinate by any factor truncate to zero. -/
theorem scale_zero_coord (f : ℚ) : truncToInt (fmul (intToFloat 0) f) = 0 := by
  unfold fmul intToFloat
  rw [Int.cast_zero, toFloat_zero, zero_mul, toFloat_zero]
  exact_mod_cast truncToInt_intCast (K := ℚ) 0

/-- C19 (as stated, refuted): for the endpoints (0, 0) and (10, 0) and the
factor 2, `Line::scale` stores (0, 0) and (20, 0), while `LineSegment::scale`
stores (-5, 0) and (15, 0). -/
theorem line_scale_mirror_counterexample :
    ((⟨0, 0, 10, 0, white⟩ : Line).scale 2).1 = ⟨0, 0, 20, 0, white⟩ ∧
    ((⟨⟨0, 0⟩, ⟨10, 0⟩, white⟩ : LineSegment).scale 2).1
      = ⟨⟨-5, 0⟩, ⟨15, 0⟩, white⟩ ∧
    (⟨0, 0, 20, 0, white⟩ : Line).xStart
      ≠ (⟨⟨-5, 0⟩, ⟨15, 0⟩, white⟩ : LineSegment).start.getX := by
  have e10 : intToFloat 10 = 10 := by
    unfold intToFloat
    exact_mod_cast toFloat_intCast 10 (by decide)
  have e0 : intToFloat 0 = 0 := by
    unfold intToFloat
    exact_mod_cast toFloat_intCast 0 (by decide)
  have hline : ((⟨0, 0, 10, 0, white⟩ : Line).scale 2).1 = ⟨0, 0, 20, 0, white⟩ := by
    rw [line_scale_state]
    have h20 : truncToInt (fmul (intToFloat 10) 2) = 20 := by
      rw [e10]
      have : fmul 10 2 = 20 := by
        unfold fmul
        norm_num
        exact toFloat_exact 20 20 0 (by norm_num) (by decide) (by norm_num)
      rw [this]
      exact_mod_cast truncToInt_intCast (K := ℚ) 20
    simp only [scale_zero_coord, h20]
  have hseg : ((⟨⟨0, 0⟩, ⟨10, 0⟩, white⟩ : LineSegment).scale 2).1
      = ⟨⟨-5, 0⟩, ⟨15, 0⟩, white⟩ := by
    rw [segment_scale_state]
    simp only [Point2D.getX, Point2D.getY]
    have c5 : fdiv (intToFloat (0 + 10)) 2 = 5 := by
      unfold fdiv intToFloat
      norm_num
      have : toFloat 10 = 10 := toFloat_exact 10 10 0 (by norm_num) (by decide) (by norm_num)
      rw [this]
      norm_num
      exact toFloat_exact 5 5 0 (by norm_num) (by decide) (by norm_num)
    have d1 : fsub 0 5 = -5 := by
      unfold fsub
      norm_num
      exact toFloat_exact (-5) (-5) 0 (by norm_num) (by decide) (by norm_num)
    have d2 : fsub 10 5 = 5 := by
      unfold fsub
      norm_num
      exact toFloat_exact 5 5 0 (by norm_num) (by decide) (by norm_num)
    have p1 : fmul (-5) 2 = -10 := by
      unfold fmul
      norm_num
      exact toFloat_exact (-10) (-10) 0 (by norm_num) (by decide) (by norm_num)
    have p2 : fmul 5 2 = 10 := by
      unfold fmul
      norm_num
      exact toFloat_exact 10 10 0 (by norm_num) (by decide) (by norm_num)
    have s1 : fadd 5 (-10) = -5 := by
      unfold fadd
      norm_num
      exact toFloat_exact (-5) (-5) 0 (by norm_num) (by decide) (by norm_num)
    have s2 : fadd 5 10 = 15 := by
      unfold fadd
      norm_num
      exact toFloat_exact 15 15 0 (by norm_num) (by decide) (by norm_num)
    have hx1 : truncToInt
        (fadd (fdiv (intToFloat (0 + 10)) 2)
          (fmul (fsub (intToFloat 0) (fdiv (intToFloat (0 + 10)) 2)) 2)) = -5 := by
      rw [c5, e0, d1, p1, s1]
      exact_mod_cast truncToInt_intCast (K := ℚ) (-5)
    have hx2 : truncToInt
        (fadd (fdiv (intToFloat (0 + 10)) 2)
          (fmul (fsub (intToFloat 10) (fdiv (intToFloat (0 + 10)) 2)) 2)) = 15 := by
      rw [c5, e10, d2, p2, s2]
      exact_mod_cast truncToInt_intCast (K := ℚ) 15
    have hy : truncToInt
        (fadd (fdiv (intToFloat (0 + 0)) 2)
          (fmul (fsub (intToFloat 0) (fdiv (intToFloat (0 + 0)) 2)) 2)) = 0 :=
      (degenerate_values 0 0 (by decide) (by decide) 0 0 2).2.2
    simp only [hx1, hx2, hy]
  exact ⟨hline, hseg, by decide⟩

/-- C19 (amended): `Line::scale(f)` scales about the origin: it stores
`trunc(x1 * f)`, `trunc(y1 * f)`, `trunc(x2 * f)`, `trunc(y2 * f)`, each
product a `float` product. These equal the endpoints `LineSegment::scale(f)`
stores for the same endpoints when the midpoint is the origin (`x1 + x2 = 0`
and `y1 + y2 = 0`). The line (10, 0, 0, 0) scaled by the `float` nearest to 0.7
becomes (7, 0, 0, 0). -/
theorem line_scale_about_origin (x1 y1 x2 y2 : Int) (color : SDL_Color) (f : ℚ) :
    ((⟨x1, y1, x2, y2, color⟩ : Line).scale f).1
      = ⟨truncToInt (fmul (intToFloat x1) f), truncToInt (fmul (intToFloat y1) f),
         truncToInt (fmul (intToFloat x2) f), truncToInt (fmul (intToFloat y2) f), color⟩ ∧
    (x1 + x2 = 0 → y1 + y2 = 0 →
      ((⟨x1, y1, x2, y2, color⟩ : Line).scale f).1.xStart
        = ((⟨⟨x1, y1⟩, ⟨x2, y2⟩, color⟩ : LineSegment).scale f).1.start.getX ∧
      ((⟨x1, y1, x2, y2, color⟩ : Line).scale f).1.yStart
        = ((⟨⟨x1, y1⟩, ⟨x2, y2⟩, color⟩ : LineSegment).scale f).1.start.getY ∧
      ((⟨x1, y1, x2, y2, color⟩ : Line).scale f).1.xEnd
        = ((⟨⟨x1, y1⟩, ⟨x2, y2⟩, color⟩ : LineSegment).scale f).1.«end».getX ∧
      ((⟨x1, y1, x2, y2, color⟩ : Line).scale f).1.yEnd
        = ((⟨⟨x1, y1⟩, ⟨x2, y2⟩, color⟩ : LineSegment).scale f).1.«end».getY) ∧
    ((⟨10, 0, 0, 0, color⟩ : Line).scale (11744051 / 16777216)).1 = ⟨7, 0, 0, 0, color⟩ := by
  refine ⟨rfl, ?_, ?_⟩
  · intro hx hy
    exact ⟨(scale_about_zero_centre x1 x2 x1 f hx).symm,
      (scale_about_zero_centre y1 y2 y1 f hy).symm,
      (scale_about_zero_centre x1 x2 x2 f hx).symm,
      (scale_about_zero_centre y1 y2 y2 f hy).symm⟩
  · rw [line_scale_state]
    have h7 : truncToInt (fmul (intToFloat 10) (11744051 / 16777216)) = 7 := by
      rw [fmul_ten_seven_tenths]
      exact_mod_cast truncToInt_intCast (K := ℚ) 7
    simp only [scale_zero_coord, h7]

/-- Witness of C19 (amended): the endpoints (-3, -4) and (3, 4), factor 3/2. -/
theorem line_scale_about_origin_witness :
    ((-3 : Int) + 3 = 0 ∧ (-4 : Int) + 4 = 0) ∧
    (((⟨-3, -4, 3, 4, white⟩ : Line).scale (3 / 2)).1.xStart
        = ((⟨⟨-3, -4⟩, ⟨3, 4⟩, white⟩ : LineSegment).scale (3 / 2)).1.start.getX ∧
      ((⟨-3, -4, 3, 4, white⟩ : Line).scale (3 / 2)).1.yStart
        = ((⟨⟨-3, -4⟩, ⟨3, 4⟩, white⟩ : LineSegment).scale (3 / 2)).1.start.getY ∧
      ((⟨-3, -4, 3, 4, white⟩ : Line).scale (3 / 2)).1.xEnd
        = ((⟨⟨-3, -4⟩, ⟨3, 4⟩, white⟩ : LineSegment).scale (3 / 2)).1.«end».getX ∧
      ((⟨-3, -4, 3, 4, white⟩ : Line).scale (3 / 2)).1.yEnd
        = ((⟨⟨-3, -4⟩, ⟨3, 4⟩, white⟩ : LineSegment).scale (3 / 2)).1.«end».getY) :=
  ⟨⟨by decide, by decide⟩,
   (line_scale_about_origin (-3) (-4) 3 4 white (3 / 2)).2.1 (by decide) (by decide)⟩

/-! ## The axis-aligned line under rotate -/

theorem roundToInt_of_nonneg (x : ℚ) (n : Int) (h0 : 0 ≤ x) (h1 : (n : ℚ) ≤ x + 1 / 2)
    (h2 : x + 1 / 2 < (n : ℚ) + 1) : roundToInt x = n := by
  unfold roundToInt
  rw [if_pos h0]
  exact Int.floor_eq_iff.mpr ⟨h1, h2⟩

theorem roundToInt_of_neg (x : ℚ) (n : Int) (h0 : x < 0) (h1 : (n : ℚ) - 1 < x - 1 / 2)
    (h2 : x - 1 / 2 ≤ (n : ℚ)) : roundToInt x = n := by
  unfold roundToInt
  rw [if_neg (not_le.mpr h0)]
  exact Int.ceil_eq_iff.mpr ⟨h1, h2⟩

theorem line_rotate_draws (l : Line) (m : Libm) (angle : ℚ) :
    lineDraws (l.rotate m angle).2
      = [.SDL_RenderDrawLine
          (rotatePoint (m.cos (toRadians angle)) (m.sin (toRadians angle))
            (intToFloat (Int.tdiv (l.xStart + l.xEnd) 2))
            (intToFloat (Int.tdiv (l.yStart + l.yEnd) 2)) l.xStart l.yStart).1
          (rotatePoint (m.cos (toRadians angle)) (m.sin (toRadians angle))
            (intToFloat (Int.tdiv (l.xStart + l.xEnd) 2))
            (intToFloat (Int.tdiv (l.yStart + l.yEnd) 2)) l.xEnd l.yEnd).1
          (rotatePoint (m.cos (toRadians angle)) (m.sin (toRadians angle))
            (intToFloat (Int.tdiv (l.xStart + l.xEnd) 2))
            (intToFloat (Int.tdiv (l.yStart + l.yEnd) 2)) l.xStart l.yStart).2
          (rotatePoint (m.cos (toRadians angle)) (m.sin (toRadians angle))
            (intToFloat (Int.tdiv (l.xStart + l.xEnd) 2))
            (intToFloat (Int.tdiv (l.yStart + l.yEnd) 2)) l.xEnd l.yEnd).2] := by
  simp [Line.rotate, lineDraws, Effect.isLineDraw]

/-- The two endpoints (100, 0) and (110, 0) turned about (105, 0) with
`cos = 16777215 / 2^25` and `sin = 1816187 / 2^21`: the `float` sums
`105 - 2.4999998` and `105 + 2.4999998` are 102.5 and 107.5, which `round`
takes to 103 and 108. -/
theorem rotatePoint_sixth_turn :
    rotatePoint (16777215 / 33554432) (1816187 / 2097152) 105 0 100 0 = (103, -4) ∧
    rotatePoint (16777215 / 33554432) (1816187 / 2097152) 105 0 110 0 = (108, 4) := by
  have e100 : intToFloat 100 = 100 := by
    unfold intToFloat
    exact_mod_cast toFloat_intCast 100 (by decide)
  have e110 : intToFloat 110 = 110 := by
    unfold intToFloat
    exact_mod_cast toFloat_intCast 110 (by decide)
  have e0 : intToFloat 0 = 0 := by
    unfold intToFloat
    exact_mod_cast toFloat_intCast 0 (by decide)
  have dx1 : fsub 110 105 = 5 := by
    unfold fsub
    have e : (110 : ℚ) - 105 = 5 := by norm_num
    rw [e]
    exact toFloat_exact 5 5 0 (by norm_num) (by decide) (by norm_num)
  have dx0 : fsub 100 105 = -5 := by
    unfold fsub
    have e : (100 : ℚ) - 105 = -5 := by norm_num
    rw [e]
    exact toFloat_exact (-5) (-5) 0 (by norm_num) (by decide) (by norm_num)
  have dy : fsub 0 0 = 0 := by
    unfold fsub
    rw [sub_zero, toFloat_zero]
  have m2 : fmul 5 (16777215 / 33554432) = 10485759 / 4194304 := by
    unfold fmul toFloat
    have := roundTo_eval 24 (-126) (5 * (16777215 / 33554432)) 1 10485759
      (by norm_num [abs_of_pos]) (by norm_num [abs_of_pos]) (by norm_num)
      (roundHalfEven_of_near _ 10485759 (by norm_num) (by norm_num))
    rw [this]
    norm_num
  have m1 : fmul (-5) (16777215 / 33554432) = -(10485759 / 4194304) := by
    have e : (-5 : ℚ) * (16777215 / 33554432) = -(5 * (16777215 / 33554432)) := by ring
    unfold fmul at m2 ⊢
    rw [e, toFloat_neg, m2]
  have n2 : fmul 5 (1816187 / 2097152) = 9080935 / 2097152 := by
    unfold fmul
    have e : (5 : ℚ) * (1816187 / 2097152) = 9080935 / 2097152 := by norm_num
    rw [e]
    exact toFloat_exact _ 9080935 21 (by norm_num) (by decide) (by norm_num)
  have n1 : fmul (-5) (1816187 / 2097152) = -(9080935 / 2097152) := by
    have e : (-5 : ℚ) * (1816187 / 2097152) = -(5 * (1816187 / 2097152)) := by ring
    unfold fmul at n2 ⊢
    rw [e, toFloat_neg, n2]
  have z1 : fmul 0 (1816187 / 2097152) = 0 := by
    unfold fmul
    rw [zero_mul, toFloat_zero]
  have z2 : fmul 0 (16777215 / 33554432) = 0 := by
    unfold fmul
    rw [zero_mul, toFloat_zero]
  have k2 : toFloat (10485759 / 4194304) = 10485759 / 4194304 :=
    toFloat_exact _ 10485759 22 (by norm_num) (by decide) (by norm_num)
  have k1 : toFloat (9080935 / 2097152) = 9080935 / 2097152 :=
    toFloat_exact _ 9080935 21 (by norm_num) (by decide) (by norm_num)
  have s2 : fsub (10485759 / 4194304) 0 = 10485759 / 4194304 := by
    unfold fsub
    rw [sub_zero, k2]
  have s1 : fsub (-(10485759 / 4194304)) 0 = -(10485759 / 4194304) := by
    unfold fsub
    rw [sub_zero, toFloat_neg, k2]
  have t2 : fadd (9080935 / 2097152) 0 = 9080935 / 2097152 := by
    unfold fadd
    rw [add_zero, k1]
  have t1 : fadd (-(9080935 / 2097152)) 0 = -(9080935 / 2097152) := by
    unfold fadd
    rw [add_zero, toFloat_neg, k1]
  have u2 : fadd 0 (9080935 / 2097152) = 9080935 / 2097152 := by
    unfold fadd
    rw [zero_add, k1]
  have u1 : fadd 0 (-(9080935 / 2097152)) = -(9080935 / 2097152) := by
    unfold fadd
    rw [zero_add, toFloat_neg, k1]
  have a2 : fadd 105 (10485759 / 4194304) = 215 / 2 := by
    unfold fadd toFloat
    have := roundTo_eval 24 (-126) (105 + 10485759 / 4194304) 6 14090240
      (by norm_num [abs_of_pos]) (by norm_num [abs_of_pos]) (by norm_num)
      (roundHalfEven_of_near _ 14090240 (by norm_num) (by norm_num))
    rw [this]
    norm_num
  have a1 : fadd 105 (-(10485759 / 4194304)) = 205 / 2 := by
    unfold fadd toFloat
    have := roundTo_eval 24 (-126) (105 + -(10485759 / 4194304)) 6 13434880
      (by norm_num [abs_of_pos]) (by norm_num [abs_of_pos]) (by norm_num)
      (roundHalfEven_of_near _ 13434880 (by norm_num) (by norm_num))
    rw [this]
    norm_num
  have r1 : roundToInt (205 / 2 : ℚ) = 103 :=
    roundToInt_of_nonneg _ 103 (by norm_num) (by norm_num) (by norm_num)
  have r2 : roundToInt (215 / 2 : ℚ) = 108 :=
    roundToInt_of_nonneg _ 108 (by norm_num) (by norm_num) (by norm_num)
  have r3 : roundToInt (-(9080935 / 2097152) : ℚ) = -4 :=
    roundToInt_of_neg _ (-4) (by norm_num) (by norm_num) (by norm_num)
  have r4 : roundToInt (9080935 / 2097152 : ℚ) = 4 :=
    roundToInt_of_nonneg _ 4 (by norm_num) (by norm_num) (by norm_num)
  constructor
  · unfold rotatePoint
    simp only [e100, e0, dx0, dy, m1, n1, z1, z2, s1, t1, u1, a1, r1, r3]
  · unfold rotatePoint
    simp only [e110, e0, dx1, dy, m2, n2, z1, z2, s2, t2, u2, a2, r2, r4]

/-- C20: `Line::rotate` makes exactly one line-draw call, with the arguments
`(p0.x, p1.x, p0.y, p1.y)` in that order, where `p0` and `p1` are the two
endpoints turned about `((x1 + x2) div 2, (y1 + y2) div 2)` (`div` the quotient
of two `int`s) in `float` arithmetic with each component rounded by `round`; it
writes no member. The line (100, 0, 110, 0) rotated by 60 degrees, with the
sample library's `cos = 16777215 / 2^25` and `sin = 1816187 / 2^21` at the
`float` radians of 60 degrees, has `p0 = (103, -4)` and `p1 = (108, 4)` and
draws from (103, 108) to (-4, 4). -/
theorem line_rotate_plots_swapped (l : Line) (m : Libm) (angle : ℚ) :
    lineDraws (l.rotate m angle).2
      = [.SDL_RenderDrawLine
          (rotatePoint (m.cos (toRadians angle)) (m.sin (toRadians angle))
            (intToFloat (Int.tdiv (l.xStart + l.xEnd) 2))
            (intToFloat (Int.tdiv (l.yStart + l.yEnd) 2)) l.xStart l.yStart).1
          (rotatePoint (m.cos (toRadians angle)) (m.sin (toRadians angle))
            (intToFloat (Int.tdiv (l.xStart + l.xEnd) 2))
            (intToFloat (Int.tdiv (l.yStart + l.yEnd) 2)) l.xEnd l.yEnd).1
          (rotatePoint (m.cos (toRadians angle)) (m.sin (toRadians angle))
            (intToFloat (Int.tdiv (l.xStart + l.xEnd) 2))
            (intToFloat (Int.tdiv (l.yStart + l.yEnd) 2)) l.xStart l.yStart).2
          (rotatePoint (m.cos (toRadians angle)) (m.sin (toRadians angle))
            (intToFloat (Int.tdiv (l.xStart + l.xEnd) 2))
            (intToFloat (Int.tdiv (l.yStart + l.yEnd) 2)) l.xEnd l.yEnd).2] ∧
    (l.rotate m angle).1 = l ∧
    lineDraws ((⟨100, 0, 110, 0, white⟩ : Line).rotate sampleLibm 60).2
      = [.SDL_RenderDrawLine 103 108 (-4) 4] := by
  refine ⟨line_rotate_draws l m angle, rfl, ?_⟩
  rw [line_rotate_draws]
  have hd1 : Int.tdiv (100 + 110) 2 = 105 := by decide
  have hd2 : Int.tdiv (0 + 0) 2 = 0 := by decide
  have c1 : intToFloat 105 = 105 := by
    unfold intToFloat
    exact_mod_cast toFloat_intCast 105 (by decide)
  have c2 : intToFloat 0 = 0 := by
    unfold intToFloat
    exact_mod_cast toFloat_intCast 0 (by decide)
  obtain ⟨-, -, ⟨c60, s60⟩, -⟩ := sampleLibm_values
  simp only [c60, s60, hd1, hd2, c1, c2, rotatePoint_sixth_turn.1, rotatePoint_sixth_turn.2]

/-! ## The bitmap store and the surface of a textured sprite -/

/-- C21 (the code on a successful load): the constructor frees the surface
once, through `tmpSurface`, and leaves the store's `imageSurface` pointing at
it; the destructor of the store, finding the member not `NULL`, frees it again.
From construction to destruction the surface is released twice, for every
surface, texture result and memory content; the trace is shown for surface 1
and texture 2. -/
theorem loaded_surface_released_twice (junk : Unwritten) (surface : Nat) (created : Ptr)
    (x y w h : Int) :
    releases (some surface)
      ((BitmapObject.new junk (some surface) created x y w h).2
        ++ (BitmapObject.new junk (some surface) created x y w h).1.destructor) = 2 ∧
    (BitmapObject.new staleMem (some 1) (some 2) 0 0 64 64).2
        ++ (BitmapObject.new staleMem (some 1) (some 2) 0 0 64 64).1.destructor
      = [ .SDL_CreateTextureFromSurface (some 1), .SDL_FreeSurface (some 1),
          .SDL_DestroyTexture (some 2), .SDL_FreeSurface (some 1) ] ∧
    releases (some 1)
      ((Player.new staleMem 0 0 (some 1) (some 2) 1000 0 0 64 64 2).2
        ++ samplePlayer.destructor) = 2 := by
  refine ⟨?_, by decide, by decide⟩
  cases created <;>
    simp [BitmapObject.new, BitmapManager.loadBitmapContent, BitmapManager.getSurface,
      BitmapObject.destructor, BitmapManager.destructor, BitmapManager.deleteBitmapObj,
      releases]

/-- C22 (the code on a store that holds a surface): `deleteBitmapObj` called
twice frees the surface twice, and the store still holds the pointer after
either call, because the member is never set to `NULL`. -/
theorem deleteBitmapObj_twice_frees_twice (surface : Nat) :
    (({ imageSurface := some surface } : BitmapManager).deleteBitmapObj.2
        ++ ({ imageSurface := some surface } : BitmapManager).deleteBitmapObj.1.deleteBitmapObj.2)
      = [.SDL_FreeSurface (some surface), .SDL_FreeSurface (some surface)] ∧
    releases (some surface)
      (({ imageSurface := some surface } : BitmapManager).deleteBitmapObj.2
        ++ ({ imageSurface := some surface } : BitmapManager).deleteBitmapObj.1.deleteBitmapObj.2)
      = 2 ∧
    ({ imageSurface := some surface } : BitmapManager).deleteBitmapObj.1.imageSurface
      = some surface ∧
    ({ imageSurface := some surface } : BitmapManager).deleteBitmapObj.1.deleteBitmapObj.1.imageSurface
      = some surface := by
  simp [BitmapManager.deleteBitmapObj, releases]

/-- C23 (the code on a failed load): the constructor does not write `texture`,
so the member keeps what the memory held. In memory that held the value 99
there, the texture is not null after construction and `draw` issues a blit with
it. -/
theorem failed_load_leaves_texture_unwritten (junk : Unwritten) (created : Ptr)
    (x y w h : Int) :
    (BitmapObject.new junk none created x y w h).1.texture = junk.texture ∧
    (BitmapObject.new dirtyMem none none 0 0 64 64).1.texture = some 99 ∧
    rendererCalls (BitmapObject.new dirtyMem none none 0 0 64 64).1.draw.2
      = [.SDL_RenderCopy (some 99) ⟨7, 11, 13, 17⟩ ⟨0, 0, 13, 17⟩] := by
  refine ⟨?_, by decide, by decide⟩
  simp [BitmapObject.new, BitmapManager.loadBitmapContent]

/-- C24: `copyTo` returns true exactly when both stores hold a surface; when it
returns false it performs no effect, when it returns true its whole trace is
one blit of the full source surface onto the destination; in both cases the two
stores are as before. -/
theorem copyTo_true_iff_both_hold (a b : BitmapManager) :
    ((a.copyTo b).1.2.2 = true ↔ (a.imageSurface ≠ none ∧ b.imageSurface ≠ none)) ∧
    ((a.copyTo b).1.2.2 = false → (a.copyTo b).2 = [] ∧ surfaceBlits (a.copyTo b).2 = []) ∧
    ((a.copyTo b).1.2.2 = true →
      (a.copyTo b).2 = [.SDL_BlitSurface a.imageSurface none b.imageSurface none] ∧
      surfaceBlits (a.copyTo b).2
        = [.SDL_BlitSurface a.imageSurface none b.imageSurface none]) ∧
    (a.copyTo b).1.1 = a ∧ (a.copyTo b).1.2.1 = b := by
  unfold BitmapManager.copyTo
  by_cases ha : a.imageSurface = none <;> by_cases hb : b.imageSurface = none <;>
    simp [ha, hb, surfaceBlits, Effect.isSurfaceBlit]

/-- Witness of C24: a store holding surface 1 copied to a store holding
surface 2, and copied to an empty store. -/
theorem copyTo_true_iff_both_hold_witness :
    ((({ imageSurface := some 1 } : BitmapManager).copyTo { imageSurface := some 2 }).2
        = [.SDL_BlitSurface (some 1) none (some 2) none] ∧
      surfaceBlits (({ imageSurface := some 1 } : BitmapManager).copyTo { imageSurface := some 2 }).2
        = [.SDL_BlitSurface (some 1) none (some 2) none]) ∧
    ((({ imageSurface := some 1 } : BitmapManager).copyTo { imageSurface := none }).2 = [] ∧
      surfaceBlits (({ imageSurface := some 1 } : BitmapManager).copyTo { imageSurface := none }).2
        = []) :=
  ⟨(copyTo_true_iff_both_hold { imageSurface := some 1 } { imageSurface := some 2 }).2.2.1
      (by decide),
   (copyTo_true_iff_both_hold { imageSurface := some 1 } { imageSurface := none }).2.1
      (by decide)⟩

/-! ## Lemmas on runs of a player -/

theorem animate_keeps_fields (s : SpriteObject) (d : Int) (idle : Bool) (now : Nat) :
    (s.animate d idle now).1.objPosX = s.objPosX ∧
    (s.animate d idle now).1.objPosY = s.objPosY ∧
    (s.animate d idle now).1.w = s.w ∧
    (s.animate d idle now).1.h = s.h ∧
    (∀ rect ∈ emitted (s.animate d idle now).2,
      rect.y = d * s.h ∧ rect.w = s.w ∧ rect.h = s.h ∧ (idle = true → rect.x = 0)) := by
  by_cases hg : toU32 s.animationSpeed < u32sub (now % U32) s.lastFrameTime <;>
    by_cases hw : s.frameCount ≤ s.currentFrame + 1 <;>
    cases idle <;>
    simp [SpriteObject.animate, BitmapObject.setSrcRect, emitted, Effect.srcRectSet, hg, hw]

theorem player_translate_sets_no_rect (p : Player) (dx dy : Int) :
    emitted (p.translate dx dy).2 = [] := by
  simp only [Player.translate, SpriteObject.translate]
  exact sprite_draw_sets_no_rect _

theorem update_keeps_fields (p : Player) (now : Nat) :
    (p.update now).1.objPosX = p.objPosX ∧
    (p.update now).1.objPosY = p.objPosY ∧
    (p.update now).1.direction = p.direction ∧
    (p.update now).1.idle = p.idle ∧
    (p.update now).1.moveSpeed = p.moveSpeed ∧
    (p.update now).1.w = p.w ∧
    (p.update now).1.h = p.h ∧
    (∀ rect ∈ emitted (p.update now).2,
      rect.y = p.direction * p.h ∧ rect.w = p.w ∧ rect.h = p.h ∧
      (p.idle = true → rect.x = 0)) := by
  obtain ⟨h1, h2, h3, h4, h5⟩ :=
    animate_keeps_fields p.toSpriteObject p.direction p.idle now
  refine ⟨?_, ?_, rfl, rfl, rfl, ?_, ?_, ?_⟩
  · simpa [Player.update, sprite_draw_state, bitmap_draw_state] using h1
  · simpa [Player.update, sprite_draw_state, bitmap_draw_state] using h2
  · simpa [Player.update, sprite_draw_state, bitmap_draw_state] using h3
  · simpa [Player.update, sprite_draw_state, bitmap_draw_state] using h4
  · intro rect hrect
    simp only [Player.update, emitted_append, sprite_draw_sets_no_rect, List.append_nil] at hrect
    exact h5 rect hrect

theorem handler_keeps_fields (p : Player) (event : SDL_Event) :
    (p.inputEventHandler event).1.w = p.w ∧
    (p.inputEventHandler event).1.h = p.h ∧
    (p.inputEventHandler event).1.moveSpeed = p.moveSpeed ∧
    emitted (p.inputEventHandler event).2 = [] ∧
    ((p.inputEventHandler event).1.direction = p.direction ∨
     (p.inputEventHandler event).1.direction = 0 ∨
     (p.inputEventHandler event).1.direction = 1 ∨
     (p.inputEventHandler event).1.direction = 2 ∨
     (p.inputEventHandler event).1.direction = 3) := by
  by_cases hd : event.type = SDL_KEYDOWN
  · rw [handler_on_keydown p event hd]
    have hnil : emitted ([] : List Effect) = [] := rfl
    split_ifs <;>
      simp [player_translate_state, player_translate_sets_no_rect, Player.setDirection, hnil]
  · by_cases hu : event.type = SDL_KEYUP
    · rw [handler_on_keyup p event hu]
      simp [emitted]
    · simp [Player.inputEventHandler, hd, hu, emitted]

theorem handler_on_right_keydown (p : Player) :
    (p.inputEventHandler ⟨SDL_KEYDOWN, SDLK_RIGHT⟩).1.objPosX = p.objPosX + p.moveSpeed ∧
    (p.inputEventHandler ⟨SDL_KEYDOWN, SDLK_RIGHT⟩).1.objPosY = p.objPosY ∧
    (p.inputEventHandler ⟨SDL_KEYDOWN, SDLK_RIGHT⟩).1.direction = 3 ∧
    (p.inputEventHandler ⟨SDL_KEYDOWN, SDLK_RIGHT⟩).1.idle = false ∧
    (p.inputEventHandler ⟨SDL_KEYDOWN, SDLK_RIGHT⟩).1.moveSpeed = p.moveSpeed := by
  have hr : ¬ SDLK_RIGHT = SDLK_LEFT := by decide
  rw [handler_on_keydown p _ rfl]
  simp [hr, player_translate_state, Player.setDirection]

theorem call_keeps_fields (p : Player) (c : PlayerCall) :
    (p.call c).1.w = p.w ∧
    (p.call c).1.h = p.h ∧
    (p.call c).1.moveSpeed = p.moveSpeed ∧
    ((p.call c).1.direction = p.direction ∨ (p.call c).1.direction = 0 ∨
      (p.call c).1.direction = 1 ∨ (p.call c).1.direction = 2 ∨
      (p.call c).1.direction = 3) ∧
    (∀ rect ∈ emitted (p.call c).2,
      rect.y = p.direction * p.h ∧ rect.w = p.w ∧ rect.h = p.h ∧
      (p.idle = true → rect.x = 0)) ∧
    (c.isInput = false →
      (p.call c).1.objPosX = p.objPosX ∧ (p.call c).1.objPosY = p.objPosY ∧
      (p.call c).1.direction = p.direction ∧ (p.call c).1.idle = p.idle) := by
  cases c with
  | update now =>
    obtain ⟨h1, h2, h3, h4, h5, h6, h7, h8⟩ := update_keeps_fields p now
    exact ⟨h6, h7, h5, Or.inl h3, h8, fun _ => ⟨h1, h2, h3, h4⟩⟩
  | input event =>
    obtain ⟨h1, h2, h3, h4, h5⟩ := handler_keeps_fields p event
    refine ⟨h1, h2, h3, h5, ?_, ?_⟩
    · intro rect hrect
      simp only [Player.call, h4, List.not_mem_nil] at hrect
    · intro hc
      simp [PlayerCall.isInput] at hc
  | animate0 =>
    refine ⟨rfl, rfl, rfl, Or.inl rfl, ?_, fun _ => ⟨rfl, rfl, rfl, rfl⟩⟩
    intro rect hrect
    simp [Player.call, SpriteObject.animate0, emitted] at hrect

theorem calls_without_input (calls : List PlayerCall) :
    ∀ p : Player, (∀ c ∈ calls, c.isInput = false) →
      (p.calls calls).1.objPosX = p.objPosX ∧
      (p.calls calls).1.objPosY = p.objPosY ∧
      (p.calls calls).1.direction = p.direction ∧
      (p.calls calls).1.idle = p.idle ∧
      (∀ rect ∈ emitted (p.calls calls).2,
        rect.y = p.direction * p.h ∧ rect.w = p.w ∧ rect.h = p.h ∧
        (p.idle = true → rect.x = 0)) := by
  induction calls with
  | nil =>
    intro p _
    refine ⟨rfl, rfl, rfl, rfl, ?_⟩
    intro rect hrect
    simp [Player.calls, emitted] at hrect
  | cons c cs ih =>
    intro p hall
    obtain ⟨hw, hh, _, _, hrects, hstay⟩ := call_keeps_fields p c
    obtain ⟨hx, hy, hd, hi⟩ := hstay (hall c (List.mem_cons_self c cs))
    obtain ⟨ix, iy, idir, iidle, irects⟩ :=
      ih (p.call c).1 (fun x hx => hall x (List.mem_cons_of_mem c hx))
    refine ⟨ix.trans hx, iy.trans hy, idir.trans hd, iidle.trans hi, ?_⟩
    intro rect hrect
    simp only [Player.calls, emitted_append, List.mem_append] at hrect
    rcases hrect with hrect | hrect
    · exact hrects rect hrect
    · have h := irects rect hrect
      rw [hd, hh, hw, hi] at h
      exact h

theorem calls_of_right_keydowns (calls : List PlayerCall) :
    ∀ p : Player,
      (∀ c ∈ calls, c.isInput = false ∨ c = .input ⟨SDL_KEYDOWN, SDLK_RIGHT⟩) →
      (p.calls calls).1.moveSpeed = p.moveSpeed ∧
      (p.calls calls).1.objPosX
        = p.objPosX + p.moveSpeed * (calls.countP PlayerCall.isRightKeydown : Nat) ∧
      (p.calls calls).1.objPosY = p.objPosY ∧
      (1 ≤ calls.countP PlayerCall.isRightKeydown →
        (p.calls calls).1.direction = 3 ∧ (p.calls calls).1.idle = false) ∧
      (calls.countP PlayerCall.isRightKeydown = 0 →
        (p.calls calls).1.direction = p.direction ∧ (p.calls calls).1.idle = p.idle) := by
  induction calls with
  | nil =>
    intro p _
    simp [Player.calls]
  | cons c cs ih =>
    intro p hall
    obtain ⟨im, ix, iy, ione, izero⟩ :=
      ih (p.call c).1 (fun x hx => hall x (List.mem_cons_of_mem c hx))
    rcases hall c (List.mem_cons_self c cs) with hc | hc
    · obtain ⟨_, _, hm, _, _, hstay⟩ := call_keeps_fields p c
      obtain ⟨hx, hy, hd, hi⟩ := hstay hc
      have hnot : PlayerCall.isRightKeydown c = false := by
        cases c <;> simp_all [PlayerCall.isInput, PlayerCall.isRightKeydown]
      have hcount : (c :: cs).countP PlayerCall.isRightKeydown
          = cs.countP PlayerCall.isRightKeydown := by
        simp [List.countP_cons, hnot]
      rw [hcount]
      simp only [Player.calls]
      refine ⟨im.trans hm, ?_, iy.trans hy, ione, ?_⟩
      · rw [ix, hx, hm]
      · intro h0
        obtain ⟨a, b⟩ := izero h0
        exact ⟨a.trans hd, b.trans hi⟩
    · subst hc
      obtain ⟨hx, hy, hd, hi, hm⟩ := handler_on_right_keydown p
      have hyes : PlayerCall.isRightKeydown (.input ⟨SDL_KEYDOWN, SDLK_RIGHT⟩) = true := by
        decide
      have hcount : (PlayerCall.input ⟨SDL_KEYDOWN, SDLK_RIGHT⟩ :: cs).countP
          PlayerCall.isRightKeydown = cs.countP PlayerCall.isRightKeydown + 1 := by
        simp [List.countP_cons, hyes]
      rw [hcount]
      simp only [Player.calls, Player.call] at im ix iy ione izero ⊢
      refine ⟨im.trans hm, ?_, iy.trans hy, ?_, ?_⟩
      · rw [ix, hx, hm]
        push_cast
        ring
      · intro _
        by_cases h0 : cs.countP PlayerCall.isRightKeydown = 0
        · obtain ⟨a, b⟩ := izero h0
          exact ⟨a.trans hd, b.trans hi⟩
        · exact ione (Nat.one_le_iff_ne_zero.mpr h0)
      · intro h
        omega

theorem calls_keep_direction_row (calls : List PlayerCall) :
    ∀ p : Player,
      (p.direction = 0 ∨ p.direction = 1 ∨ p.direction = 2 ∨ p.direction = 3) →
      ((p.calls calls).1.direction = 0 ∨ (p.calls calls).1.direction = 1 ∨
        (p.calls calls).1.direction = 2 ∨ (p.calls calls).1.direction = 3) ∧
      (p.calls calls).1.h = p.h ∧
      (∀ rect ∈ emitted (p.calls calls).2,
        rect.y = 0 ∨ rect.y = p.h ∨ rect.y = 2 * p.h ∨ rect.y = 3 * p.h) := by
  induction calls with
  | nil =>
    intro p hp
    refine ⟨hp, rfl, ?_⟩
    intro rect hrect
    simp [Player.calls, emitted] at hrect
  | cons c cs ih =>
    intro p hp
    obtain ⟨_, hh, _, hdir, hrects, _⟩ := call_keeps_fields p c
    have hp1 : (p.call c).1.direction = 0 ∨ (p.call c).1.direction = 1 ∨
        (p.call c).1.direction = 2 ∨ (p.call c).1.direction = 3 := by
      rcases hdir with h | h | h | h | h
      · rw [h]; exact hp
      · exact Or.inl h
      · exact Or.inr (Or.inl h)
      · exact Or.inr (Or.inr (Or.inl h))
      · exact Or.inr (Or.inr (Or.inr h))
    obtain ⟨id, ih2, irects⟩ := ih (p.call c).1 hp1
    refine ⟨id, ih2.trans hh, ?_⟩
    intro rect hrect
    simp only [Player.calls, emitted_append, List.mem_append] at hrect
    rcases hrect with hrect | hrect
    · have hy := (hrects rect hrect).1
      rcases hp with h | h | h | h <;> rw [h] at hy
      · left; rw [hy]; ring
      · right; left; rw [hy]; ring
      · right; right; left; exact hy
      · right; right; right; exact hy
    · have h := irects rect hrect
      rw [hh] at h
      exact h

theorem player_new_fields (junk : Unwritten) (junkW junkH : Int) (loaded created : Ptr)
    (now : Nat) (spawnX spawnY playerWidth playerHeight moveSpeed : Int) :
    (Player.new junk junkW junkH loaded created now spawnX spawnY playerWidth playerHeight
      moveSpeed).1.objPosX = spawnX ∧
    (Player.new junk junkW junkH loaded created now spawnX spawnY playerWidth playerHeight
      moveSpeed).1.objPosY = spawnY ∧
    (Player.new junk junkW junkH loaded created now spawnX spawnY playerWidth playerHeight
      moveSpeed).1.w = playerWidth ∧
    (Player.new junk junkW junkH loaded created now spawnX spawnY playerWidth playerHeight
      moveSpeed).1.h = playerHeight ∧
    (Player.new junk junkW junkH loaded created now spawnX spawnY playerWidth playerHeight
      moveSpeed).1.moveSpeed = moveSpeed ∧
    (Player.new junk junkW junkH loaded created now spawnX spawnY playerWidth playerHeight
      moveSpeed).1.direction = 2 ∧
    (Player.new junk junkW junkH loaded created now spawnX spawnY playerWidth playerHeight
      moveSpeed).1.idle = true ∧
    emitted (Player.new junk junkW junkH loaded created now spawnX spawnY playerWidth
      playerHeight moveSpeed).2 = [] := by
  cases loaded <;>
    simp [Player.new, SpriteObject.new, BitmapObject.new, BitmapManager.loadBitmapContent,
      BitmapManager.getSurface, emitted, Effect.srcRectSet]

/-! ## Scenarios of the player -/

/-- C25: a player built at (0, 0) with 64x64 frames starts with direction 2 and
`idle = true`, and after any sequence of `update()` calls (and empty `animate()`
calls) with no input event the position is (0, 0), the direction 2, `idle` true,
and every source rectangle the animator has set is (0, 128, 64, 64). -/
theorem no_input_keeps_player_still (junk : Unwritten) (junkW junkH : Int)
    (loaded created : Ptr) (t0 : Nat) (moveSpeed : Int) (calls : List PlayerCall)
    (hcalls : ∀ c ∈ calls, c.isInput = false) :
    ((Player.new junk junkW junkH loaded created t0 0 0 64 64 moveSpeed).1.direction = 2 ∧
     (Player.new junk junkW junkH loaded created t0 0 0 64 64 moveSpeed).1.idle = true) ∧
    (((Player.new junk junkW junkH loaded created t0 0 0 64 64 moveSpeed).1.calls calls).1.objPosX
        = 0 ∧
     ((Player.new junk junkW junkH loaded created t0 0 0 64 64 moveSpeed).1.calls calls).1.objPosY
        = 0 ∧
     ((Player.new junk junkW junkH loaded created t0 0 0 64 64 moveSpeed).1.calls calls).1.direction
        = 2 ∧
     ((Player.new junk junkW junkH loaded created t0 0 0 64 64 moveSpeed).1.calls calls).1.idle
        = true) ∧
    (∀ rect ∈ emitted
        ((Player.new junk junkW junkH loaded created t0 0 0 64 64 moveSpeed).1.calls calls).2,
      rect = ⟨0, 128, 64, 64⟩) := by
  obtain ⟨nx, ny, nw, nh, _, nd, ni, _⟩ :=
    player_new_fields junk junkW junkH loaded created t0 0 0 64 64 moveSpeed
  obtain ⟨hx, hy, hd, hi, hrects⟩ := calls_without_input calls
    (Player.new junk junkW junkH loaded created t0 0 0 64 64 moveSpeed).1 hcalls
  refine ⟨⟨nd, ni⟩, ⟨hx.trans nx, hy.trans ny, hd.trans nd, hi.trans ni⟩, ?_⟩
  intro rect hrect
  obtain ⟨ry, rw, rh, rx⟩ := hrects rect hrect
  rw [nd, nh] at ry
  rw [nw] at rw
  rw [nh] at rh
  have rx0 := rx ni
  cases rect
  simp only [SDL_Rect.mk.injEq]
  simp only at ry rw rh rx0
  exact ⟨rx0, by rw [ry]; norm_num, rw, rh⟩

/-- Witness of C25: the sample player updated at 1016, 1101 and 1300, with an
empty `animate()` in between. -/
theorem no_input_keeps_player_still_witness :
    (∀ c ∈ [PlayerCall.update 1016, .animate0, .update 1101, .update 1300],
      c.isInput = false) ∧
    (∀ rect ∈ emitted
        ((Player.new staleMem 0 0 (some 1) (some 2) 1000 0 0 64 64 2).1.calls
          [PlayerCall.update 1016, .animate0, .update 1101, .update 1300]).2,
      rect = ⟨0, 128, 64, 64⟩) :=
  ⟨by decide,
   (no_input_keeps_player_still staleMem 0 0 (some 1) (some 2) 1000 2
      [PlayerCall.update 1016, .animate0, .update 1101, .update 1300] (by decide)).2.2⟩

/-- C26: when the only input events are right-arrow keydowns, `n` of them, with
any `update()` calls in between, `objPosX` is the spawn position plus
`moveSpeed * n` and `objPosY` is unchanged; for a player built at (0, 0) with
`moveSpeed = 2` and `n ≥ 1` this gives `objPosX = 2 * n`, `objPosY = 0`,
`direction = 3` and `idle = false`. -/
theorem held_right_advances_by_moveSpeed (junk : Unwritten) (junkW junkH : Int)
    (loaded created : Ptr) (t0 : Nat) (spawnX spawnY w h moveSpeed : Int)
    (calls : List PlayerCall)
    (hcalls : ∀ c ∈ calls, c.isInput = false ∨ c = .input ⟨SDL_KEYDOWN, SDLK_RIGHT⟩) :
    (((Player.new junk junkW junkH loaded created t0 spawnX spawnY w h moveSpeed).1.calls
        calls).1.objPosX
        = spawnX + moveSpeed * (calls.countP PlayerCall.isRightKeydown : Nat) ∧
     ((Player.new junk junkW junkH loaded created t0 spawnX spawnY w h moveSpeed).1.calls
        calls).1.objPosY = spawnY) ∧
    (1 ≤ calls.countP PlayerCall.isRightKeydown →
      ((Player.new junk junkW junkH loaded created t0 0 0 w h 2).1.calls calls).1.objPosX
        = 2 * (calls.countP PlayerCall.isRightKeydown : Nat) ∧
      ((Player.new junk junkW junkH loaded created t0 0 0 w h 2).1.calls calls).1.objPosY = 0 ∧
      ((Player.new junk junkW junkH loaded created t0 0 0 w h 2).1.calls calls).1.direction = 3 ∧
      ((Player.new junk junkW junkH loaded created t0 0 0 w h 2).1.calls calls).1.idle = false) := by
  obtain ⟨nx, ny, _, _, nm, _, _, _⟩ :=
    player_new_fields junk junkW junkH loaded created t0 spawnX spawnY w h moveSpeed
  obtain ⟨_, hx, hy, _, _⟩ := calls_of_right_keydowns calls
    (Player.new junk junkW junkH loaded created t0 spawnX spawnY w h moveSpeed).1 hcalls
  obtain ⟨zx, zy, _, _, zm, _, _, _⟩ :=
    player_new_fields junk junkW junkH loaded created t0 0 0 w h 2
  obtain ⟨_, gx, gy, gone, _⟩ := calls_of_right_keydowns calls
    (Player.new junk junkW junkH loaded created t0 0 0 w h 2).1 hcalls
  refine ⟨⟨?_, hy.trans ny⟩, ?_⟩
  · rw [hx, nx, nm]
  · intro hn
    refine ⟨?_, gy.trans zy, (gone hn).1, (gone hn).2⟩
    rw [gx, zx, zm]
    ring

/-- Witness of C26: the sample player receives three right-arrow keydowns with
updates in between. -/
theorem held_right_advances_by_moveSpeed_witness :
    ((∀ c ∈ [PlayerCall.input ⟨SDL_KEYDOWN, SDLK_RIGHT⟩, .update 1016,
        .input ⟨SDL_KEYDOWN, SDLK_RIGHT⟩, .update 1101, .input ⟨SDL_KEYDOWN, SDLK_RIGHT⟩],
        c.isInput = false ∨ c = .input ⟨SDL_KEYDOWN, SDLK_RIGHT⟩) ∧
      1 ≤ [PlayerCall.input ⟨SDL_KEYDOWN, SDLK_RIGHT⟩, .update 1016,
        .input ⟨SDL_KEYDOWN, SDLK_RIGHT⟩, .update 1101,
        .input ⟨SDL_KEYDOWN, SDLK_RIGHT⟩].countP PlayerCall.isRightKeydown) ∧
    (((Player.new staleMem 0 0 (some 1) (some 2) 1000 0 0 64 64 2).1.calls
        [PlayerCall.input ⟨SDL_KEYDOWN, SDLK_RIGHT⟩, .update 1016,
         .input ⟨SDL_KEYDOWN, SDLK_RIGHT⟩, .update 1101,
         .input ⟨SDL_KEYDOWN, SDLK_RIGHT⟩]).1.objPosX
        = 2 * ([PlayerCall.input ⟨SDL_KEYDOWN, SDLK_RIGHT⟩, .update 1016,
         .input ⟨SDL_KEYDOWN, SDLK_RIGHT⟩, .update 1101,
         .input ⟨SDL_KEYDOWN, SDLK_RIGHT⟩].countP PlayerCall.isRightKeydown : Nat) ∧
      ((Player.new staleMem 0 0 (some 1) (some 2) 1000 0 0 64 64 2).1.calls
        [PlayerCall.input ⟨SDL_KEYDOWN, SDLK_RIGHT⟩, .update 1016,
         .input ⟨SDL_KEYDOWN, SDLK_RIGHT⟩, .update 1101,
         .input ⟨SDL_KEYDOWN, SDLK_RIGHT⟩]).1.objPosY = 0 ∧
      ((Player.new staleMem 0 0 (some 1) (some 2) 1000 0 0 64 64 2).1.calls
        [PlayerCall.input ⟨SDL_KEYDOWN, SDLK_RIGHT⟩, .update 1016,
         .input ⟨SDL_KEYDOWN, SDLK_RIGHT⟩, .update 1101,
         .input ⟨SDL_KEYDOWN, SDLK_RIGHT⟩]).1.direction = 3 ∧
      ((Player.new staleMem 0 0 (some 1) (some 2) 1000 0 0 64 64 2).1.calls
        [PlayerCall.input ⟨SDL_KEYDOWN, SDLK_RIGHT⟩, .update 1016,
         .input ⟨SDL_KEYDOWN, SDLK_RIGHT⟩, .update 1101,
         .input ⟨SDL_KEYDOWN, SDLK_RIGHT⟩]).1.idle = false) :=
  ⟨⟨by decide, by decide⟩,
   (held_right_advances_by_moveSpeed staleMem 0 0 (some 1) (some 2) 1000 0 0 64 64 2
      [PlayerCall.input ⟨SDL_KEYDOWN, SDLK_RIGHT⟩, .update 1016,
       .input ⟨SDL_KEYDOWN, SDLK_RIGHT⟩, .update 1101,
       .input ⟨SDL_KEYDOWN, SDLK_RIGHT⟩] (by decide)).2 (by decide)⟩

/-- C29: after the `Player` constructor and any sequence of `inputEventHandler`,
`update` and `animate()` calls, the direction is 0, 1, 2 or 3, and every source
rectangle set from the constructor on has `y` equal to 0, `h`, `2h` or `3h`,
`h` being the frame height. -/
theorem player_direction_is_a_sheet_row (junk : Unwritten) (junkW junkH : Int)
    (loaded created : Ptr) (t0 : Nat) (spawnX spawnY w h moveSpeed : Int)
    (calls : List PlayerCall) :
    (((Player.new junk junkW junkH loaded created t0 spawnX spawnY w h moveSpeed).1.calls
        calls).1.direction = 0 ∨
     ((Player.new junk junkW junkH loaded created t0 spawnX spawnY w h moveSpeed).1.calls
        calls).1.direction = 1 ∨
     ((Player.new junk junkW junkH loaded created t0 spawnX spawnY w h moveSpeed).1.calls
        calls).1.direction = 2 ∨
     ((Player.new junk junkW junkH loaded created t0 spawnX spawnY w h moveSpeed).1.calls
        calls).1.direction = 3) ∧
    (∀ rect ∈ emitted
        ((Player.new junk junkW junkH loaded created t0 spawnX spawnY w h moveSpeed).2
          ++ ((Player.new junk junkW junkH loaded created t0 spawnX spawnY w h moveSpeed).1.calls
            calls).2),
      rect.y = 0 ∨ rect.y = h ∨ rect.y = 2 * h ∨ rect.y = 3 * h) := by
  obtain ⟨_, _, _, nh, _, nd, _, ne⟩ :=
    player_new_fields junk junkW junkH loaded created t0 spawnX spawnY w h moveSpeed
  obtain ⟨hdir, _, hrects⟩ := calls_keep_direction_row calls
    (Player.new junk junkW junkH loaded created t0 spawnX spawnY w h moveSpeed).1
    (Or.inr (Or.inr (Or.inl nd)))
  refine ⟨hdir, ?_⟩
  intro rect hrect
  rw [emitted_append, ne, List.nil_append] at hrect
  have hy := hrects rect hrect
  rw [nh] at hy
  exact hy

/-! ## The render loop's pacing -/

theorem delays_append (a b : List Effect) : delays (a ++ b) = delays a ++ delays b := by
  simp [delays]

theorem bitmap_draw_no_delay (o : BitmapObject) : delays o.draw.2 = [] := by
  unfold BitmapObject.draw
  split <;> rfl

theorem animate_no_delay (s : SpriteObject) (d : Int) (idle : Bool) (now : Nat) :
    delays (s.animate d idle now).2 = [] := by
  by_cases hg : toU32 s.animationSpeed < u32sub (now % U32) s.lastFrameTime <;>
    cases idle <;>
    simp [SpriteObject.animate, BitmapObject.setSrcRect, delays, Effect.delayMs, hg]

theorem update_no_delay (p : Player) (now : Nat) : delays (p.update now).2 = [] := by
  simp only [Player.update, delays_append, animate_no_delay, SpriteObject.draw,
    bitmap_draw_no_delay, List.append_nil]

theorem handler_no_delay (p : Player) (event : SDL_Event) :
    delays (p.inputEventHandler event).2 = [] := by
  have hnil : delays ([] : List Effect) = [] := rfl
  have htr : ∀ (q : Player) (dx dy : Int), delays (q.translate dx dy).2 = [] := by
    intro q dx dy
    simp only [Player.translate, SpriteObject.translate, SpriteObject.draw]
    exact bitmap_draw_no_delay _
  by_cases hd : event.type = SDL_KEYDOWN
  · rw [handler_on_keydown p event hd]
    split_ifs <;> simp [htr, hnil]
  · by_cases hu : event.type = SDL_KEYUP
    · rw [handler_on_keyup p event hu]
      rfl
    · simp [Player.inputEventHandler, hd, hu, hnil]

theorem pollEvents_no_delay (events : List SDL_Event) :
    ∀ (p : Player) (quit : Bool), delays (pollEvents p quit events).2 = [] := by
  induction events with
  | nil => intro p quit; rfl
  | cons e es ih =>
    intro p quit
    simp only [pollEvents, delays_append, handler_no_delay, ih, List.append_nil]

theorem mainLoopBody_delays (p : Player) (quit : Bool) (f : Frame) :
    delays (mainLoopBody p quit f).2 = delays (framePacing f.frameStart f.afterPresent) := by
  have h2 : delays [Effect.SDL_SetRenderDrawColor white, Effect.SDL_RenderClear] = [] := rfl
  have h3 : delays [Effect.SDL_RenderPresent] = [] := rfl
  have h4 : ∀ s : SpriteObject, delays s.animate0.2 = [] := fun _ => rfl
  simp only [mainLoopBody, delays_append, pollEvents_no_delay, update_no_delay, h2, h3, h4,
    List.append_nil, List.nil_append]

theorem framePacing_short (frameStart now : Nat)
    (ht : u32sub now frameStart < 2147483648) :
    delays (framePacing frameStart now)
      = if u32sub now frameStart < 16 then [16 - u32sub now frameStart] else [] := by
  have hlt : u32sub now frameStart < U32 := by unfold U32; omega
  have hconv : toInt32 (u32sub now frameStart) = ((u32sub now frameStart : Nat) : Int) := by
    unfold toInt32
    rw [Nat.mod_eq_of_lt hlt, if_pos ht]
  have hfd : frameDelay = 16 := by decide
  unfold framePacing
  simp only [hconv, hfd]
  by_cases h16 : u32sub now frameStart < 16
  · have hgt : (16 : Int) > ((u32sub now frameStart : Nat) : Int) := by omega
    have hval : toU32 (16 - ((u32sub now frameStart : Nat) : Int))
        = 16 - u32sub now frameStart := by
      unfold toU32 U32
      omega
    rw [if_pos hgt, if_pos h16, hval]
    rfl
  · have hgt : ¬ (16 : Int) > ((u32sub now frameStart : Nat) : Int) := by omega
    rw [if_neg hgt, if_neg h16]
    rfl

/-- C27 (as stated, refuted): an iteration of the loop whose frame starts at
clock reading 1000 and whose present returns at 2147484748, so that
`t = 2147483748 ≥ 16`, stores `t` in the `int` `frameTime` as -2147483548
and requests a sleep of 2147483564 ms, which is more than 16. -/
theorem frame_pacing_counterexample :
    u32sub 2147484748 1000 = 2147483748 ∧
    toInt32 (u32sub 2147484748 1000) = -2147483548 ∧
    delays (mainLoopBody samplePlayer false ⟨1000, [], 1001, 2147484748⟩).2 = [2147483564] ∧
    ¬ (2147483564 ≤ 16) := by
  decide

/-- C27 (amended): `frameDelay` is 16, and in every loop iteration whose
`Uint32` clock difference `t = (clock after present) - frameStart` is below
`2^31` (so that the `int` `frameTime` holds `t`), the loop requests one sleep of
`16 - t` ms when `t < 16` and none when `t ≥ 16`; every sleep it requests is
between 1 and 16 ms, and with `t < 16` the work and the sleep add up to
16 ms. -/
theorem frame_pacing_below_int_range (p : Player) (quit : Bool) (f : Frame)
    (ht : u32sub f.afterPresent f.frameStart < 2147483648) :
    frameDelay = 16 ∧
    (u32sub f.afterPresent f.frameStart < 16 →
      delays (mainLoopBody p quit f).2 = [16 - u32sub f.afterPresent f.frameStart]) ∧
    (16 ≤ u32sub f.afterPresent f.frameStart → delays (mainLoopBody p quit f).2 = []) ∧
    (∀ ms ∈ delays (mainLoopBody p quit f).2, 1 ≤ ms ∧ ms ≤ 16) ∧
    (u32sub f.afterPresent f.frameStart < 16 →
      ∀ ms ∈ delays (mainLoopBody p quit f).2,
        u32sub f.afterPresent f.frameStart + ms = 16) := by
  rw [mainLoopBody_delays, framePacing_short _ _ ht]
  refine ⟨by decide, ?_, ?_, ?_, ?_⟩
  · intro h
    rw [if_pos h]
  · intro h
    rw [if_neg (by omega)]
  · intro ms hms
    by_cases h : u32sub f.afterPresent f.frameStart < 16
    · rw [if_pos h] at hms
      simp only [List.mem_singleton] at hms
      omega
    · rw [if_neg h] at hms
      simp at hms
  · intro h ms hms
    rw [if_pos h] at hms
    simp only [List.mem_singleton] at hms
    omega

/-- Witness of C27 (amended): the sample player's frame starts at 4294967290, the
clock wraps, and the present returns at 5, so that `t = 11` and the loop sleeps
5 ms. -/
theorem frame_pacing_below_int_range_witness :
    (u32sub 5 4294967290 < 2147483648 ∧ u32sub 5 4294967290 < 16) ∧
    delays (mainLoopBody samplePlayer false ⟨4294967290, [], 4294967291, 5⟩).2
      = [16 - u32sub 5 4294967290] :=
  ⟨by decide,
   (frame_pacing_below_int_range samplePlayer false ⟨4294967290, [], 4294967291, 5⟩
      (by decide)).2.1 (by decide)⟩

/-! ## The animator's clock -/

/-- C28: for every `lastFrameTime` and every elapsed time `e` below `2^32` ms,
the `Uint32` difference between the clock reading `(lastFrameTime + e) mod 2^32`
and `lastFrameTime` is `e`, also when the clock has wrapped, and the tick at that
reading is effective (it sets a source rectangle and stores the reading) exactly
when `e` exceeds `animationSpeed` taken as an unsigned value; for a non-negative
`animationSpeed` that is `e > animationSpeed`. -/
theorem animate_gate_survives_wraparound (s : SpriteObject) (d : Int) (idle : Bool) (e : Nat)
    (he : e < U32) :
    u32sub ((s.lastFrameTime + e) % U32) s.lastFrameTime = e ∧
    ((s.animate d idle ((s.lastFrameTime + e) % U32)).2 ≠ [] ↔ toU32 s.animationSpeed < e) ∧
    (toU32 s.animationSpeed < e →
      (emitted (s.animate d idle ((s.lastFrameTime + e) % U32)).2).length = 1 ∧
      (s.animate d idle ((s.lastFrameTime + e) % U32)).1.lastFrameTime
        = (s.lastFrameTime + e) % U32) ∧
    (¬ toU32 s.animationSpeed < e →
      s.animate d idle ((s.lastFrameTime + e) % U32) = (s, [])) ∧
    (0 ≤ s.animationSpeed → s.animationSpeed < 2147483648 →
      ((s.animate d idle ((s.lastFrameTime + e) % U32)).2 ≠ [] ↔ s.animationSpeed < (e : Int))) := by
  have hsub : u32sub ((s.lastFrameTime + e) % U32) s.lastFrameTime = e := by
    unfold u32sub U32 at *
    omega
  have hsub2 : u32sub ((s.lastFrameTime + e) % U32 % U32) s.lastFrameTime = e := by
    rw [u32sub_mod_left]; exact hsub
  have hiff : (s.animate d idle ((s.lastFrameTime + e) % U32)).2 ≠ []
      ↔ toU32 s.animationSpeed < e := by
    by_cases hg : toU32 s.animationSpeed < e <;>
      by_cases hw : s.frameCount ≤ s.currentFrame + 1 <;>
      cases idle <;>
      simp [SpriteObject.animate, BitmapObject.setSrcRect, hsub, hsub2, hg, hw]
  refine ⟨hsub, hiff, ?_, ?_, ?_⟩
  · intro hg
    by_cases hw : s.frameCount ≤ s.currentFrame + 1 <;>
      cases idle <;>
      simp [SpriteObject.animate, BitmapObject.setSrcRect, emitted, Effect.srcRectSet, hsub,
        hsub2, hg, hw]
  · intro hg
    simp [SpriteObject.animate, hsub, hsub2, hg]
  · intro h0 h1
    have hconv : toU32 s.animationSpeed = s.animationSpeed.toNat := by
      unfold toU32 U32
      rw [Int.emod_eq_of_lt h0 (by push_cast; omega)]
    rw [hiff, hconv]
    omega

/-- Witness of C28: a sprite built at clock reading 4294967290 is ticked 101 ms
later, at the wrapped reading 95, and the tick is effective. -/
theorem animate_gate_survives_wraparound_witness :
    (101 < U32 ∧
      toU32 (SpriteObject.new staleMem 0 0 (some 1) (some 2) 4294967290 0 0 64 64).1.animationSpeed
        < 101) ∧
    ((emitted ((SpriteObject.new staleMem 0 0 (some 1) (some 2) 4294967290 0 0 64 64).1.animate
        2 false
        (((SpriteObject.new staleMem 0 0 (some 1) (some 2) 4294967290 0 0 64 64).1.lastFrameTime
          + 101) % U32)).2).length = 1 ∧
      ((SpriteObject.new staleMem 0 0 (some 1) (some 2) 4294967290 0 0 64 64).1.animate
        2 false
        (((SpriteObject.new staleMem 0 0 (some 1) (some 2) 4294967290 0 0 64 64).1.lastFrameTime
          + 101) % U32)).1.lastFrameTime
        = ((SpriteObject.new staleMem 0 0 (some 1) (some 2) 4294967290 0 0 64 64).1.lastFrameTime
          + 101) % U32) :=
  ⟨by decide,
   (animate_gate_survives_wraparound
      (SpriteObject.new staleMem 0 0 (some 1) (some 2) 4294967290 0 0 64 64).1 2 false 101
      (by decide)).2.2.1 (by decide)⟩

/-! ## The line segment's midpoint under scale -/

/-- The two scaled coordinates of one axis: when
`(|a| + |b|) * (1 + |f|) ≤ 2^24`, their sum after `LineSegment::scale(f)` is
within 1 of `a + b`. -/
theorem scale_pair_sum (a b : Int) (f : ℚ)
    (H : ((|a| + |b| : Int) : ℚ) * (1 + |f|) ≤ 16777216) :
    |truncToInt
        (fadd (fdiv (intToFloat (a + b)) 2)
          (fmul (fsub (intToFloat a) (fdiv (intToFloat (a + b)) 2)) f))
      + truncToInt
        (fadd (fdiv (intToFloat (a + b)) 2)
          (fmul (fsub (intToFloat b) (fdiv (intToFloat (a + b)) 2)) f))
      - (a + b)| ≤ 1 := by
  have hf0 := abs_nonneg f
  have hS0 : (0 : ℚ) ≤ ((|a| + |b| : Int) : ℚ) := by
    exact_mod_cast add_nonneg (abs_nonneg a) (abs_nonneg b)
  have hSf0 : (0 : ℚ) ≤ ((|a| + |b| : Int) : ℚ) * |f| := mul_nonneg hS0 hf0
  have hSq : ((|a| + |b| : Int) : ℚ) ≤ 16777216 := by nlinarith
  have hS : |a| + |b| ≤ 16777216 := by exact_mod_cast hSq
  have ha := abs_nonneg a
  have hb := abs_nonneg b
  have hab1 := abs_add a b
  have hab2 := abs_sub a b
  have hba2 := abs_sub b a
  have hs : |a + b| ≤ 16777216 := by omega
  have hda : |2 * a - (a + b)| ≤ 16777216 := by
    have e : 2 * a - (a + b) = a - b := by ring
    rw [e]; omega
  have hdb : |2 * b - (a + b)| ≤ 16777216 := by
    have e : 2 * b - (a + b) = b - a := by ring
    rw [e]; omega
  rw [segment_offset_exact a b a hs (by omega) hda, segment_offset_exact a b b hs (by omega) hdb,
    segment_centre_exact a b hs]
  -- the exact centre `cx`, the exact offset `d` of `a`, and its negation for `b`
  have ecx : |((a + b : Int) : ℚ) / 2| ≤ ((|a| + |b| : Int) : ℚ) / 2 := by
    rw [abs_div, abs_of_pos (by norm_num : (0 : ℚ) < 2)]
    have : |((a + b : Int) : ℚ)| ≤ ((|a| + |b| : Int) : ℚ) := by exact_mod_cast hab1
    linarith
  have ed : |((2 * a - (a + b) : Int) : ℚ) / 2| ≤ ((|a| + |b| : Int) : ℚ) / 2 := by
    rw [abs_div, abs_of_pos (by norm_num : (0 : ℚ) < 2)]
    have e : (2 * a - (a + b) : Int) = a - b := by ring
    have : |((2 * a - (a + b) : Int) : ℚ)| ≤ ((|a| + |b| : Int) : ℚ) := by
      rw [e]; exact_mod_cast hab2
    linarith
  have eneg : ((2 * b - (a + b) : Int) : ℚ) / 2 = -(((2 * a - (a + b) : Int) : ℚ) / 2) := by
    push_cast; ring
  rw [eneg]
  generalize ((2 * a - (a + b) : Int) : ℚ) / 2 = d at ed
  have hsum : ((a + b : Int) : ℚ) = 2 * (((a + b : Int) : ℚ) / 2) := by ring
  generalize ((a + b : Int) : ℚ) / 2 = cx at ecx hsum
  have hprod : |d * f| ≤ ((|a| + |b| : Int) : ℚ) * |f| / 2 := by
    rw [abs_mul]
    have := mul_le_mul_of_nonneg_right ed hf0
    linarith
  have hu2 : fmul (-d) f = - fmul d f := by
    unfold fmul
    rw [neg_mul, toFloat_neg]
  rw [hu2]
  have herr := abs_le.mp (toFloat_err_one (d * f) (by linarith))
  have hp := abs_le.mp hprod
  have hc := abs_le.mp ecx
  change |truncToInt (fadd cx (toFloat (d * f))) + truncToInt (fadd cx (-toFloat (d * f)))
    - (a + b)| ≤ 1
  generalize toFloat (d * f) = u at herr
  have hz1 : |cx + u| < 16777216 := by
    rw [abs_lt]
    constructor <;> linarith [hp.1, hp.2, hc.1, hc.2, herr.1, herr.2]
  have hz2 : |cx + -u| < 16777216 := by
    rw [abs_lt]
    constructor <;> linarith [hp.1, hp.2, hc.1, hc.2, herr.1, herr.2]
  have k1 := Int.floor_le (cx + u)
  have k2 := Int.lt_floor_add_one (cx + u)
  generalize Int.floor (cx + u) = k at k1 k2
  have A1 : ((k : Int) : ℚ) ≤ fadd cx u := toFloat_ge_int _ k hz1 k1
  have A2 : fadd cx u ≤ ((k + 1 : Int) : ℚ) :=
    toFloat_le_int _ (k + 1) hz1 (by push_cast; linarith)
  have B1 : ((a + b - (k + 1) : Int) : ℚ) ≤ fadd cx (-u) :=
    toFloat_ge_int _ (a + b - (k + 1)) hz2 (by push_cast; push_cast at hsum; linarith)
  have B2 : fadd cx (-u) ≤ ((a + b - k : Int) : ℚ) :=
    toFloat_le_int _ (a + b - k) hz2 (by push_cast; push_cast at hsum; linarith)
  have TA := truncToInt_between _ _ _ A1 A2
  have TB := truncToInt_between _ _ _ B1 B2
  exact abs_le.mpr ⟨by omega, by omega⟩

/-- C30 (as stated, refuted): `scale(1)` stores the segment from (16777217, 0)
to (16777217, 0) as the segment from (16777216, 0) to (16777216, 0), so the sum
of the two `x` components changes from 33554434 to 33554432, by 2. -/
theorem lineSegment_scale_midpoint_counterexample :
    ((⟨⟨16777217, 0⟩, ⟨16777217, 0⟩, white⟩ : LineSegment).scale 1).1
      = ⟨⟨16777216, 0⟩, ⟨16777216, 0⟩, white⟩ ∧
    ¬ |(((⟨⟨16777217, 0⟩, ⟨16777217, 0⟩, white⟩ : LineSegment).scale 1).1.start.getX
          + ((⟨⟨16777217, 0⟩, ⟨16777217, 0⟩, white⟩ : LineSegment).scale 1).1.«end».getX)
        - ((⟨⟨16777217, 0⟩, ⟨16777217, 0⟩, white⟩ : LineSegment).start.getX
          + (⟨⟨16777217, 0⟩, ⟨16777217, 0⟩, white⟩ : LineSegment).«end».getX)| ≤ 1 := by
  have h := (degenerate_state_16777217 sampleLibm 0 1).2
  refine ⟨h, ?_⟩
  rw [h]
  decide

/-- C30 (amended): for a segment with endpoints `(sx, sy)`, `(ex, ey)` and a
factor `f` with `(|sx| + |ex|) * (1 + |f|) ≤ 2^24` and
`(|sy| + |ey|) * (1 + |f|) ≤ 2^24`, the endpoints `(sx', sy')`, `(ex', ey')`
stored after `scale(f)` satisfy `|(sx' + ex') - (sx + ex)| ≤ 1` and
`|(sy' + ey') - (sy + ey)| ≤ 1`: the midpoint drifts by at most half a unit per
axis. -/
theorem lineSegment_scale_midpoint_drift (l : LineSegment) (factor : ℚ)
    (hx : ((|l.start.getX| + |l.«end».getX| : Int) : ℚ) * (1 + |factor|) ≤ 16777216)
    (hy : ((|l.start.getY| + |l.«end».getY| : Int) : ℚ) * (1 + |factor|) ≤ 16777216) :
    |((l.scale factor).1.start.getX + (l.scale factor).1.«end».getX)
        - (l.start.getX + l.«end».getX)| ≤ 1 ∧
    |((l.scale factor).1.start.getY + (l.scale factor).1.«end».getY)
        - (l.start.getY + l.«end».getY)| ≤ 1 :=
  ⟨scale_pair_sum l.start.getX l.«end».getX factor hx,
   scale_pair_sum l.start.getY l.«end».getY factor hy⟩

/-- Witness of C30 (amended): the segment from (0, 0) to (3, 1) and the factor
3/2. -/
theorem lineSegment_scale_midpoint_drift_witness :
    ((((|(0 : Int)| + |(3 : Int)| : Int) : ℚ) * (1 + |(3 / 2 : ℚ)|) ≤ 16777216) ∧
      (((|(0 : Int)| + |(1 : Int)| : Int) : ℚ) * (1 + |(3 / 2 : ℚ)|) ≤ 16777216)) ∧
    |(((⟨⟨0, 0⟩, ⟨3, 1⟩, white⟩ : LineSegment).scale (3 / 2)).1.start.getX
        + ((⟨⟨0, 0⟩, ⟨3, 1⟩, white⟩ : LineSegment).scale (3 / 2)).1.«end».getX)
      - (0 + 3)| ≤ 1 := by
  have h1 : ((|(0 : Int)| + |(3 : Int)| : Int) : ℚ) * (1 + |(3 / 2 : ℚ)|) ≤ 16777216 := by
    norm_num [abs_of_pos]
  have h2 : ((|(0 : Int)| + |(1 : Int)| : Int) : ℚ) * (1 + |(3 / 2 : ℚ)|) ≤ 16777216 := by
    norm_num [abs_of_pos]
  exact ⟨⟨h1, h2⟩,
    (lineSegment_scale_midpoint_drift (⟨⟨0, 0⟩, ⟨3, 1⟩, white⟩ : LineSegment) (3 / 2) h1 h2).1⟩

end Engine2D
